import Mathlib

/-!
Bank API ledger core: shallow embedding and verified properties.

The Go packages `internal/transaction` and `internal/balance` are embedded as
pure Lean functions.

* Go `int64` values are `Int`s; every `+=` / `-=` of the source is followed by
  `wrap64`, the two's complement wrap-around of the machine type.
* Go `uint` user identifiers are `Nat`s, optional `*uint` fields are `Option Nat`.
* Go `error` values are `Option Err` (`none` is `nil`).
* `time.Now()` is read from an explicit clock value.
* The storage collaborator (`db.DB`) is a record of tables together with a
  script of outcomes for the upcoming storage calls, so that every pattern of
  storage failures can be expressed.  Console output (`println`) is not modelled.
-/

namespace BankAPI

/-! ## Errors -/

/-- Go error values produced by the embedded code. -/
inductive Err where
  /-- `fmt.Errorf(msg)` without a wrapped cause. -/
  | errorf (msg : String)
  /-- `fmt.Errorf(msg + ": %w", inner)`. -/
  | wrapf (msg : String) (inner : Err)
  /-- The sentinel `balance.ErrInsufficientFunds`. -/
  | ErrInsufficientFunds
  /-- An error reported by the storage collaborator. -/
  | storage (msg : String)
  deriving DecidableEq, Repr

/-- The `Error()` method: the message of an error. -/
def Err.Error : Err → String
  | .errorf m => m
  | .wrapf m e => m ++ ": " ++ e.Error
  | .ErrInsufficientFunds => "yetersiz bakiye"
  | .storage m => m

/-! ## Machine integers -/

/-- Two's complement wrap-around of a mathematical integer into `int64`. -/
def wrap64 (x : Int) : Int :=
  (x + 9223372036854775808) % 18446744073709551616 - 9223372036854775808

/-- The largest `int64`. -/
def maxInt64 : Int := 9223372036854775807

/-- The smallest `int64`. -/
def minInt64 : Int := -9223372036854775808

/-- Membership in the `int64` range. -/
def InInt64 (x : Int) : Prop := minInt64 ≤ x ∧ x ≤ maxInt64

instance (x : Int) : Decidable (InInt64 x) := by
  unfold InInt64; exact inferInstance

/-! ## `internal/transaction/transaction.go` -/

/-- Go `type TransactionType string`. -/
abbrev TransactionType := String

/-- Go `type TransactionStatus string`. -/
abbrev TransactionStatus := String

def TransactionTypeCredit : TransactionType := "credit"
def TransactionTypeDebit : TransactionType := "debit"
def TransactionTypeTransfer : TransactionType := "transfer"

def TransactionStatusPending : TransactionStatus := "pending"
def TransactionStatusCompleted : TransactionStatus := "completed"
def TransactionStatusFailed : TransactionStatus := "failed"

/-- The `Transaction` record; `Type_` is the Go field `Type`. -/
structure Transaction where
  ID : Nat := 0
  FromUserID : Option Nat := none
  ToUserID : Option Nat := none
  AmountCents : Int := 0
  Type_ : TransactionType := ""
  Status : TransactionStatus := ""
  FailureCause : String := ""
  CreatedAt : Nat := 0
  UpdatedAt : Nat := 0
  deriving DecidableEq, Repr

/-- `func (t *Transaction) CanTransitionTo(newStatus TransactionStatus) bool`. -/
def Transaction.CanTransitionTo (t : Transaction) (newStatus : TransactionStatus) : Bool :=
  if t.Status = TransactionStatusPending then
    newStatus = TransactionStatusCompleted || newStatus = TransactionStatusFailed
  else if t.Status = TransactionStatusCompleted then
    false
  else if t.Status = TransactionStatusFailed then
    false
  else
    false

/-- `func (t *Transaction) TransitionTo(newStatus TransactionStatus) error`;
the receiver after the call is the second component. -/
def Transaction.TransitionTo (t : Transaction) (newStatus : TransactionStatus) (now : Nat) :
    Option Err × Transaction :=
  if !t.CanTransitionTo newStatus then
    (some (.errorf ("invalid status transition from " ++ t.Status ++ " to " ++ newStatus)), t)
  else
    (none, { t with Status := newStatus, UpdatedAt := now })

/-- `func (t *Transaction) MarkAsCompleted() error`. -/
def Transaction.MarkAsCompleted (t : Transaction) (now : Nat) : Option Err × Transaction :=
  t.TransitionTo TransactionStatusCompleted now

/-- `func (t *Transaction) MarkAsFailed(cause string) error`. -/
def Transaction.MarkAsFailed (t : Transaction) (cause : String) (now : Nat) :
    Option Err × Transaction :=
  match t.TransitionTo TransactionStatusFailed now with
  | (some err, t1) => (some err, t1)
  | (none, t1) => (none, { t1 with FailureCause := cause })

/-- `func (t *Transaction) CanRollback() bool`. -/
def Transaction.CanRollback (t : Transaction) : Bool :=
  t.Status = TransactionStatusCompleted && t.Type_ ≠ TransactionTypeTransfer

/-- `func (t *Transaction) Rollback() error`. -/
def Transaction.Rollback (t : Transaction) (now : Nat) : Option Err × Transaction :=
  if !t.CanRollback then
    (some (.errorf "transaction cannot be rolled back"), t)
  else
    (none, { t with Status := TransactionStatusFailed,
                    FailureCause := "Rolled back by user", UpdatedAt := now })

/-- `func (t *Transaction) Validate() error`. -/
def Transaction.Validate (t : Transaction) : Option Err :=
  if t.AmountCents ≤ 0 then
    some (.errorf "amount must be positive")
  else
    let transferCheck : Option Err :=
      if t.Type_ = TransactionTypeTransfer then
        match t.FromUserID, t.ToUserID with
        | some fromID, some toID =>
          if fromID = toID then some (.errorf "cannot transfer to same user") else none
        | _, _ => some (.errorf "transfer transactions require both from and to user IDs")
      else none
    match transferCheck with
    | some err => some err
    | none =>
      if t.Type_ = TransactionTypeCredit ∨ t.Type_ = TransactionTypeDebit then
        if t.FromUserID ≠ none ∨ t.ToUserID ≠ none then
          some (.errorf "credit/debit transactions should not have from/to user IDs")
        else none
      else none

/-- A status is terminal when it is `completed` or `failed`. -/
def IsTerminal (s : TransactionStatus) : Prop :=
  s = TransactionStatusCompleted ∨ s = TransactionStatusFailed

instance (s : TransactionStatus) : Decidable (IsTerminal s) := by
  unfold IsTerminal; exact inferInstance

/-! ## The storage collaborator -/

/-- The `Balance` row of `internal/balance/balance.go`. -/
structure Balance where
  UserID : Nat := 0
  AmountCents : Int := 0
  LastUpdated : Nat := 0
  deriving DecidableEq, Repr

/-- The `BalanceHistory` row. -/
structure BalanceHistory where
  ID : Nat := 0
  UserID : Nat := 0
  AmountCents : Int := 0
  CreatedAt : Nat := 0
  deriving DecidableEq, Repr

/-- The `AuditLog` row of `internal/audit/audit.go`. -/
structure AuditLog where
  ID : Nat := 0
  EntityType : String := ""
  EntityID : String := ""
  Action : String := ""
  Details : String := ""
  CreatedAt : Nat := 0
  deriving DecidableEq, Repr

/-- The state behind `db.DB`: the four tables the ledger core touches, the
outcomes of the upcoming storage calls (`some msg`: the call fails with that
error and has no effect; an exhausted script means the call succeeds) and the
reading of the clock. -/
structure DB where
  balances : List Balance := []
  balance_histories : List BalanceHistory := []
  transactions : List Transaction := []
  audit_logs : List AuditLog := []
  outcomes : List (Option String) := []
  now : Nat := 0
  deriving DecidableEq, Repr

/-- Consume the outcome of the next storage call. -/
def DB.next (d : DB) : Option String × DB :=
  match d.outcomes with
  | [] => (none, d)
  | o :: os => (o, { d with outcomes := os })

/-- The row of a user in the balances table, if any. -/
def DB.findBalance (d : DB) (userID : Nat) : Option Balance :=
  d.balances.find? (fun b => b.UserID = userID)

/-- The stored balance of a user as `GetOrCreateBalance` reports it: the amount
of the row, and zero when there is no row yet. -/
def DB.balanceOf (d : DB) (userID : Nat) : Int :=
  match d.findBalance userID with
  | some b => b.AmountCents
  | none => 0

/-- `db.DB.FirstOrCreate(&b, Balance{UserID: userID})`: the row of the user,
inserted with the zero amount when missing. -/
def DB.FirstOrCreateBalance (d : DB) (userID : Nat) : Except Err Balance × DB :=
  match d.next with
  | (some msg, d1) => (.error (.storage msg), d1)
  | (none, d1) =>
    match d1.findBalance userID with
    | some b => (.ok b, d1)
    | none =>
      let b : Balance := { UserID := userID }
      (.ok b, { d1 with balances := d1.balances ++ [b] })

/-- Replace the row with the same primary key, or insert the row. -/
def upsertBalance (b : Balance) : List Balance → List Balance
  | [] => [b]
  | r :: rs => if r.UserID = b.UserID then b :: rs else r :: upsertBalance b rs

/-- `db.DB.Save(&b)` on a balance row. -/
def DB.SaveBalance (d : DB) (b : Balance) : Option Err × DB :=
  match d.next with
  | (some msg, d1) => (some (.storage msg), d1)
  | (none, d1) => (none, { d1 with balances := upsertBalance b d1.balances })

/-- `db.DB.Create(&BalanceHistory{...})`. -/
def DB.CreateBalanceHistory (d : DB) (h : BalanceHistory) : Option Err × DB :=
  match d.next with
  | (some msg, d1) => (some (.storage msg), d1)
  | (none, d1) =>
    let row := { h with ID := d1.balance_histories.length + 1, CreatedAt := d1.now }
    (none, { d1 with balance_histories := d1.balance_histories ++ [row] })

/-- `db.DB.Create(&auditLog)`. -/
def DB.CreateAuditLog (d : DB) (a : AuditLog) : Option Err × DB :=
  match d.next with
  | (some msg, d1) => (some (.storage msg), d1)
  | (none, d1) =>
    let row := { a with ID := d1.audit_logs.length + 1 }
    (none, { d1 with audit_logs := d1.audit_logs ++ [row] })

/-- `db.DB.Create(tx)`: the timestamps are filled in before the statement runs,
the identifier is assigned when the row is inserted.  The second component is
the caller's record after the call. -/
def DB.CreateTransaction (d : DB) (tx : Transaction) : Option Err × Transaction × DB :=
  let tx1 := { tx with CreatedAt := d.now, UpdatedAt := d.now }
  match d.next with
  | (some msg, d1) => (some (.storage msg), tx1, d1)
  | (none, d1) =>
    let row := { tx1 with ID := d1.transactions.length + 1 }
    (none, row, { d1 with transactions := d1.transactions ++ [row] })

/-- Replace the transaction row with the same primary key, or insert the row. -/
def upsertTransaction (tx : Transaction) : List Transaction → List Transaction
  | [] => [tx]
  | r :: rs => if r.ID = tx.ID then tx :: rs else r :: upsertTransaction tx rs

/-- `db.DB.Save(tx)`: all fields of the row with the same identifier are
overwritten; `UpdatedAt` is refreshed before the statement runs. -/
def DB.SaveTransaction (d : DB) (tx : Transaction) : Option Err × Transaction × DB :=
  let tx1 := { tx with UpdatedAt := d.now }
  match d.next with
  | (some msg, d1) => (some (.storage msg), tx1, d1)
  | (none, d1) => (none, tx1, { d1 with transactions := upsertTransaction tx1 d1.transactions })

/-! ## `internal/audit/audit.go` -/

/-- `func Log(entityType, entityID, action, details string)`; a failed insert
is only printed. -/
def audit.Log (entityType entityID action details : String) (d : DB) : DB :=
  if entityType = "" then d
  else if entityID = "" then d
  else if action = "" then d
  else
    (d.CreateAuditLog { EntityType := entityType, EntityID := entityID, Action := action,
                        Details := details, CreatedAt := d.now }).2

/-! ## `internal/balance/service.go` -/

/-- `func Credit(userID uint, amount int64) error`. -/
def Credit (userID : Nat) (amount : Int) (d : DB) : Option Err × DB :=
  if amount ≤ 0 then
    (some (.errorf "credit amount must be positive"), d)
  else
    match d.FirstOrCreateBalance userID with
    | (.error err, d1) => (some (.wrapf "failed to get/create balance" err), d1)
    | (.ok b, d1) =>
      let b1 : Balance :=
        { b with AmountCents := wrap64 (b.AmountCents + amount), LastUpdated := d1.now }
      match d1.SaveBalance b1 with
      | (some err, d2) => (some (.wrapf "failed to update balance" err), d2)
      | (none, d2) =>
        let d3 := (d2.CreateBalanceHistory { UserID := userID, AmountCents := b1.AmountCents }).2
        let d4 := audit.Log "balance" (toString userID) "credit"
          ("+" ++ toString amount ++ " -> " ++ toString b1.AmountCents) d3
        (none, d4)

/-- `func Debit(userID uint, amount int64) error`. -/
def Debit (userID : Nat) (amount : Int) (d : DB) : Option Err × DB :=
  if amount ≤ 0 then
    (some (.errorf "debit amount must be positive"), d)
  else
    match d.FirstOrCreateBalance userID with
    | (.error err, d1) => (some (.wrapf "failed to get/create balance" err), d1)
    | (.ok b, d1) =>
      if b.AmountCents < amount then
        (some .ErrInsufficientFunds, d1)
      else
        let b1 : Balance :=
          { b with AmountCents := wrap64 (b.AmountCents - amount), LastUpdated := d1.now }
        match d1.SaveBalance b1 with
        | (some err, d2) => (some (.wrapf "failed to update balance" err), d2)
        | (none, d2) =>
          let d3 := (d2.CreateBalanceHistory { UserID := userID, AmountCents := b1.AmountCents }).2
          let d4 := audit.Log "balance" (toString userID) "debit"
            ("-" ++ toString amount ++ " -> " ++ toString b1.AmountCents) d3
          (none, d4)

/-! ## `internal/transaction/service.go` -/

/-- The failure branch shared by the three entry points: mark the record
failed, store the cause, save it (a failed save is only printed). -/
def saveFailed (tx : Transaction) (err : Err) (d : DB) : Transaction × DB :=
  let tx1 := { tx with Status := TransactionStatusFailed, FailureCause := err.Error }
  let r := d.SaveTransaction tx1
  (r.2.1, r.2.2)

/-- `func ApplyCredit(userID uint, amount int64) (*Transaction, error)`. -/
def ApplyCredit (userID : Nat) (amount : Int) (d : DB) :
    (Option Transaction × Option Err) × DB :=
  if amount ≤ 0 then
    ((none, some (.errorf "credit amount must be positive")), d)
  else
    let tx : Transaction :=
      { ToUserID := some userID, AmountCents := amount, Type_ := TransactionTypeCredit,
        Status := TransactionStatusPending }
    match d.CreateTransaction tx with
    | (some err, _, d1) => ((none, some (.wrapf "failed to create transaction" err)), d1)
    | (none, tx1, d1) =>
      match Credit userID amount d1 with
      | (some err, d2) =>
        let r := saveFailed tx1 err d2
        ((some r.1, some err), r.2)
      | (none, d2) =>
        let tx2 := { tx1 with Status := TransactionStatusCompleted }
        match d2.SaveTransaction tx2 with
        | (some err, tx3, d3) => ((some tx3, some (.wrapf "failed to update transaction" err)), d3)
        | (none, tx3, d3) =>
          let d4 := audit.Log "transaction" (toString tx3.ID) "credit"
            ("to=" ++ toString userID ++ " amount=" ++ toString amount) d3
          ((some tx3, none), d4)

/-- `func ApplyDebit(userID uint, amount int64) (*Transaction, error)`. -/
def ApplyDebit (userID : Nat) (amount : Int) (d : DB) :
    (Option Transaction × Option Err) × DB :=
  if amount ≤ 0 then
    ((none, some (.errorf "debit amount must be positive")), d)
  else
    let tx : Transaction :=
      { FromUserID := some userID, AmountCents := amount, Type_ := TransactionTypeDebit,
        Status := TransactionStatusPending }
    match d.CreateTransaction tx with
    | (some err, _, d1) => ((none, some (.wrapf "failed to create transaction" err)), d1)
    | (none, tx1, d1) =>
      match Debit userID amount d1 with
      | (some err, d2) =>
        let r := saveFailed tx1 err d2
        ((some r.1, some err), r.2)
      | (none, d2) =>
        let tx2 := { tx1 with Status := TransactionStatusCompleted }
        match d2.SaveTransaction tx2 with
        | (some err, tx3, d3) => ((some tx3, some (.wrapf "failed to update transaction" err)), d3)
        | (none, tx3, d3) =>
          let d4 := audit.Log "transaction" (toString tx3.ID) "debit"
            ("from=" ++ toString userID ++ " amount=" ++ toString amount) d3
          ((some tx3, none), d4)

/-- `func ApplyTransfer(fromID, toID uint, amount int64) (*Transaction, error)`. -/
def ApplyTransfer (fromID toID : Nat) (amount : Int) (d : DB) :
    (Option Transaction × Option Err) × DB :=
  if amount ≤ 0 then
    ((none, some (.errorf "transfer amount must be positive")), d)
  else if fromID = toID then
    ((none, some (.errorf "cannot transfer to same user")), d)
  else
    let txModel : Transaction :=
      { FromUserID := some fromID, ToUserID := some toID, AmountCents := amount,
        Type_ := TransactionTypeTransfer, Status := TransactionStatusPending }
    match d.CreateTransaction txModel with
    | (some err, _, d1) =>
      ((none, some (.wrapf "failed to create transfer transaction" err)), d1)
    | (none, tx1, d1) =>
      -- first debit from the source account
      match Debit fromID amount d1 with
      | (some err, d2) =>
        let r := saveFailed tx1 err d2
        ((some r.1, some err), r.2)
      | (none, d2) =>
        -- then credit to the destination account
        match Credit toID amount d2 with
        | (some err, d3) =>
          -- roll the debit back; the outcome of the rollback is only printed
          let d4 := (Credit fromID amount d3).2
          let r := saveFailed tx1 err d4
          ((some r.1, some err), r.2)
        | (none, d3) =>
          let tx2 := { tx1 with Status := TransactionStatusCompleted }
          match d3.SaveTransaction tx2 with
          | (some err, tx3, d4) =>
            ((some tx3, some (.wrapf "failed to update transfer transaction" err)), d4)
          | (none, tx3, d4) =>
            let d5 := audit.Log "transaction" (toString tx3.ID) "transfer"
              ("from=" ++ toString fromID ++ " to=" ++ toString toID ++
                " amount=" ++ toString amount) d4
            ((some tx3, none), d5)

/-! ## Sequences of calls -/

/-- A call of one of the status-transition methods of `Transaction`. -/
inductive StatusCall where
  | TransitionTo (newStatus : TransactionStatus)
  | MarkAsCompleted
  | MarkAsFailed (cause : String)
  deriving DecidableEq, Repr

/-- The status a call tries to move the transaction to. -/
def StatusCall.target : StatusCall → TransactionStatus
  | .TransitionTo s => s
  | .MarkAsCompleted => TransactionStatusCompleted
  | .MarkAsFailed _ => TransactionStatusFailed

/-- Perform a call on a transaction at the given clock reading. -/
def StatusCall.apply (c : StatusCall) (t : Transaction) (now : Nat) : Option Err × Transaction :=
  match c with
  | .TransitionTo s => t.TransitionTo s now
  | .MarkAsCompleted => t.MarkAsCompleted now
  | .MarkAsFailed cause => t.MarkAsFailed cause now

/-- Perform a sequence of calls, each with its clock reading, on one
transaction; the result lists the error returned by each call. -/
def runCalls (t : Transaction) : List (StatusCall × Nat) → List (Option Err)
  | [] => []
  | (c, now) :: cs => (c.apply t now).1 :: runCalls (c.apply t now).2 cs

/-- A call of one of the balance-changing entry points. -/
inductive Op where
  | Credit (userID : Nat) (amount : Int)
  | Debit (userID : Nat) (amount : Int)
  | ApplyCredit (userID : Nat) (amount : Int)
  | ApplyDebit (userID : Nat) (amount : Int)
  | ApplyTransfer (fromID toID : Nat) (amount : Int)
  deriving DecidableEq, Repr

/-- The store after a call. -/
def Op.run : Op → DB → DB
  | .Credit u a, d => (BankAPI.Credit u a d).2
  | .Debit u a, d => (BankAPI.Debit u a d).2
  | .ApplyCredit u a, d => (BankAPI.ApplyCredit u a d).2
  | .ApplyDebit u a, d => (BankAPI.ApplyDebit u a d).2
  | .ApplyTransfer f t a, d => (BankAPI.ApplyTransfer f t a d).2

/-- The store after a finite sequence of calls, performed one after the other. -/
def runOps : List Op → DB → DB
  | [], d => d
  | op :: ops, d => runOps ops (op.run d)

/-- Every stored balance is non-negative. -/
def NonNegBalances (d : DB) : Prop := ∀ b ∈ d.balances, 0 ≤ b.AmountCents

instance (d : DB) : Decidable (NonNegBalances d) := by
  unfold NonNegBalances; exact inferInstance

/-- Every stored balance is a value of the machine type `int64`. -/
def Int64Balances (d : DB) : Prop := ∀ b ∈ d.balances, InInt64 b.AmountCents

instance (d : DB) : Decidable (Int64Balances d) := by
  unfold Int64Balances; exact inferInstance

/-- The pending record `ApplyCredit` hands to `db.DB.Create`. -/
def creditRecord (userID : Nat) (amount : Int) : Transaction :=
  { ToUserID := some userID, AmountCents := amount, Type_ := TransactionTypeCredit,
    Status := TransactionStatusPending }

/-- The pending record `ApplyDebit` hands to `db.DB.Create`. -/
def debitRecord (userID : Nat) (amount : Int) : Transaction :=
  { FromUserID := some userID, AmountCents := amount, Type_ := TransactionTypeDebit,
    Status := TransactionStatusPending }

/-- The pending record `ApplyTransfer` hands to `db.DB.Create`. -/
def transferRecord (fromID toID : Nat) (amount : Int) : Transaction :=
  { FromUserID := some fromID, ToUserID := some toID, AmountCents := amount,
    Type_ := TransactionTypeTransfer, Status := TransactionStatusPending }

/-- The store in which `ApplyTransfer` performs its debit: after the pending
record has been created. -/
def transferAfterCreate (fromID toID : Nat) (amount : Int) (d : DB) : DB :=
  (d.CreateTransaction (transferRecord fromID toID amount)).2.2

/-- The store in which `ApplyTransfer` performs its credit: after the debit. -/
def transferAfterDebit (fromID toID : Nat) (amount : Int) (d : DB) : DB :=
  (Debit fromID amount (transferAfterCreate fromID toID amount d)).2

/-- The store in which `ApplyTransfer` performs its compensating credit: after
the credit of the destination. -/
def transferAfterCredit (fromID toID : Nat) (amount : Int) (d : DB) : DB :=
  (Credit toID amount (transferAfterDebit fromID toID amount d)).2

/-- A store with two accounts in which the sixth storage call fails: during a
transfer from account 1 to account 2 this is the lookup of the destination row
inside the credit, after the pending record has been created and the debit has
been saved, logged and audited. -/
def creditOutage : DB :=
  { balances := [{ UserID := 1, AmountCents := 1000 }, { UserID := 2, AmountCents := 0 }],
    outcomes := [none, none, none, none, none, some "connection lost"] }

/-- The same store when the seventh storage call, the lookup of the compensating
credit, fails as well. -/
def creditAndRollbackOutage : DB :=
  { balances := [{ UserID := 1, AmountCents := 1000 }, { UserID := 2, AmountCents := 0 }],
    outcomes := [none, none, none, none, none, some "connection lost", some "connection lost"] }

/-- An empty store in which the second and the third storage call fail: inside
`ApplyCredit` and `ApplyDebit` these are the lookup of the balance row and the
save of the failed record, so the record written by `db.DB.Create` is what
stays stored. -/
def balanceStepOutage : DB :=
  { outcomes := [none, some "connection lost", some "connection lost"] }

/-- The storage collaborator works: none of the upcoming storage calls fails. -/
def DB.Working (d : DB) : Prop := ∀ o ∈ d.outcomes, o = none

instance (d : DB) : Decidable d.Working := by
  unfold DB.Working; exact inferInstance

/-- The error a call returns. -/
def Op.err : Op → DB → Option Err
  | .Credit u a, d => (BankAPI.Credit u a d).1
  | .Debit u a, d => (BankAPI.Debit u a d).1
  | .ApplyCredit u a, d => (BankAPI.ApplyCredit u a d).1.2
  | .ApplyDebit u a, d => (BankAPI.ApplyDebit u a d).1.2
  | .ApplyTransfer f t a, d => (BankAPI.ApplyTransfer f t a d).1.2

/-- The errors returned by the calls of a sequence, performed one after the other. -/
def runOpsErrs : List Op → DB → List (Option Err)
  | [], _ => []
  | op :: ops, d => op.err d :: runOpsErrs ops (op.run d)

/-- The snapshot `Credit` and `Debit` append to the history of a store for a
user whose balance has just been saved. -/
def historySnapshot (d : DB) (userID : Nat) (amountCents : Int) : BalanceHistory :=
  { ID := d.balance_histories.length + 1, UserID := userID, AmountCents := amountCents,
    CreatedAt := d.now }

/-- Whether the storage call number `n` (counted from zero) of the script fails. -/
def DB.failsAt (d : DB) (n : Nat) : Bool := (d.outcomes[n]?).join.isSome

/-! ## `internal/balance/balance.go`: `ThreadSafeBalance` -/

/-- The `ThreadSafeBalance` object: the embedded `Balance`; its mutex has no
effect on a sequential execution and is not represented. -/
structure ThreadSafeBalance where
  UserID : Nat := 0
  AmountCents : Int := 0
  LastUpdated : Nat := 0
  deriving DecidableEq, Repr

/-- `func (b *ThreadSafeBalance) SetAmount(amountCents int64)`. -/
def ThreadSafeBalance.SetAmount (b : ThreadSafeBalance) (amountCents : Int) (now : Nat) :
    ThreadSafeBalance :=
  { b with AmountCents := amountCents, LastUpdated := now }

/-- `func (b *ThreadSafeBalance) AddAmount(amountCents int64) error`. -/
def ThreadSafeBalance.AddAmount (b : ThreadSafeBalance) (amountCents : Int) (now : Nat) :
    Option Err × ThreadSafeBalance :=
  let newAmount := wrap64 (b.AmountCents + amountCents)
  if newAmount < 0 then
    (some (.errorf "insufficient balance: cannot go below 0"), b)
  else
    (none, { b with AmountCents := newAmount, LastUpdated := now })

/-- `func (b *ThreadSafeBalance) TransferAmount(target *ThreadSafeBalance, amountCents int64) error`
on two distinct objects; the result holds the receiver and the target after the
call. -/
def ThreadSafeBalance.TransferAmount (b target : ThreadSafeBalance) (amountCents : Int)
    (now : Nat) : Option Err × ThreadSafeBalance × ThreadSafeBalance :=
  if amountCents ≤ 0 then
    (some (.errorf "transfer amount must be positive"), b, target)
  else if b.AmountCents < amountCents then
    (some (.errorf "insufficient balance for transfer"), b, target)
  else
    (none,
      { b with AmountCents := wrap64 (b.AmountCents - amountCents), LastUpdated := now },
      { target with AmountCents := wrap64 (target.AmountCents + amountCents),
                    LastUpdated := now })

/-! ## `internal/events` -/

/-- A Go `float64` as far as a comparison sees it: not-a-number, the two
infinities, or a finite value given by the rational it denotes. -/
inductive F64 where
  | nan
  | negInf
  | finite (q : ℚ)
  | posInf
  deriving DecidableEq

/-- The Go comparison `x <= 0` on a `float64`; it is false on not-a-number. -/
def F64.leZero : F64 → Bool
  | .nan => false
  | .negInf => true
  | .finite q => decide (q ≤ 0)
  | .posInf => false

/-- A value stored in the `Data` map of an event. -/
inductive DataValue where
  | str (s : String)
  | num (x : F64)
  | fields (m : List (String × String))
  deriving DecidableEq

/-- The `Event` record of `internal/events/event.go`; `Type_` is the Go field
`Type`, the two maps are lists of key/value pairs. -/
structure Event where
  ID : String := ""
  Type_ : String := ""
  AggregateID : String := ""
  Version : Int := 0
  Data : List (String × DataValue) := []
  Metadata : List (String × String) := []
  Timestamp : Nat := 0
  deriving DecidableEq

/-- Go `type EventHandler func(event Event) error`: a handler may read and
change the state `σ` of the program around the bus. -/
abbrev EventHandler (σ : Type) := Event → σ → Option Err × σ

/-- The `InMemoryEventBus`: the Go map from event type to the slice of handlers
(`none` when the key is absent); its mutex is not represented. -/
structure InMemoryEventBus (σ : Type) where
  handlers : String → Option (List (EventHandler σ))

/-- `func NewInMemoryEventBus() *InMemoryEventBus`. -/
def NewInMemoryEventBus (σ : Type) : InMemoryEventBus σ :=
  { handlers := fun _ => none }

/-- The `for i, handler := range handlers` loop of `Publish` from index `i` on.
The result holds the returned error, the indices `i` at which `handler(event)`
was called, in the order of the calls, and the state after the loop. -/
def publishLoop {σ : Type} (event : Event) :
    List (EventHandler σ) → Nat → σ → Option Err × List Nat × σ
  | [], _, s => (none, [], s)
  | handler :: rest, i, s =>
    match handler event s with
    | (some err, s1) =>
      (some (.wrapf ("handler failed for event " ++ event.Type_) err), [i], s1)
    | (none, s1) =>
      let r := publishLoop event rest (i + 1) s1
      (r.1, i :: r.2.1, r.2.2)

/-- `func (eb *InMemoryEventBus) Publish(event Event) error`. -/
def InMemoryEventBus.Publish {σ : Type} (eb : InMemoryEventBus σ) (event : Event) (s : σ) :
    Option Err × List Nat × σ :=
  match eb.handlers event.Type_ with
  | none => (none, [], s)
  | some handlers => publishLoop event handlers 0 s

/-- `func (eb *InMemoryEventBus) Subscribe(eventType string, handler EventHandler) error`;
a nil handler is `none`. -/
def InMemoryEventBus.Subscribe {σ : Type} (eb : InMemoryEventBus σ) (eventType : String)
    (handler : Option (EventHandler σ)) : Option Err × InMemoryEventBus σ :=
  if eventType = "" then
    (some (.errorf "event type cannot be empty"), eb)
  else
    match handler with
    | none => (some (.errorf "handler cannot be nil"), eb)
    | some h =>
      let current : List (EventHandler σ) :=
        match eb.handlers eventType with
        | none => []
        | some hs => hs
      (none, { handlers := fun t => if t = eventType then some (current ++ [h])
                                    else eb.handlers t })

/-- The two variables whose addresses `Unsubscribe` compares: the loop variable
`h` and the parameter `handler`. -/
inductive LocalVar where
  | h
  | handler
  deriving DecidableEq

/-- The address of a local variable: distinct variables have distinct addresses. -/
def LocalVar.addr : LocalVar → Nat
  | .h => 0
  | .handler => 1

/-- The `for i, h := range handlers` loop of `Unsubscribe` from index `i` on:
the first index at which `&h == &handler` holds, if any. -/
def unsubscribeLoop {σ : Type} : List (EventHandler σ) → Nat → Option Nat
  | [], _ => none
  | _ :: rest, i =>
    if LocalVar.addr .h = LocalVar.addr .handler then some i
    else unsubscribeLoop rest (i + 1)

/-- `func (eb *InMemoryEventBus) Unsubscribe(eventType string, handler EventHandler) error`. -/
def InMemoryEventBus.Unsubscribe {σ : Type} (eb : InMemoryEventBus σ) (eventType : String)
    (_handler : Option (EventHandler σ)) : Option Err × InMemoryEventBus σ :=
  match eb.handlers eventType with
  | none => (none, eb)
  | some handlers =>
    match unsubscribeLoop handlers 0 with
    | some i =>
      (none, { handlers := fun t =>
        if t = eventType then some (handlers.take i ++ handlers.drop (i + 1))
        else eb.handlers t })
    | none => (none, eb)

/-- The bus after a sequence of `Subscribe` calls, performed one after the other. -/
def subscribeAll {σ : Type} (eb : InMemoryEventBus σ)
    (subs : List (String × Option (EventHandler σ))) : InMemoryEventBus σ :=
  subs.foldl (fun b p => (b.Subscribe p.1 p.2).2) eb

/-- The handlers a sequence of `Subscribe` calls registers for an event type, in
the order of the calls: those of the calls for that type which pass the checks
of `Subscribe`. -/
def registered {σ : Type} (subs : List (String × Option (EventHandler σ))) (t : String) :
    List (EventHandler σ) :=
  subs.filterMap (fun p => if p.1 = t ∧ p.1 ≠ "" then p.2 else none)

/-- The state in which the handler at position `j` of a list runs when all the
handlers before it have run on the event, one after the other. -/
def stateBefore {σ : Type} (event : Event) (hs : List (EventHandler σ)) (s : σ) (j : Nat) : σ :=
  (hs.take j).foldl (fun st h => (h event st).2) s

/-- A handler that records its name in a log and returns the given error. -/
def logHandler (name : String) (err : Option Err) : EventHandler (List String) :=
  fun _ log => (err, log ++ [name])

/-! ## `internal/scheduler/scheduler.go` -/

/-- The `ScheduledTransaction` record; `Type_` is the Go field `Type`. -/
structure ScheduledTransaction where
  ID : String := ""
  FromUserID : String := ""
  ToUserID : String := ""
  Amount : F64 := .finite 0
  Type_ : String := ""
  Schedule : String := ""
  Status : String := ""
  CreatedAt : Nat := 0
  ExecuteAt : Nat := 0
  Metadata : List (String × String) := []
  deriving DecidableEq

/-- An entry of the cron registry: its identifier, its schedule expression and
the scheduled transaction its job fires. -/
structure CronEntry where
  ID : Nat
  Spec : String
  Job : ScheduledTransaction
  deriving DecidableEq

/-- The registry of the cron library (`github.com/robfig/cron/v3`, which is not
part of the repository): the active entries and the last identifier handed
out. -/
structure Cron where
  entries : List CronEntry := []
  nextID : Nat := 0
  deriving DecidableEq

/-- `cron.AddFunc(spec, job)`: the parser of the library is the parameter
`parse` (`none`: the expression is accepted); an accepted expression is
registered under the next identifier, a rejected one changes nothing. -/
def Cron.AddFunc (parse : String → Option Err) (c : Cron) (spec : String)
    (job : ScheduledTransaction) : Except Err Nat × Cron :=
  match parse spec with
  | some err => (.error err, c)
  | none =>
    (.ok (c.nextID + 1),
      { entries := c.entries ++ [{ ID := c.nextID + 1, Spec := spec, Job := job }],
        nextID := c.nextID + 1 })

/-- The `Scheduler`: the cron registry, the Go map from identifier to cron entry
(`none` when the key is absent) and the event bus; its mutex is not
represented. -/
structure Scheduler (σ : Type) where
  cron : Cron := {}
  entries : String → Option Nat := fun _ => none
  eventBus : InMemoryEventBus σ := NewInMemoryEventBus σ

/-- `func (s *Scheduler) ScheduleTransaction(st *ScheduledTransaction) error`. -/
def Scheduler.ScheduleTransaction {σ : Type} (parse : String → Option Err) (s : Scheduler σ)
    (st : ScheduledTransaction) : Option Err × Scheduler σ :=
  if st.ID = "" then
    (some (.errorf "transaction ID is required"), s)
  else if st.Schedule = "" then
    (some (.errorf "schedule is required"), s)
  else if st.Amount.leZero then
    (some (.errorf "amount must be positive"), s)
  else
    match s.cron.AddFunc parse st.Schedule st with
    | (.error err, c) => (some (.wrapf "failed to schedule transaction" err), { s with cron := c })
    | (.ok entryID, c) =>
      (none, { s with cron := c,
                      entries := fun id => if id = st.ID then some entryID else s.entries id })

/-- A parser that accepts the expressions holding exactly five blanks, so six
fields, as a stand-in for the parser of the cron library in examples. -/
def sixFieldParser (spec : String) : Option Err :=
  if (spec.data.filter (fun c => c = ' ')).length = 5 then none
  else some (.errorf "expected exactly 6 fields")

/-- `cron.Remove(id)`: the entries with that identifier leave the registry. -/
def Cron.Remove (c : Cron) (id : Nat) : Cron :=
  { c with entries := c.entries.filter (fun e => e.ID ≠ id) }

/-- `func (s *Scheduler) UnscheduleTransaction(transactionID string) error`. -/
def Scheduler.UnscheduleTransaction {σ : Type} (s : Scheduler σ) (transactionID : String) :
    Option Err × Scheduler σ :=
  match s.entries transactionID with
  | none => (some (.errorf ("scheduled transaction not found: " ++ transactionID)), s)
  | some entryID =>
    (none, { s with cron := s.cron.Remove entryID,
                    entries := fun id => if id = transactionID then none else s.entries id })

/-- `func (s *Scheduler) UpdateSchedule(transactionID, newSchedule string) error`. -/
def Scheduler.UpdateSchedule {σ : Type} (parse : String → Option Err) (s : Scheduler σ)
    (transactionID newSchedule : String) : Option Err × Scheduler σ :=
  match s.UnscheduleTransaction transactionID with
  | (some err, s1) => (some err, s1)
  | (none, s1) =>
    s1.ScheduleTransaction parse { ID := transactionID, Schedule := newSchedule }

/-- `func NewEvent(eventType, aggregateID string, data map[string]interface{}) Event`;
the generated identifier and the clock reading are parameters. -/
def NewEvent (eventType aggregateID : String) (data : List (String × DataValue))
    (generatedID : String) (now : Nat) : Event :=
  { ID := generatedID, Type_ := eventType, AggregateID := aggregateID, Version := 1,
    Data := data, Metadata := [], Timestamp := now }

/-- `func (s *Scheduler) executeScheduledTransaction(st *ScheduledTransaction)`:
the result holds the record after the call, the error `Publish` returned (it
is only logged) and the state of the program around the bus after the call. -/
def Scheduler.executeScheduledTransaction {σ : Type} (s : Scheduler σ)
    (st : ScheduledTransaction) (generatedID : String) (now : Nat) (w : σ) :
    ScheduledTransaction × Option Err × σ :=
  let event := NewEvent "transaction.scheduled" st.ID
    [("from_user_id", .str st.FromUserID), ("to_user_id", .str st.ToUserID),
     ("amount", .num st.Amount), ("type", .str st.Type_), ("metadata", .fields st.Metadata)]
    generatedID now
  match s.eventBus.Publish event w with
  | (some err, _, w1) => (st, some err, w1)
  | (none, _, w1) => ({ st with Status := "completed" }, none, w1)

/-- A handler that records the events it receives. -/
def recordingHandler : EventHandler (List Event) :=
  fun event log => (none, log ++ [event])

/-- The scheduler after a sequence of registrations and removals: `inl st` is
`ScheduleTransaction(st)`, `inr id` is `UnscheduleTransaction(id)`. -/
def runSchedulerCalls {σ : Type} (parse : String → Option Err) :
    List (ScheduledTransaction ⊕ String) → Scheduler σ → Scheduler σ
  | [], s => s
  | .inl st :: rest, s => runSchedulerCalls parse rest (s.ScheduleTransaction parse st).2
  | .inr id :: rest, s => runSchedulerCalls parse rest (s.UnscheduleTransaction id).2

/-- The store in which `ApplyCredit` performs its credit: after the pending
record has been created. -/
def creditAfterCreate (userID : Nat) (amount : Int) (d : DB) : DB :=
  (d.CreateTransaction (creditRecord userID amount)).2.2

/-- The store in which `ApplyCredit` saves the completed record: after the
credit. -/
def creditAfterCredit (userID : Nat) (amount : Int) (d : DB) : DB :=
  (Credit userID amount (creditAfterCreate userID amount d)).2

/-- A store with account 1 at 1000 in which the sixth storage call fails:
inside `ApplyCredit` this is the save of the completed record, after the
creation of the pending record and the four storage calls of the credit. -/
def finalSaveOutage : DB :=
  { balances := [{ UserID := 1, AmountCents := 1000 }],
    outcomes := [none, none, none, none, none, some "connection lost"] }

/-- The event a fire of a scheduled transaction is to publish: type
`transaction.scheduled`, the identifier of the record as aggregate, and the
description of the transfer as data. -/
def scheduledEvent (st : ScheduledTransaction) (generatedID : String) (now : Nat) : Event :=
  { ID := generatedID, Type_ := "transaction.scheduled", AggregateID := st.ID, Version := 1,
    Data := [("from_user_id", .str st.FromUserID), ("to_user_id", .str st.ToUserID),
             ("amount", .num st.Amount), ("type", .str st.Type_),
             ("metadata", .fields st.Metadata)],
    Metadata := [], Timestamp := now }

/-- The value a key is mapped to in the `Data` of an event. -/
def Event.dataAt (event : Event) (key : String) : Option DataValue :=
  (event.Data.find? (fun p => p.1 = key)).map (fun p => p.2)

/-! ## `internal/worker/atomic.go` -/

/-- The `TransactionStats` counters, each an `int64` updated atomically. -/
structure TransactionStats where
  TotalTransactions : Int := 0
  SuccessfulTransactions : Int := 0
  FailedTransactions : Int := 0
  PendingTransactions : Int := 0
  TotalAmountCents : Int := 0
  LastTransactionTime : Int := 0
  deriving DecidableEq, Repr

/-- `func (ts *TransactionStats) IncrementTotal()`. -/
def TransactionStats.IncrementTotal (ts : TransactionStats) : TransactionStats :=
  { ts with TotalTransactions := wrap64 (ts.TotalTransactions + 1) }

/-- `func (ts *TransactionStats) IncrementSuccessful()`. -/
def TransactionStats.IncrementSuccessful (ts : TransactionStats) : TransactionStats :=
  { ts with SuccessfulTransactions := wrap64 (ts.SuccessfulTransactions + 1) }

/-- `func (ts *TransactionStats) IncrementFailed()`. -/
def TransactionStats.IncrementFailed (ts : TransactionStats) : TransactionStats :=
  { ts with FailedTransactions := wrap64 (ts.FailedTransactions + 1) }

/-- `func (ts *TransactionStats) IncrementPending()`. -/
def TransactionStats.IncrementPending (ts : TransactionStats) : TransactionStats :=
  { ts with PendingTransactions := wrap64 (ts.PendingTransactions + 1) }

/-- `func (ts *TransactionStats) DecrementPending()`. -/
def TransactionStats.DecrementPending (ts : TransactionStats) : TransactionStats :=
  { ts with PendingTransactions := wrap64 (ts.PendingTransactions + -1) }

/-- `func (ts *TransactionStats) AddAmount(amountCents int64)`. -/
def TransactionStats.AddAmount (ts : TransactionStats) (amountCents : Int) : TransactionStats :=
  { ts with TotalAmountCents := wrap64 (ts.TotalAmountCents + amountCents) }

/-- `func (ts *TransactionStats) UpdateLastTransactionTime()`; the Unix time is a
parameter. -/
def TransactionStats.UpdateLastTransactionTime (ts : TransactionStats) (unixNow : Int) :
    TransactionStats :=
  { ts with LastTransactionTime := unixNow }

/-- `func (ts *TransactionStats) Reset()`. -/
def TransactionStats.Reset (_ts : TransactionStats) : TransactionStats :=
  { TotalTransactions := 0, SuccessfulTransactions := 0, FailedTransactions := 0,
    PendingTransactions := 0, TotalAmountCents := 0, LastTransactionTime := 0 }

/-- Every counter is a value of the machine type `int64`. -/
def TransactionStats.InRange (ts : TransactionStats) : Prop :=
  InInt64 ts.TotalTransactions ∧ InInt64 ts.SuccessfulTransactions ∧
  InInt64 ts.FailedTransactions ∧ InInt64 ts.PendingTransactions ∧
  InInt64 ts.TotalAmountCents

instance (ts : TransactionStats) : Decidable ts.InRange := by
  unfold TransactionStats.InRange; exact inferInstance

/-! ## `internal/worker/worker.go`: the worker pool -/

/-- The `TransactionResult` record. -/
structure TransactionResult where
  ID : String := ""
  Success : Bool := false
  Error : String := ""
  ProcessedAt : Nat := 0
  deriving DecidableEq, Repr

/-- The `TransactionJob` record; `ResultChan` is the reference of the result
channel of the job among the channels of the pool. -/
structure TransactionJob where
  ID : String := ""
  Transaction : Transaction := {}
  ResultChan : Nat := 0
  deriving DecidableEq, Repr

/-- The `WorkerPool` between `Start` and `Stop`: the number of workers, the
jobs waiting in the buffer of `jobQueue` in arrival order, the statistics, and
the contents of the result channels created so far, each a buffer of capacity
one. -/
structure WorkerPool where
  workers : Nat := 0
  jobQueue : List TransactionJob := []
  stats : TransactionStats := {}
  chans : List (List TransactionResult) := []
  deriving DecidableEq, Repr

/-- `func NewWorkerPool(workers int) *WorkerPool`. -/
def NewWorkerPool (workers : Nat) : WorkerPool :=
  { workers := workers, jobQueue := [], stats := {}, chans := [] }

/-- The capacity of `jobQueue`: `make(chan *TransactionJob, workers*10)`. -/
def WorkerPool.capacity (wp : WorkerPool) : Nat := wp.workers * 10

/-- The three ways the first `select` of `SubmitTransaction` can go. -/
inductive SubmitOutcome where
  /-- The job was sent to `jobQueue`; the caller goes on to wait for its result. -/
  | queued (job : TransactionJob)
  /-- The context was done: `return nil, ctx.Err()`. -/
  | cancelled (err : Err)
  /-- The `default` branch: `return nil, fmt.Errorf("worker pool queue is full")`. -/
  | queueFull (err : Err)
  deriving DecidableEq, Repr

/-- `func (wp *WorkerPool) SubmitTransaction(ctx, txn)` up to the end of its
first `select`.  The generated job identifier is a parameter; `ctxDone` tells
whether the context of the caller is done; `pick` is the choice Go makes when
both the send and the context case can proceed (`true`: the send).  The send
can proceed when the buffer has room.  A result channel that was created for a
job which is not queued is unreachable and is not kept. -/
def WorkerPool.SubmitTransaction (wp : WorkerPool) (txn : Transaction) (generatedID : String)
    (ctxDone pick : Bool) : SubmitOutcome × WorkerPool :=
  let job : TransactionJob :=
    { ID := generatedID, Transaction := txn, ResultChan := wp.chans.length }
  let sendReady : Bool := decide (wp.jobQueue.length < wp.capacity)
  if sendReady && (!ctxDone || pick) then
    (.queued job, { wp with jobQueue := wp.jobQueue ++ [job], chans := wp.chans ++ [[]] })
  else if ctxDone then
    (.cancelled (.errorf "context canceled"), wp)
  else
    (.queueFull (.errorf "worker pool queue is full"), wp)

/-- The second `select` of `SubmitTransaction`, the wait for the result of a
queued job: `none` while the caller stays blocked. -/
def WorkerPool.awaitResult (wp : WorkerPool) (job : TransactionJob) (ctxDone pick : Bool) :
    Option (Except Err TransactionResult) × WorkerPool :=
  match wp.chans[job.ResultChan]? with
  | some (result :: rest) =>
    if ctxDone && !pick then (some (.error (.errorf "context canceled")), wp)
    else (some (.ok result), { wp with chans := wp.chans.set job.ResultChan rest })
  | _ =>
    if ctxDone then (some (.error (.errorf "context canceled")), wp)
    else (none, wp)

/-- `func (wp *WorkerPool) processTransaction(job *TransactionJob) *TransactionResult`. -/
def WorkerPool.processTransaction (wp : WorkerPool) (job : TransactionJob) (now : Nat) :
    TransactionResult × WorkerPool :=
  let stats1 := wp.stats.IncrementTotal.IncrementPending
  -- simulate transaction processing
  let success : Bool := true
  let stats2 :=
    if success then (stats1.IncrementSuccessful).AddAmount job.Transaction.AmountCents
    else stats1.IncrementFailed
  let errMsg : String := if success then "" else "Transaction processing failed"
  let stats3 := stats2.DecrementPending.UpdateLastTransactionTime now
  ({ ID := job.ID, Success := success, Error := errMsg, ProcessedAt := now },
   { wp with stats := stats3 })

/-- One turn of the loop of `func (wp *WorkerPool) worker(id int)` that takes a
job from `jobQueue`: `none` while the buffer is empty; otherwise the flag
tells whether the result was sent on the result channel of the job (`true`) or
the `default` branch was taken (`false`). -/
def WorkerPool.worker (wp : WorkerPool) (now : Nat) :
    Option (Bool × TransactionResult × WorkerPool) :=
  match wp.jobQueue with
  | [] => none
  | job :: rest =>
    let r := WorkerPool.processTransaction { wp with jobQueue := rest } job now
    match r.2.chans[job.ResultChan]? with
    | some [] => some (true, r.1, { r.2 with chans := r.2.chans.set job.ResultChan [r.1] })
    | _ => some (false, r.1, r.2)

/-- A step of an execution of the pool: a submission, a turn of a worker, or a
caller waiting for the result of a job. -/
inductive PoolStep where
  | submit (txn : Transaction) (generatedID : String) (ctxDone pick : Bool)
  | work (now : Nat)
  | await (job : TransactionJob) (ctxDone pick : Bool)
  deriving DecidableEq, Repr

/-- The pool after a step. -/
def PoolStep.run : PoolStep → WorkerPool → WorkerPool
  | .submit txn generatedID ctxDone pick, wp =>
    (wp.SubmitTransaction txn generatedID ctxDone pick).2
  | .work now, wp =>
    match wp.worker now with
    | none => wp
    | some r => r.2.2
  | .await job ctxDone pick, wp => (wp.awaitResult job ctxDone pick).2

/-- The pool after a sequence of steps. -/
def runPool : List PoolStep → WorkerPool → WorkerPool
  | [], wp => wp
  | step :: rest, wp => runPool rest (step.run wp)

/-- The pool after a worker has processed the given jobs one after the other,
each at its clock reading. -/
def processAll : List (TransactionJob × Nat) → WorkerPool → WorkerPool
  | [], wp => wp
  | (job, now) :: rest, wp => processAll rest (wp.processTransaction job now).2

/-- The invariant of the pool behind the delivery of results: the result
channel of every queued job exists and is empty, no two queued jobs share a
result channel, and no result channel holds more than the one result it has
room for. -/
def WorkerPool.ChannelsReady (wp : WorkerPool) : Prop :=
  (∀ job ∈ wp.jobQueue, wp.chans[job.ResultChan]? = some []) ∧
  (wp.jobQueue.map (fun job => job.ResultChan)).Nodup ∧
  (∀ ch ∈ wp.chans, ch.length ≤ 1)

/-! ## `internal/worker/worker.go`: the processor -/

/-- The `Credit` and `Debit` parts of a `Job`. -/
structure JobAccount where
  UserID : Nat := 0
  Amount : Int := 0
  deriving DecidableEq, Repr

/-- The `Transfer` part of a `Job`. -/
structure JobTransfer where
  FromID : Nat := 0
  ToID : Nat := 0
  Amount : Int := 0
  deriving DecidableEq, Repr

/-- The `Job` record. -/
structure Job where
  Kind : String := ""
  Credit : JobAccount := {}
  Debit : JobAccount := {}
  Transfer : JobTransfer := {}
  deriving DecidableEq, Repr

/-- The `Processor`: the jobs waiting in its queue and its two atomic counters. -/
structure Processor where
  queue : List Job := []
  numWorkers : Int := 0
  processedOK : Int := 0
  processedNG : Int := 0
  deriving DecidableEq, Repr

/-- The body of the `for j := range p.queue` loop of a worker started by
`func (p *Processor) ProcessForever()`, on a job taken from the queue. -/
def Processor.processJob (p : Processor) (j : Job) (d : DB) : Processor × DB :=
  let r : Option Err × DB :=
    if j.Kind = "credit" then
      ((ApplyCredit j.Credit.UserID j.Credit.Amount d).1.2,
       (ApplyCredit j.Credit.UserID j.Credit.Amount d).2)
    else if j.Kind = "debit" then
      ((ApplyDebit j.Debit.UserID j.Debit.Amount d).1.2,
       (ApplyDebit j.Debit.UserID j.Debit.Amount d).2)
    else if j.Kind = "transfer" then
      ((ApplyTransfer j.Transfer.FromID j.Transfer.ToID j.Transfer.Amount d).1.2,
       (ApplyTransfer j.Transfer.FromID j.Transfer.ToID j.Transfer.Amount d).2)
    else
      (some (.errorf ("unknown job kind: " ++ j.Kind)), d)
  match r with
  | (some _, d1) => ({ p with processedNG := wrap64 (p.processedNG + 1) }, d1)
  | (none, d1) => ({ p with processedOK := wrap64 (p.processedOK + 1) }, d1)

/-! ## `internal/worker/batch.go` -/

/-- Go `type BatchStatus string`. -/
abbrev BatchStatus := String

def BatchStatusPending : BatchStatus := "pending"
def BatchStatusProcessing : BatchStatus := "processing"
def BatchStatusCompleted : BatchStatus := "completed"
def BatchStatusFailed : BatchStatus := "failed"

/-- The `BatchTransaction` record. -/
structure BatchTransaction where
  ID : String := ""
  Transactions : List Transaction := []
  Status : BatchStatus := ""
  CreatedAt : Nat := 0
  CompletedAt : Option Nat := none
  Error : String := ""
  deriving DecidableEq, Repr

/-- The `BatchResult` record. -/
structure BatchResult where
  Transaction : Transaction := {}
  Success : Bool := false
  Error : String := ""
  ProcessedAt : Nat := 0
  deriving DecidableEq, Repr

/-- The `BatchProcessor`, without its worker pool and its mutex. -/
structure BatchProcessor where
  batchSize : Int := 0
  stats : TransactionStats := {}
  deriving DecidableEq, Repr

/-- `func (bp *BatchProcessor) ProcessBatch(ctx, transactions)` up to the start
of the background processing; the generated identifier is a parameter. -/
def BatchProcessor.ProcessBatch (bp : BatchProcessor) (transactions : List Transaction)
    (generatedID : String) (now : Nat) : Except Err BatchTransaction :=
  if transactions.length = 0 then
    .error (.errorf "no transactions to process")
  else if (transactions.length : Int) > bp.batchSize then
    .error (.errorf ("batch size " ++ toString transactions.length ++ " exceeds maximum " ++
      toString bp.batchSize))
  else
    .ok { ID := generatedID, Transactions := transactions, Status := BatchStatusPending,
          CreatedAt := now }

/-- The `for result := range results` loop of `processBatchAsync` on the values
received from the channel: the successful count, the failed count and the
total amount after the loop.  The two counts are bounded by the number of
values received and are natural numbers. -/
def collectResults : List (Option BatchResult) → Nat × Nat × Int → Nat × Nat × Int
  | [], acc => acc
  | result :: rest, (successfulCount, failedCount, totalAmount) =>
    match result with
    | some r =>
      if r.Success then
        collectResults rest
          (successfulCount + 1, failedCount, wrap64 (totalAmount + r.Transaction.AmountCents))
      else collectResults rest (successfulCount, failedCount + 1, totalAmount)
    | none => collectResults rest (successfulCount, failedCount + 1, totalAmount)

/-- The `for err := range errors` loop of `processBatchAsync`: the failed count
after the loop. -/
def collectErrors : List (Option Err) → Nat → Nat
  | [], failedCount => failedCount
  | some _ :: rest, failedCount => collectErrors rest (failedCount + 1)
  | none :: rest, failedCount => collectErrors rest failedCount

/-- The `// Update batch status` block of `processBatchAsync`. -/
def updateBatchStatus (batch : BatchTransaction) (successfulCount failedCount : Nat)
    (now : Nat) : BatchTransaction :=
  let batch1 :=
    if failedCount = 0 then
      { batch with Status := BatchStatusCompleted }
    else if successfulCount = 0 then
      { batch with Status := BatchStatusFailed, Error := "All transactions failed" }
    else
      { batch with Status := BatchStatusCompleted,
                   Error := toString failedCount ++ " transactions failed" }
  { batch1 with CompletedAt := some now }

/-- `func (bp *BatchProcessor) processBatchAsync(ctx, batch)` from the point
where the submitted transactions have ended: `results` and `errors` are the
values the two channels deliver. -/
def BatchProcessor.processBatchAsync (bp : BatchProcessor) (batch : BatchTransaction)
    (results : List (Option BatchResult)) (errors : List (Option Err)) (now : Nat) :
    BatchTransaction × BatchProcessor :=
  let counts := collectResults results (0, 0, 0)
  let failedCount := collectErrors errors counts.2.1
  let batch1 :=
    updateBatchStatus { batch with Status := BatchStatusProcessing } counts.1 failedCount now
  let stats1 := bp.stats.IncrementTotal
  let stats2 :=
    if batch1.Status = BatchStatusCompleted then stats1.IncrementSuccessful
    else stats1.IncrementFailed
  let stats3 := (stats2.AddAmount counts.2.2).UpdateLastTransactionTime now
  (batch1, { bp with stats := stats3 })

/-- A submission whose caller gives up on the result before a worker has
taken the job. -/
def cancelledSubmission : List PoolStep :=
  [.submit { AmountCents := 400 } "job_1" false true,
   .await { ID := "job_1", Transaction := { AmountCents := 400 } } true false]

/-- What the turn of a worker at clock reading 5 yields after
`cancelledSubmission` on a pool of one worker: the result is sent and waits in
the result channel of the job. -/
def deliveredAfterCancel : Bool × TransactionResult × WorkerPool :=
  (true, { ID := "job_1", Success := true, ProcessedAt := 5 },
   { workers := 1, jobQueue := [],
     stats := { TotalTransactions := 1, SuccessfulTransactions := 1,
                TotalAmountCents := 400, LastTransactionTime := 5 },
     chans := [[{ ID := "job_1", Success := true, ProcessedAt := 5 }]] })

/-- A job of the worker pool carrying a debit of 1500 from account 1. -/
def overdrawJob : TransactionJob :=
  { ID := "job_1",
    Transaction := { FromUserID := some 1, AmountCents := 1500, Type_ := "debit",
                     Status := "pending" } }

/-- A store that holds 1000 for account 1. -/
def thousandStore : DB :=
  { balances := [{ UserID := 1, AmountCents := 1000 }] }

/-- Whether a value received from the results channel counts as a success in
`processBatchAsync`: it is not nil and its `Success` flag is set. -/
def isBatchSuccess (result : Option BatchResult) : Bool :=
  match result with
  | some r => r.Success
  | none => false

/-- The number of jobs of a batch that ended in success: the successful values
received from the results channel. -/
def batchSuccesses (results : List (Option BatchResult)) : Nat :=
  results.countP isBatchSuccess

/-- The number of jobs of a batch that ended in failure: the other values
received from the results channel and the errors received from the errors
channel. -/
def batchFailures (results : List (Option BatchResult)) (errors : List (Option Err)) : Nat :=
  results.countP (fun r => !isBatchSuccess r) + errors.countP (fun e => e.isSome)

/-! ## Theorems: the transaction state machine -/

theorem canTransitionTo_terminal (t : Transaction) (s : TransactionStatus)
    (h : IsTerminal t.Status) : t.CanTransitionTo s = false := by
  unfold Transaction.CanTransitionTo
  split
  · rename_i hp
    rcases h with h | h <;> rw [h] at hp <;> exact absurd hp (by decide)
  · split <;> [rfl; (split <;> rfl)]

theorem canTransitionTo_pending (t : Transaction) (s : TransactionStatus)
    (h : t.Status = TransactionStatusPending) : t.CanTransitionTo s = decide (IsTerminal s) := by
  unfold Transaction.CanTransitionTo IsTerminal
  rw [if_pos h]
  by_cases h1 : s = TransactionStatusCompleted <;> by_cases h2 : s = TransactionStatusFailed <;>
    simp [h1, h2]

theorem transitionTo_terminal (t : Transaction) (s : TransactionStatus) (now : Nat)
    (h : IsTerminal t.Status) :
    t.TransitionTo s now =
      (some (.errorf ("invalid status transition from " ++ t.Status ++ " to " ++ s)), t) := by
  unfold Transaction.TransitionTo
  rw [canTransitionTo_terminal t s h]
  rfl

theorem transitionTo_pending_terminal (t : Transaction) (s : TransactionStatus) (now : Nat)
    (h : t.Status = TransactionStatusPending) (hs : IsTerminal s) :
    t.TransitionTo s now = (none, { t with Status := s, UpdatedAt := now }) := by
  unfold Transaction.TransitionTo
  rw [canTransitionTo_pending t s h]
  simp [hs]

theorem transitionTo_pending_other (t : Transaction) (s : TransactionStatus) (now : Nat)
    (h : t.Status = TransactionStatusPending) (hs : ¬ IsTerminal s) :
    t.TransitionTo s now =
      (some (.errorf ("invalid status transition from " ++ t.Status ++ " to " ++ s)), t) := by
  unfold Transaction.TransitionTo
  rw [canTransitionTo_pending t s h]
  simp [hs]

theorem markAsFailed_terminal (t : Transaction) (cause : String) (now : Nat)
    (h : IsTerminal t.Status) :
    t.MarkAsFailed cause now =
      (some (.errorf ("invalid status transition from " ++ t.Status ++ " to " ++
        TransactionStatusFailed)), t) := by
  unfold Transaction.MarkAsFailed
  rw [transitionTo_terminal t _ now h]

theorem isTerminal_target_completed : IsTerminal TransactionStatusCompleted := Or.inl rfl

theorem isTerminal_target_failed : IsTerminal TransactionStatusFailed := Or.inr rfl

/-- C6: on a transaction whose status is `completed` or `failed`, `TransitionTo`
with any target, `MarkAsCompleted` and `MarkAsFailed` return an error and leave
`Status`, `FailureCause` and `UpdatedAt` (indeed the whole record) unchanged. -/
theorem illegal_transition_rejected_atomically (t : Transaction) (s : TransactionStatus)
    (cause : String) (now : Nat) (h : IsTerminal t.Status) :
    ((t.TransitionTo s now).1 ≠ none ∧ (t.TransitionTo s now).2.Status = t.Status ∧
      (t.TransitionTo s now).2.FailureCause = t.FailureCause ∧
      (t.TransitionTo s now).2.UpdatedAt = t.UpdatedAt ∧ (t.TransitionTo s now).2 = t) ∧
    ((t.MarkAsCompleted now).1 ≠ none ∧ (t.MarkAsCompleted now).2.Status = t.Status ∧
      (t.MarkAsCompleted now).2.FailureCause = t.FailureCause ∧
      (t.MarkAsCompleted now).2.UpdatedAt = t.UpdatedAt ∧ (t.MarkAsCompleted now).2 = t) ∧
    ((t.MarkAsFailed cause now).1 ≠ none ∧ (t.MarkAsFailed cause now).2.Status = t.Status ∧
      (t.MarkAsFailed cause now).2.FailureCause = t.FailureCause ∧
      (t.MarkAsFailed cause now).2.UpdatedAt = t.UpdatedAt ∧ (t.MarkAsFailed cause now).2 = t) := by
  refine ⟨?_, ?_, ?_⟩
  · rw [transitionTo_terminal t s now h]; simp
  · unfold Transaction.MarkAsCompleted; rw [transitionTo_terminal t _ now h]; simp
  · rw [markAsFailed_terminal t cause now h]; simp

theorem illegal_transition_rejected_atomically_witness :
    IsTerminal (Transaction.Status { Status := "completed", FailureCause := "", UpdatedAt := 3 }) ∧
    (Transaction.MarkAsFailed { Status := "completed", FailureCause := "", UpdatedAt := 3 }
      "late" 9).2.FailureCause = "" :=
  ⟨by decide,
   (illegal_transition_rejected_atomically
      { Status := "completed", FailureCause := "", UpdatedAt := 3 } "pending" "late" 9
      (by decide)).2.2.2.2.1⟩

theorem apply_terminal (c : StatusCall) (t : Transaction) (now : Nat)
    (h : IsTerminal t.Status) : (c.apply t now).1 ≠ none ∧ (c.apply t now).2 = t := by
  cases c with
  | TransitionTo s =>
    simp only [StatusCall.apply]; rw [transitionTo_terminal t s now h]; simp
  | MarkAsCompleted =>
    simp only [StatusCall.apply, Transaction.MarkAsCompleted]
    rw [transitionTo_terminal t _ now h]; simp
  | MarkAsFailed cause =>
    simp only [StatusCall.apply]; rw [markAsFailed_terminal t cause now h]; simp

theorem apply_pending_terminal (c : StatusCall) (t : Transaction) (now : Nat)
    (h : t.Status = TransactionStatusPending) (hc : IsTerminal c.target) :
    (c.apply t now).1 = none ∧ (c.apply t now).2.Status = c.target := by
  cases c with
  | TransitionTo s =>
    simp only [StatusCall.apply, StatusCall.target] at *
    rw [transitionTo_pending_terminal t s now h hc]; simp
  | MarkAsCompleted =>
    simp only [StatusCall.apply, Transaction.MarkAsCompleted, StatusCall.target]
    rw [transitionTo_pending_terminal t _ now h isTerminal_target_completed]; simp
  | MarkAsFailed cause =>
    simp only [StatusCall.apply, Transaction.MarkAsFailed, StatusCall.target]
    rw [transitionTo_pending_terminal t _ now h isTerminal_target_failed]
    exact ⟨rfl, rfl⟩

theorem apply_pending_other (c : StatusCall) (t : Transaction) (now : Nat)
    (h : t.Status = TransactionStatusPending) (hc : ¬ IsTerminal c.target) :
    (c.apply t now).1 ≠ none ∧ (c.apply t now).2 = t := by
  cases c with
  | TransitionTo s =>
    simp only [StatusCall.apply, StatusCall.target] at *
    rw [transitionTo_pending_other t s now h hc]; simp
  | MarkAsCompleted => exact absurd isTerminal_target_completed hc
  | MarkAsFailed cause => exact absurd isTerminal_target_failed hc

theorem runCalls_terminal (cs : List (StatusCall × Nat)) :
    ∀ (t : Transaction), IsTerminal t.Status → ∀ (i : Nat), (runCalls t cs)[i]? ≠ some none := by
  induction cs with
  | nil => intro t _ i; simp [runCalls]
  | cons c cs ih =>
    intro t ht i
    obtain ⟨c0, now0⟩ := c
    have hap := apply_terminal c0 t now0 ht
    cases i with
    | zero =>
      simp only [runCalls, List.getElem?_cons_zero, ne_eq, Option.some.injEq]
      exact hap.1
    | succ k =>
      simp only [runCalls, List.getElem?_cons_succ]
      rw [hap.2]
      exact ih t ht k

theorem runCalls_pending (cs : List (StatusCall × Nat)) :
    ∀ (t : Transaction), t.Status = TransactionStatusPending →
      ∀ (i : Nat) (c : StatusCall × Nat), cs[i]? = some c →
        ((runCalls t cs)[i]? = some none ↔
          (IsTerminal c.1.target ∧
            ∀ (j : Nat) (c1 : StatusCall × Nat), j < i → cs[j]? = some c1 →
              ¬ IsTerminal c1.1.target)) := by
  induction cs with
  | nil => intro t _ i c hc; simp at hc
  | cons c0 cs ih =>
    intro t ht i c hc
    obtain ⟨k0, now0⟩ := c0
    cases i with
    | zero =>
      simp only [List.getElem?_cons_zero, Option.some.injEq] at hc
      subst hc
      simp only [runCalls, List.getElem?_cons_zero, Option.some.injEq]
      constructor
      · intro h0
        refine ⟨?_, fun j _ hj => absurd hj (Nat.not_lt_zero j)⟩
        by_contra hn
        exact (apply_pending_other k0 t now0 ht hn).1 h0
      · intro h0
        exact (apply_pending_terminal k0 t now0 ht h0.1).1
    | succ k =>
      simp only [List.getElem?_cons_succ] at hc
      simp only [runCalls, List.getElem?_cons_succ]
      by_cases hk0 : IsTerminal k0.target
      · have hst : IsTerminal (k0.apply t now0).2.Status := by
          rw [(apply_pending_terminal k0 t now0 ht hk0).2]; exact hk0
        constructor
        · intro h0
          exact absurd h0 (runCalls_terminal cs _ hst k)
        · intro h0
          exact absurd hk0 (h0.2 0 (k0, now0) (Nat.succ_pos k) (by simp))
      · rw [(apply_pending_other k0 t now0 ht hk0).2]
        rw [ih t ht k c hc]
        constructor
        · intro h0
          refine ⟨h0.1, ?_⟩
          intro j c1 hj hc1
          cases j with
          | zero =>
            simp only [List.getElem?_cons_zero, Option.some.injEq] at hc1
            subst hc1
            exact hk0
          | succ m =>
            simp only [List.getElem?_cons_succ] at hc1
            exact h0.2 m c1 (Nat.lt_of_succ_lt_succ hj) hc1
        · intro h0
          refine ⟨h0.1, ?_⟩
          intro j c1 hj hc1
          exact h0.2 (j + 1) c1 (Nat.succ_lt_succ hj) (by simpa using hc1)

/-- C7: on a pending transaction `TransitionTo s` succeeds iff `s` is
`completed` or `failed`, and then the status becomes `s`; and in every sequence
of `TransitionTo` / `MarkAsCompleted` / `MarkAsFailed` calls on a pending
transaction the call at position `i` succeeds iff its target is terminal and no
earlier call had a terminal target, so only the first call with a terminal
target succeeds and every later call fails. -/
theorem pending_transitions_exactly_once (t : Transaction)
    (h : t.Status = TransactionStatusPending) :
    (∀ (s : TransactionStatus) (now : Nat),
      ((t.TransitionTo s now).1 = none ↔ IsTerminal s) ∧
      ((t.TransitionTo s now).1 = none → (t.TransitionTo s now).2.Status = s)) ∧
    (∀ (cs : List (StatusCall × Nat)) (i : Nat) (c : StatusCall × Nat), cs[i]? = some c →
      ((runCalls t cs)[i]? = some none ↔
        (IsTerminal c.1.target ∧
          ∀ (j : Nat) (c1 : StatusCall × Nat), j < i → cs[j]? = some c1 →
            ¬ IsTerminal c1.1.target))) := by
  refine ⟨?_, fun cs i c hc => runCalls_pending cs t h i c hc⟩
  intro s now
  by_cases hs : IsTerminal s
  · rw [transitionTo_pending_terminal t s now h hs]; simp [hs]
  · rw [transitionTo_pending_other t s now h hs]; simp [hs]

theorem pending_transitions_exactly_once_witness :
    Transaction.Status { Status := "pending" } = TransactionStatusPending ∧
    runCalls { Status := "pending" }
      [(.TransitionTo "pending", 1), (.MarkAsFailed "boom", 2), (.MarkAsCompleted, 3),
       (.TransitionTo "failed", 4)] =
      [some (.errorf "invalid status transition from pending to pending"), none,
       some (.errorf "invalid status transition from failed to completed"),
       some (.errorf "invalid status transition from failed to failed")] ∧
    ((Transaction.TransitionTo { Status := "pending" } "completed" 5).1 = none ↔
      IsTerminal "completed") :=
  ⟨by decide, by decide,
   ((pending_transitions_exactly_once { Status := "pending" } (by decide)).1 "completed" 5).1⟩

/-- C5 fails for `Rollback`: a completed credit is terminal, yet `Rollback`
moves it to `failed`. -/
theorem rollback_changes_terminal_status :
    IsTerminal (Transaction.Status { Status := "completed", Type_ := "credit" }) ∧
    (Transaction.Rollback { Status := "completed", Type_ := "credit" } 7).1 = none ∧
    (Transaction.Rollback { Status := "completed", Type_ := "credit" } 7).2.Status = "failed" ∧
    (Transaction.Rollback { Status := "completed", Type_ := "credit" } 7).2.Status ≠
      Transaction.Status { Status := "completed", Type_ := "credit" } := by
  decide

/-- C5 (amended): on a transaction whose status is `completed` or `failed`,
`TransitionTo` with any target, `MarkAsCompleted` and `MarkAsFailed` never
change the status; `Rollback` changes it exactly when the status is `completed`
and the type is not `transfer`, and then the new status is `failed`. -/
theorem terminal_absorbing_except_rollback (t : Transaction) (s : TransactionStatus)
    (cause : String) (now : Nat) (h : IsTerminal t.Status) :
    (t.TransitionTo s now).2.Status = t.Status ∧
    (t.MarkAsCompleted now).2.Status = t.Status ∧
    (t.MarkAsFailed cause now).2.Status = t.Status ∧
    ((t.Rollback now).2.Status ≠ t.Status ↔
      (t.Status = TransactionStatusCompleted ∧ t.Type_ ≠ TransactionTypeTransfer)) ∧
    ((t.Rollback now).2.Status ≠ t.Status →
      (t.Rollback now).2.Status = TransactionStatusFailed) := by
  refine ⟨?_, ?_, ?_, ?_, ?_⟩
  · rw [transitionTo_terminal t s now h]
  · unfold Transaction.MarkAsCompleted; rw [transitionTo_terminal t _ now h]
  · rw [markAsFailed_terminal t cause now h]
  · unfold Transaction.Rollback Transaction.CanRollback
    by_cases h1 : t.Status = TransactionStatusCompleted
    · by_cases h2 : t.Type_ = TransactionTypeTransfer
      · simp [h1, h2]
      · simp only [h1, h2, decide_True, decide_False, Bool.not_false, Bool.and_true,
          Bool.not_true, Bool.false_eq_true, if_false, ne_eq, not_false_eq_true, and_self,
          iff_true]
        decide
    · simp [h1]
  · unfold Transaction.Rollback
    split
    · intro hne; exact absurd rfl hne
    · intro _; rfl

theorem terminal_absorbing_except_rollback_witness :
    IsTerminal (Transaction.Status { Status := "failed", Type_ := "debit" }) ∧
    (Transaction.MarkAsCompleted { Status := "failed", Type_ := "debit" } 4).2.Status =
      Transaction.Status { Status := "failed", Type_ := "debit" } :=
  ⟨by decide,
   (terminal_absorbing_except_rollback { Status := "failed", Type_ := "debit" } "pending" "x" 4
      (by decide)).2.1⟩

/-! ## Theorems: `Validate` -/

/-- What `Validate` enforces on credits and debits: the amount is positive and
both user identifiers are absent. -/
theorem validate_credit_debit_iff (t : Transaction)
    (h : t.Type_ = TransactionTypeCredit ∨ t.Type_ = TransactionTypeDebit) :
    t.Validate = none ↔ (0 < t.AmountCents ∧ t.FromUserID = none ∧ t.ToUserID = none) := by
  have hnt : t.Type_ ≠ TransactionTypeTransfer := by
    rcases h with h | h <;> rw [h] <;> decide
  unfold Transaction.Validate
  by_cases ha : t.AmountCents ≤ 0
  · simp [ha]
  · simp only [ha, if_false, hnt, h, if_true]
    have hpos : 0 < t.AmountCents := by omega
    by_cases h1 : t.FromUserID = none <;> by_cases h2 : t.ToUserID = none <;>
      simp [h1, h2, hpos]

/-- C9 (failing input): the credit record that `ApplyCredit` builds, with a
positive amount, `ToUserID` set and `FromUserID` absent, is rejected by
`Validate`; so is the matching debit record with `FromUserID` set. -/
theorem validate_rejects_credit_with_to_user :
    Transaction.Validate { ToUserID := some 1, AmountCents := 100, Type_ := TransactionTypeCredit,
                           Status := TransactionStatusPending } =
      some (.errorf "credit/debit transactions should not have from/to user IDs") ∧
    Transaction.Validate { FromUserID := some 1, AmountCents := 100, Type_ := TransactionTypeDebit,
                           Status := TransactionStatusPending } =
      some (.errorf "credit/debit transactions should not have from/to user IDs") := by
  decide

/-! ## Theorems: the storage collaborator -/

theorem next_balances (d : DB) : d.next.2.balances = d.balances := by
  unfold DB.next; split <;> rfl

theorem next_now (d : DB) : d.next.2.now = d.now := by
  unfold DB.next; split <;> rfl

theorem next_transactions (d : DB) : d.next.2.transactions = d.transactions := by
  unfold DB.next; split <;> rfl

theorem balanceOf_congr {d d1 : DB} (h : d1.balances = d.balances) (v : Nat) :
    d1.balanceOf v = d.balanceOf v := by
  unfold DB.balanceOf DB.findBalance; rw [h]

theorem find_upsertBalance (b : Balance) (v : Nat) (l : List Balance) :
    (upsertBalance b l).find? (fun r => r.UserID = v) =
      if b.UserID = v then some b else l.find? (fun r => r.UserID = v) := by
  induction l with
  | nil =>
    by_cases h : b.UserID = v <;> simp [upsertBalance, List.find?, h]
  | cons r rs ih =>
    unfold upsertBalance
    by_cases hr : r.UserID = b.UserID
    · by_cases h : b.UserID = v
      · simp [hr, h, List.find?]
      · have : ¬ r.UserID = v := by rw [hr]; exact h
        simp [hr, h, List.find?, this]
    · by_cases h : r.UserID = v
      · have : ¬ b.UserID = v := by rw [← h]; exact fun e => hr e.symm
        rw [if_neg hr, if_neg this]
        simp [List.find?, h]
      · rw [if_neg hr]
        simp [h, List.find?, ih]

theorem firstOrCreate_error {d d1 : DB} {u : Nat} {e : Err}
    (h : d.FirstOrCreateBalance u = (.error e, d1)) :
    d1.balances = d.balances ∧ d1.now = d.now ∧ d1.transactions = d.transactions := by
  unfold DB.FirstOrCreateBalance at h
  split at h
  · simp only [Prod.mk.injEq] at h
    rename_i msg d2 hn
    have h1 := next_balances d; have h2 := next_now d; have h3 := next_transactions d
    rw [hn] at h1 h2 h3
    rw [← h.2]; exact ⟨h1, h2, h3⟩
  · split at h <;> simp at h

theorem firstOrCreate_ok {d d1 : DB} {u : Nat} {b : Balance}
    (h : d.FirstOrCreateBalance u = (.ok b, d1)) :
    b.UserID = u ∧ b.AmountCents = d.balanceOf u ∧ (∀ v, d1.balanceOf v = d.balanceOf v) ∧
      d1.now = d.now ∧ d1.transactions = d.transactions := by
  unfold DB.FirstOrCreateBalance at h
  split at h
  · simp at h
  · rename_i d2 hn
    have h1 := next_balances d; have h2 := next_now d; have h3 := next_transactions d
    rw [hn] at h1 h2 h3
    simp only at h1 h2 h3
    split at h
    · rename_i b0 hf
      simp only [Prod.mk.injEq, Except.ok.injEq] at h
      obtain ⟨hb, hd⟩ := h
      subst hb; subst hd
      have hfind : d.findBalance u = some b0 := by
        unfold DB.findBalance at hf ⊢; rw [← h1]; exact hf
      refine ⟨?_, ?_, fun v => balanceOf_congr h1 v, h2, h3⟩
      · have := List.find?_some hfind
        simpa using this
      · unfold DB.balanceOf; rw [hfind]
    · rename_i hf
      simp only [Prod.mk.injEq, Except.ok.injEq] at h
      obtain ⟨hb, hd⟩ := h
      subst hb; subst hd
      have hfind : d.findBalance u = none := by
        unfold DB.findBalance at hf ⊢; rw [← h1]; exact hf
      refine ⟨rfl, ?_, ?_, h2, h3⟩
      · unfold DB.balanceOf; rw [hfind]
      · intro v
        unfold DB.balanceOf DB.findBalance
        simp only [List.find?_append, h1]
        cases hv : d.balances.find? (fun r => r.UserID = v) with
        | some r => simp
        | none =>
          by_cases huv : u = v
          · simp [List.find?, huv]
          · simp [List.find?, huv]

theorem saveBalance_error {d d1 : DB} {b : Balance} {e : Err}
    (h : d.SaveBalance b = (some e, d1)) :
    d1.balances = d.balances ∧ d1.now = d.now ∧ d1.transactions = d.transactions := by
  unfold DB.SaveBalance at h
  split at h
  · rename_i msg d2 hn
    have h1 := next_balances d; have h2 := next_now d; have h3 := next_transactions d
    rw [hn] at h1 h2 h3
    simp only [Prod.mk.injEq] at h
    rw [← h.2]; exact ⟨h1, h2, h3⟩
  · simp at h

theorem saveBalance_ok {d d1 : DB} {b : Balance} (h : d.SaveBalance b = (none, d1)) :
    (∀ v, d1.balanceOf v = if v = b.UserID then b.AmountCents else d.balanceOf v) ∧
      d1.now = d.now ∧ d1.transactions = d.transactions := by
  unfold DB.SaveBalance at h
  split at h
  · simp at h
  · rename_i d2 hn
    have h1 := next_balances d; have h2 := next_now d; have h3 := next_transactions d
    rw [hn] at h1 h2 h3
    simp only at h1 h2 h3
    simp only [Prod.mk.injEq, true_and] at h
    subst h
    refine ⟨?_, h2, h3⟩
    intro v
    unfold DB.balanceOf DB.findBalance
    simp only [find_upsertBalance, h1]
    by_cases hv : v = b.UserID
    · simp [hv]
    · have : ¬ b.UserID = v := fun e => hv e.symm
      simp [hv, this]

theorem createBalanceHistory_frame (d : DB) (h : BalanceHistory) :
    (d.CreateBalanceHistory h).2.balances = d.balances ∧
      (d.CreateBalanceHistory h).2.now = d.now ∧
      (d.CreateBalanceHistory h).2.transactions = d.transactions := by
  have h1 := next_balances d; have h2 := next_now d; have h3 := next_transactions d
  unfold DB.CreateBalanceHistory
  split
  · rename_i msg d2 hn; rw [hn] at h1 h2 h3; exact ⟨h1, h2, h3⟩
  · rename_i d2 hn; rw [hn] at h1 h2 h3; exact ⟨h1, h2, h3⟩

theorem createAuditLog_frame (d : DB) (a : AuditLog) :
    (d.CreateAuditLog a).2.balances = d.balances ∧ (d.CreateAuditLog a).2.now = d.now ∧
      (d.CreateAuditLog a).2.transactions = d.transactions := by
  have h1 := next_balances d; have h2 := next_now d; have h3 := next_transactions d
  unfold DB.CreateAuditLog
  split
  · rename_i msg d2 hn; rw [hn] at h1 h2 h3; exact ⟨h1, h2, h3⟩
  · rename_i d2 hn; rw [hn] at h1 h2 h3; exact ⟨h1, h2, h3⟩

theorem auditLog_frame (entityType entityID action details : String) (d : DB) :
    (audit.Log entityType entityID action details d).balances = d.balances ∧
      (audit.Log entityType entityID action details d).now = d.now ∧
      (audit.Log entityType entityID action details d).transactions = d.transactions := by
  unfold audit.Log
  split
  · exact ⟨rfl, rfl, rfl⟩
  · split
    · exact ⟨rfl, rfl, rfl⟩
    · split
      · exact ⟨rfl, rfl, rfl⟩
      · exact createAuditLog_frame d _

theorem createTransaction_frame (d : DB) (tx : Transaction) :
    (d.CreateTransaction tx).2.2.balances = d.balances ∧
      (d.CreateTransaction tx).2.2.now = d.now := by
  have h1 := next_balances d; have h2 := next_now d
  unfold DB.CreateTransaction
  split
  · rename_i msg d2 hn; rw [hn] at h1 h2; exact ⟨h1, h2⟩
  · rename_i d2 hn; rw [hn] at h1 h2; exact ⟨h1, h2⟩

theorem saveTransaction_frame (d : DB) (tx : Transaction) :
    (d.SaveTransaction tx).2.2.balances = d.balances ∧
      (d.SaveTransaction tx).2.2.now = d.now ∧
      (d.SaveTransaction tx).2.1 = { tx with UpdatedAt := d.now } := by
  have h1 := next_balances d; have h2 := next_now d
  unfold DB.SaveTransaction
  split
  · rename_i msg d2 hn; rw [hn] at h1 h2; exact ⟨h1, h2, rfl⟩
  · rename_i d2 hn; rw [hn] at h1 h2; exact ⟨h1, h2, rfl⟩

theorem saveFailed_frame (tx : Transaction) (err : Err) (d : DB) :
    (saveFailed tx err d).2.balances = d.balances ∧
      (saveFailed tx err d).1 =
        { tx with Status := TransactionStatusFailed, FailureCause := err.Error,
                  UpdatedAt := d.now } := by
  unfold saveFailed
  have h := saveTransaction_frame d
    { tx with Status := TransactionStatusFailed, FailureCause := err.Error }
  exact ⟨h.1, h.2.2⟩

/-! ## Theorems: `Credit` and `Debit` -/

/-- The effect of `Credit` on the stored balances: a successful call has a
positive amount and replaces the balance of the user by the wrapped sum; a
failed call changes no balance. -/
theorem credit_spec (u : Nat) (a : Int) (d : DB) :
    ((Credit u a d).1 = none → 0 < a ∧
      ∀ v, (Credit u a d).2.balanceOf v =
        if v = u then wrap64 (d.balanceOf u + a) else d.balanceOf v) ∧
    ((Credit u a d).1 ≠ none → ∀ v, (Credit u a d).2.balanceOf v = d.balanceOf v) ∧
    (Credit u a d).2.now = d.now := by
  unfold Credit
  by_cases ha : a ≤ 0
  · simp [ha]
  · simp only [ha, if_false]
    rcases hf : d.FirstOrCreateBalance u with ⟨r, d1⟩
    cases r with
    | error e =>
      have h := firstOrCreate_error hf
      simp only [ne_eq, not_true_eq_false, not_false_eq_true, forall_const, false_implies,
        true_and, reduceCtorEq]
      exact ⟨fun v => balanceOf_congr h.1 v, h.2.1⟩
    | ok b =>
      have h := firstOrCreate_ok hf
      simp only
      rcases hs : d1.SaveBalance
        { b with AmountCents := wrap64 (b.AmountCents + a), LastUpdated := d1.now } with ⟨e, d2⟩
      cases e with
      | some e =>
        have h2 := saveBalance_error hs
        simp only [ne_eq, not_true_eq_false, not_false_eq_true, forall_const, false_implies,
          true_and, reduceCtorEq]
        exact ⟨fun v => (balanceOf_congr h2.1 v).trans (h.2.2.1 v), h2.2.1.trans h.2.2.2.1⟩
      | none =>
        have h2 := saveBalance_ok hs
        have h3 := createBalanceHistory_frame d2
          { UserID := u, AmountCents := wrap64 (b.AmountCents + a) }
        have h4 := auditLog_frame "balance" (toString u) "credit"
          ("+" ++ toString a ++ " -> " ++ toString (wrap64 (b.AmountCents + a)))
          (d2.CreateBalanceHistory { UserID := u, AmountCents := wrap64 (b.AmountCents + a) }).2
        simp only [ne_eq, not_true_eq_false, false_implies, true_implies, true_and]
        refine ⟨⟨by omega, fun v => ?_⟩, ?_⟩
        · rw [balanceOf_congr h4.1 v, balanceOf_congr h3.1 v, h2.1 v]
          simp only [h.1, h.2.1, h.2.2.1 v]
        · rw [h4.2.1, h3.2.1, h2.2.1, h.2.2.2.1]

/-- The effect of `Debit` on the stored balances: a successful call has a
positive amount not exceeding the balance of the user and replaces that balance
by the wrapped difference; a failed call changes no balance. -/
theorem debit_spec (u : Nat) (a : Int) (d : DB) :
    ((Debit u a d).1 = none → 0 < a ∧ a ≤ d.balanceOf u ∧
      ∀ v, (Debit u a d).2.balanceOf v =
        if v = u then wrap64 (d.balanceOf u - a) else d.balanceOf v) ∧
    ((Debit u a d).1 ≠ none → ∀ v, (Debit u a d).2.balanceOf v = d.balanceOf v) ∧
    (Debit u a d).2.now = d.now := by
  unfold Debit
  by_cases ha : a ≤ 0
  · simp [ha]
  · simp only [ha, if_false]
    rcases hf : d.FirstOrCreateBalance u with ⟨r, d1⟩
    cases r with
    | error e =>
      have h := firstOrCreate_error hf
      simp only [ne_eq, not_true_eq_false, not_false_eq_true, forall_const, false_implies,
        true_and, reduceCtorEq]
      exact ⟨fun v => balanceOf_congr h.1 v, h.2.1⟩
    | ok b =>
      have h := firstOrCreate_ok hf
      simp only
      by_cases hlt : b.AmountCents < a
      · simp only [hlt, if_true, ne_eq, not_true_eq_false, not_false_eq_true, forall_const,
          false_implies, true_and, reduceCtorEq]
        exact ⟨h.2.2.1, h.2.2.2.1⟩
      · simp only [hlt, if_false]
        rcases hs : d1.SaveBalance
          { b with AmountCents := wrap64 (b.AmountCents - a), LastUpdated := d1.now } with ⟨e, d2⟩
        cases e with
        | some e =>
          have h2 := saveBalance_error hs
          simp only [ne_eq, not_true_eq_false, not_false_eq_true, forall_const, false_implies,
            true_and, reduceCtorEq]
          exact ⟨fun v => (balanceOf_congr h2.1 v).trans (h.2.2.1 v), h2.2.1.trans h.2.2.2.1⟩
        | none =>
          have h2 := saveBalance_ok hs
          have h3 := createBalanceHistory_frame d2
            { UserID := u, AmountCents := wrap64 (b.AmountCents - a) }
          have h4 := auditLog_frame "balance" (toString u) "debit"
            ("-" ++ toString a ++ " -> " ++ toString (wrap64 (b.AmountCents - a)))
            (d2.CreateBalanceHistory { UserID := u, AmountCents := wrap64 (b.AmountCents - a) }).2
          simp only [ne_eq, not_true_eq_false, false_implies, true_implies, true_and]
          refine ⟨⟨by omega, ?_, fun v => ?_⟩, ?_⟩
          · rw [← h.2.1]; omega
          · rw [balanceOf_congr h4.1 v, balanceOf_congr h3.1 v, h2.1 v]
            simp only [h.1, h.2.1, h.2.2.1 v]
          · rw [h4.2.1, h3.2.1, h2.2.1, h.2.2.2.1]

theorem wrap64_of_inInt64 (x : Int) (h : InInt64 x) : wrap64 x = x := by
  unfold InInt64 minInt64 maxInt64 at h
  unfold wrap64
  omega

theorem wrap64_inInt64 (x : Int) : InInt64 (wrap64 x) := by
  unfold InInt64 minInt64 maxInt64 wrap64
  omega

/-! ## Theorems: `ApplyTransfer` -/

/-- The result of `ApplyTransfer` when its debit succeeds and its credit fails:
the compensating credit is run, its outcome is dropped, and the failed record
is returned with the error of the credit. -/
theorem applyTransfer_credit_failed (X Y : Nat) (a : Int) (d : DB) (err : Err) (hXY : X ≠ Y)
    (hcreate : (d.CreateTransaction (transferRecord X Y a)).1 = none)
    (hdebit : (Debit X a (transferAfterCreate X Y a d)).1 = none)
    (hcredit : (Credit Y a (transferAfterDebit X Y a d)).1 = some err) :
    ApplyTransfer X Y a d =
      ((some (saveFailed (d.CreateTransaction (transferRecord X Y a)).2.1 err
          (Credit X a (transferAfterCredit X Y a d)).2).1, some err),
        (saveFailed (d.CreateTransaction (transferRecord X Y a)).2.1 err
          (Credit X a (transferAfterCredit X Y a d)).2).2) := by
  have ha : ¬ a ≤ 0 := by
    have := ((debit_spec X a (transferAfterCreate X Y a d)).1 hdebit).1
    omega
  unfold ApplyTransfer
  rw [if_neg ha, if_neg hXY]
  unfold transferAfterCredit transferAfterDebit transferAfterCreate transferRecord at *
  rcases hc : d.CreateTransaction
    { FromUserID := some X, ToUserID := some Y, AmountCents := a,
      Type_ := TransactionTypeTransfer, Status := TransactionStatusPending } with ⟨e, tx1, d1⟩
  rw [hc] at hcreate hdebit hcredit
  simp only at hcreate hdebit hcredit
  subst hcreate
  simp only
  rcases hd : Debit X a d1 with ⟨e2, d2⟩
  rw [hd] at hdebit hcredit
  simp only at hdebit hcredit
  subst hdebit
  simp only
  rcases hk : Credit Y a d2 with ⟨e3, d3⟩
  rw [hk] at hcredit
  simp only at hcredit
  subst hcredit
  simp only [hc, hd, hk]

theorem balanceOf_inInt64 (d : DB) (h : Int64Balances d) (v : Nat) : InInt64 (d.balanceOf v) := by
  unfold DB.balanceOf DB.findBalance
  cases hf : d.balances.find? (fun b => b.UserID = v) with
  | some b => exact h b (List.mem_of_find?_eq_some hf)
  | none => simp only; unfold InInt64 minInt64 maxInt64; omega

theorem transferAfterCreate_balanceOf (X Y : Nat) (a : Int) (d : DB) (v : Nat) :
    (transferAfterCreate X Y a d).balanceOf v = d.balanceOf v :=
  balanceOf_congr (createTransaction_frame d _).1 v

/-- C3 fails when the compensating credit fails too: the debit of account 1
succeeds, the credit of account 2 fails, and on return the balance of account 1
is 600 instead of the 1000 it held before the call. -/
theorem compensation_can_fail :
    (1 : Nat) ≠ 2 ∧
    (Debit 1 400 (transferAfterCreate 1 2 400 creditAndRollbackOutage)).1 = none ∧
    (Credit 2 400 (transferAfterDebit 1 2 400 creditAndRollbackOutage)).1 =
      some (.wrapf "failed to get/create balance" (.storage "connection lost")) ∧
    creditAndRollbackOutage.balanceOf 1 = 1000 ∧
    (ApplyTransfer 1 2 400 creditAndRollbackOutage).2.balanceOf 1 = 600 ∧
    (ApplyTransfer 1 2 400 creditAndRollbackOutage).2.balanceOf 1 ≠
      creditAndRollbackOutage.balanceOf 1 := by
  decide

/-- C3 (amended): when the debit of `X` succeeds, the credit of `Y` fails and the
compensating credit of `X` succeeds, then on return the stored balance of `X`
equals its value before the call, the balance of `Y` is unchanged, the error of
the credit is returned, and the returned transaction is `failed` with that
error as its failure cause. -/
theorem compensation_restores_source (X Y : Nat) (a : Int) (d : DB) (err : Err)
    (hXY : X ≠ Y) (hwf : Int64Balances d)
    (hcreate : (d.CreateTransaction (transferRecord X Y a)).1 = none)
    (hdebit : (Debit X a (transferAfterCreate X Y a d)).1 = none)
    (hcredit : (Credit Y a (transferAfterDebit X Y a d)).1 = some err)
    (hroll : (Credit X a (transferAfterCredit X Y a d)).1 = none) :
    (ApplyTransfer X Y a d).2.balanceOf X = d.balanceOf X ∧
    (ApplyTransfer X Y a d).2.balanceOf Y = d.balanceOf Y ∧
    (ApplyTransfer X Y a d).1.2 = some err ∧
    ∃ tx, (ApplyTransfer X Y a d).1.1 = some tx ∧ tx.Status = TransactionStatusFailed ∧
      tx.FailureCause = err.Error := by
  rw [applyTransfer_credit_failed X Y a d err hXY hcreate hdebit hcredit]
  have hD := (debit_spec X a (transferAfterCreate X Y a d)).1 hdebit
  have hC := (credit_spec Y a (transferAfterDebit X Y a d)).2.1 (by rw [hcredit]; simp)
  have hR := ((credit_spec X a (transferAfterCredit X Y a d)).1 hroll).2
  have hS := saveFailed_frame (d.CreateTransaction (transferRecord X Y a)).2.1 err
    (Credit X a (transferAfterCredit X Y a d)).2
  have hbX := balanceOf_inInt64 d hwf X
  have hX0 := transferAfterCreate_balanceOf X Y a d X
  have hY0 := transferAfterCreate_balanceOf X Y a d Y
  have hYX : ¬ Y = X := fun e => hXY e.symm
  refine ⟨?_, ?_, rfl, _, rfl, ?_, ?_⟩
  · simp only
    rw [balanceOf_congr hS.1 X, hR X, if_pos rfl]
    change wrap64 ((Credit Y a (transferAfterDebit X Y a d)).2.balanceOf X + a) = _
    rw [hC X]
    change wrap64 ((Debit X a (transferAfterCreate X Y a d)).2.balanceOf X + a) = _
    rw [hD.2.2 X, if_pos rfl, hX0]
    rw [hX0] at hD
    unfold InInt64 minInt64 maxInt64 at hbX
    unfold wrap64
    omega
  · simp only
    rw [balanceOf_congr hS.1 Y, hR Y, if_neg hYX]
    change (Credit Y a (transferAfterDebit X Y a d)).2.balanceOf Y = _
    rw [hC Y]
    change (Debit X a (transferAfterCreate X Y a d)).2.balanceOf Y = _
    rw [hD.2.2 Y, if_neg hYX, hY0]
  · rw [hS.2]
  · rw [hS.2]

theorem compensation_restores_source_witness :
    (ApplyTransfer 1 2 400 creditOutage).2.balanceOf 1 = creditOutage.balanceOf 1 ∧
    (ApplyTransfer 1 2 400 creditOutage).2.balanceOf 1 = 1000 :=
  ⟨(compensation_restores_source 1 2 400 creditOutage
      (.wrapf "failed to get/create balance" (.storage "connection lost"))
      (by decide) (by decide) (by decide) (by decide) (by decide) (by decide)).1,
   by decide⟩

/-- C4 fails: in both stores the debit succeeds and the credit fails; the
compensating credit succeeds in the first store and fails in the second, and
`ApplyTransfer` returns the very same transaction record and error in both. -/
theorem compensation_failure_returns_same_value :
    (Debit 1 400 (transferAfterCreate 1 2 400 creditOutage)).1 = none ∧
    (Debit 1 400 (transferAfterCreate 1 2 400 creditAndRollbackOutage)).1 = none ∧
    (Credit 2 400 (transferAfterDebit 1 2 400 creditOutage)).1 ≠ none ∧
    (Credit 2 400 (transferAfterDebit 1 2 400 creditAndRollbackOutage)).1 ≠ none ∧
    (Credit 1 400 (transferAfterCredit 1 2 400 creditOutage)).1 = none ∧
    (Credit 1 400 (transferAfterCredit 1 2 400 creditAndRollbackOutage)).1 ≠ none ∧
    (ApplyTransfer 1 2 400 creditAndRollbackOutage).1 = (ApplyTransfer 1 2 400 creditOutage).1 := by
  decide

/-- C4 (amended): when the debit succeeds and the credit fails, the value
`ApplyTransfer` returns is the created record marked `failed` with the message
of the credit's error, together with that error, whatever the outcome of the
compensating credit; a failed compensation shows only in the store, where the
balance of the source stays lower by the amount. -/
theorem compensation_failure_not_in_return_value (X Y : Nat) (a : Int) (d : DB) (err : Err)
    (hXY : X ≠ Y) (hwf : Int64Balances d)
    (hcreate : (d.CreateTransaction (transferRecord X Y a)).1 = none)
    (hdebit : (Debit X a (transferAfterCreate X Y a d)).1 = none)
    (hcredit : (Credit Y a (transferAfterDebit X Y a d)).1 = some err) :
    (ApplyTransfer X Y a d).1 =
      (some { (d.CreateTransaction (transferRecord X Y a)).2.1 with
                Status := TransactionStatusFailed, FailureCause := err.Error,
                UpdatedAt := d.now },
       some err) ∧
    ((Credit X a (transferAfterCredit X Y a d)).1 ≠ none →
      (ApplyTransfer X Y a d).2.balanceOf X = d.balanceOf X - a) := by
  rw [applyTransfer_credit_failed X Y a d err hXY hcreate hdebit hcredit]
  have hD := debit_spec X a (transferAfterCreate X Y a d)
  have hC := credit_spec Y a (transferAfterDebit X Y a d)
  have hR := credit_spec X a (transferAfterCredit X Y a d)
  have hS := saveFailed_frame (d.CreateTransaction (transferRecord X Y a)).2.1 err
    (Credit X a (transferAfterCredit X Y a d)).2
  have hnow : (Credit X a (transferAfterCredit X Y a d)).2.now = d.now := by
    rw [hR.2.2]
    change (Credit Y a (transferAfterDebit X Y a d)).2.now = _
    rw [hC.2.2]
    change (Debit X a (transferAfterCreate X Y a d)).2.now = _
    rw [hD.2.2]
    exact (createTransaction_frame d _).2
  refine ⟨?_, ?_⟩
  · simp only
    rw [hS.2, hnow]
  · intro hfail
    simp only
    rw [balanceOf_congr hS.1 X, hR.2.1 hfail X]
    change (Credit Y a (transferAfterDebit X Y a d)).2.balanceOf X = _
    rw [hC.2.1 (by rw [hcredit]; simp) X]
    change (Debit X a (transferAfterCreate X Y a d)).2.balanceOf X = _
    have hD1 := hD.1 hdebit
    rw [hD1.2.2 X, if_pos rfl, transferAfterCreate_balanceOf]
    rw [transferAfterCreate_balanceOf] at hD1
    have hbX := balanceOf_inInt64 d hwf X
    unfold InInt64 minInt64 maxInt64 at hbX
    unfold wrap64
    omega

theorem compensation_failure_not_in_return_value_witness :
    (ApplyTransfer 1 2 400 creditAndRollbackOutage).1 =
      (some { ID := 1, FromUserID := some 1, ToUserID := some 2, AmountCents := 400,
              Type_ := "transfer", Status := "failed",
              FailureCause := "failed to get/create balance: connection lost" },
       some (.wrapf "failed to get/create balance" (.storage "connection lost"))) ∧
    (ApplyTransfer 1 2 400 creditAndRollbackOutage).2.balanceOf 1 = 600 :=
  ⟨(compensation_failure_not_in_return_value 1 2 400 creditAndRollbackOutage
      (.wrapf "failed to get/create balance" (.storage "connection lost"))
      (by decide) (by decide) (by decide) (by decide) (by decide)).1,
   (compensation_failure_not_in_return_value 1 2 400 creditAndRollbackOutage
      (.wrapf "failed to get/create balance" (.storage "connection lost"))
      (by decide) (by decide) (by decide) (by decide) (by decide)).2 (by decide)⟩

theorem createTransaction_ok {d d1 : DB} {tx tx1 : Transaction} {e : Option Err}
    (h : d.CreateTransaction tx = (e, tx1, d1)) :
    tx1.Type_ = tx.Type_ ∧ tx1.Status = tx.Status ∧ d1.balances = d.balances := by
  have hb := (createTransaction_frame d tx).1
  rw [h] at hb
  refine ⟨?_, ?_, hb⟩
  · unfold DB.CreateTransaction at h
    split at h <;> simp only [Prod.mk.injEq] at h <;> rw [← h.2.1]
  · unfold DB.CreateTransaction at h
    split at h <;> simp only [Prod.mk.injEq] at h <;> rw [← h.2.1]

/-- The successful path of `ApplyTransfer`: when no error is returned the
accounts differ, the amount is positive and covered by the source, the stored
balances are the wrapped difference and the wrapped sum, and the returned
record is a completed transfer. -/
theorem applyTransfer_ok (X Y : Nat) (a : Int) (d : DB)
    (h : (ApplyTransfer X Y a d).1.2 = none) :
    X ≠ Y ∧ 0 < a ∧ a ≤ d.balanceOf X ∧
    (ApplyTransfer X Y a d).2.balanceOf X = wrap64 (d.balanceOf X - a) ∧
    (ApplyTransfer X Y a d).2.balanceOf Y = wrap64 (d.balanceOf Y + a) ∧
    ∃ tx, (ApplyTransfer X Y a d).1.1 = some tx ∧ tx.Type_ = TransactionTypeTransfer ∧
      tx.Status = TransactionStatusCompleted := by
  unfold ApplyTransfer at h ⊢
  by_cases ha : a ≤ 0
  · simp [ha] at h
  · by_cases hXY : X = Y
    · simp [ha, hXY] at h
    · simp only [ha, hXY, if_false] at h ⊢
      rcases hc : d.CreateTransaction
        { FromUserID := some X, ToUserID := some Y, AmountCents := a,
          Type_ := TransactionTypeTransfer, Status := TransactionStatusPending } with ⟨e, tx1, d1⟩
      have hC := createTransaction_ok hc
      simp only [hc] at h ⊢
      cases e with
      | some e => simp at h
      | none =>
        simp only at h ⊢
        have hD := debit_spec X a d1
        rcases hd : Debit X a d1 with ⟨e2, d2⟩
        rw [hd] at hD
        simp only [hd] at h ⊢
        cases e2 with
        | some e2 => simp at h
        | none =>
          simp only at h ⊢
          have hK := credit_spec Y a d2
          rcases hk : Credit Y a d2 with ⟨e3, d3⟩
          rw [hk] at hK
          simp only [hk] at h ⊢
          cases e3 with
          | some e3 => simp at h
          | none =>
            simp only at h ⊢
            have hS := saveTransaction_frame d3 { tx1 with Status := TransactionStatusCompleted }
            rcases hs : d3.SaveTransaction { tx1 with Status := TransactionStatusCompleted }
              with ⟨e4, tx3, d4⟩
            rw [hs] at hS
            simp only [hs] at h ⊢
            cases e4 with
            | some e4 => simp at h
            | none =>
              simp only at hS ⊢
              have hD1 := hD.1 rfl
              have hK1 := hK.1 rfl
              have hA := auditLog_frame "transaction" (toString tx3.ID) "transfer"
                ("from=" ++ toString X ++ " to=" ++ toString Y ++ " amount=" ++ toString a) d4
              have hYX : ¬ Y = X := fun e => hXY e.symm
              have e1 : ∀ v, d1.balanceOf v = d.balanceOf v := fun v => balanceOf_congr hC.2.2 v
              refine ⟨hXY, hD1.1, ?_, ?_, ?_, tx3, rfl, ?_, ?_⟩
              · rw [← e1 X]; exact hD1.2.1
              · rw [balanceOf_congr hA.1 X, balanceOf_congr hS.1 X, hK1.2 X, if_neg hXY,
                  hD1.2.2 X, if_pos rfl, e1 X]
              · rw [balanceOf_congr hA.1 Y, balanceOf_congr hS.1 Y, hK1.2 Y, if_pos rfl,
                  hD1.2.2 Y, if_neg hYX, e1 Y]
              · rw [hS.2.2]; exact hC.1
              · rw [hS.2.2]

/-- Conservation when the credit does not overflow: a transfer that returns no
error lowers the balance of the source by exactly the amount, raises the
balance of the destination by exactly the amount and keeps their sum. -/
theorem transfer_conservation_without_overflow (X Y : Nat) (a : Int) (d : DB)
    (hwf : Int64Balances d) (hfit : d.balanceOf Y + a ≤ maxInt64)
    (h : (ApplyTransfer X Y a d).1.2 = none) :
    (ApplyTransfer X Y a d).2.balanceOf X = d.balanceOf X - a ∧
    (ApplyTransfer X Y a d).2.balanceOf Y = d.balanceOf Y + a ∧
    (ApplyTransfer X Y a d).2.balanceOf X + (ApplyTransfer X Y a d).2.balanceOf Y =
      d.balanceOf X + d.balanceOf Y := by
  have hok := applyTransfer_ok X Y a d h
  have hbX := balanceOf_inInt64 d hwf X
  have hbY := balanceOf_inInt64 d hwf Y
  have h1 : wrap64 (d.balanceOf X - a) = d.balanceOf X - a := by
    apply wrap64_of_inInt64
    unfold InInt64 minInt64 maxInt64 at *
    omega
  have h2 : wrap64 (d.balanceOf Y + a) = d.balanceOf Y + a := by
    apply wrap64_of_inInt64
    unfold InInt64 minInt64 maxInt64 at *
    omega
  rw [hok.2.2.2.1, hok.2.2.2.2.1, h1, h2]
  refine ⟨rfl, rfl, by omega⟩

/-! ## Theorems: the orchestrator on concrete histories -/

/-- C1 (failing input): from the empty store, crediting account 1 with the
largest `int64` and then with 1 returns no error either time and leaves the
stored balance of account 1 at the smallest `int64`, a negative value. -/
theorem credit_overflow_makes_balance_negative :
    NonNegBalances {} ∧
    (ApplyCredit 1 maxInt64 {}).1.2 = none ∧
    (ApplyCredit 1 1 (ApplyCredit 1 maxInt64 {}).2).1.2 = none ∧
    (runOps [.ApplyCredit 1 maxInt64, .ApplyCredit 1 1] {}).balanceOf 1 =
      -9223372036854775808 ∧
    ¬ NonNegBalances (runOps [.ApplyCredit 1 maxInt64, .ApplyCredit 1 1] {}) ∧
    ¬ NonNegBalances (runOps [.Credit 1 maxInt64, .Credit 1 1] {}) := by
  decide

/-- C2 (failing input): with account 1 at 1 and account 2 at the largest
`int64`, both reached by credits from the empty store, the transfer of 1 from
account 1 to account 2 returns no error and a completed transfer record, while
the balance of account 2 drops to the smallest `int64` and the sum of the two
balances changes. -/
theorem transfer_overflow_breaks_conservation :
    (runOps [.ApplyCredit 1 1, .ApplyCredit 2 maxInt64] {}).balanceOf 1 = 1 ∧
    (runOps [.ApplyCredit 1 1, .ApplyCredit 2 maxInt64] {}).balanceOf 2 = 9223372036854775807 ∧
    (ApplyTransfer 1 2 1 (runOps [.ApplyCredit 1 1, .ApplyCredit 2 maxInt64] {})).1.2 = none ∧
    (ApplyTransfer 1 2 1 (runOps [.ApplyCredit 1 1, .ApplyCredit 2 maxInt64] {})).2.balanceOf 1
      = 0 ∧
    (ApplyTransfer 1 2 1 (runOps [.ApplyCredit 1 1, .ApplyCredit 2 maxInt64] {})).2.balanceOf 2
      = -9223372036854775808 ∧
    (ApplyTransfer 1 2 1 (runOps [.ApplyCredit 1 1, .ApplyCredit 2 maxInt64] {})).2.balanceOf 2
      ≠ (runOps [.ApplyCredit 1 1, .ApplyCredit 2 maxInt64] {}).balanceOf 2 + 1 := by
  decide

/-- C8 (failing input): the record `ApplyCredit 1 100` (and `ApplyDebit 1 100`)
writes before touching the balance is stored with status `pending`, and
`Validate` returns an error on it. -/
theorem persisted_pending_record_fails_validate :
    (ApplyCredit 1 100 balanceStepOutage).2.transactions =
      [{ ID := 1, ToUserID := some 1, AmountCents := 100, Type_ := "credit",
         Status := "pending" }] ∧
    Transaction.Validate { ID := 1, ToUserID := some 1, AmountCents := 100, Type_ := "credit",
                           Status := "pending" } =
      some (.errorf "credit/debit transactions should not have from/to user IDs") ∧
    (ApplyDebit 1 100 balanceStepOutage).2.transactions =
      [{ ID := 1, FromUserID := some 1, AmountCents := 100, Type_ := "debit",
         Status := "pending" }] ∧
    Transaction.Validate { ID := 1, FromUserID := some 1, AmountCents := 100, Type_ := "debit",
                           Status := "pending" } =
      some (.errorf "credit/debit transactions should not have from/to user IDs") ∧
    (∀ t ∈ (ApplyCredit 1 100 balanceStepOutage).2.transactions,
      t.Status = TransactionStatusPending ∧ t.Validate ≠ none) ∧
    (ApplyCredit 1 100 balanceStepOutage).2.transactions =
      [(balanceStepOutage.CreateTransaction (creditRecord 1 100)).2.1] ∧
    (ApplyDebit 1 100 balanceStepOutage).2.transactions =
      [(balanceStepOutage.CreateTransaction (debitRecord 1 100)).2.1] := by
  decide

/-! ## Theorems: what the orchestrator returns -/

theorem createTransaction_none_iff (d : DB) (tx : Transaction) :
    (d.CreateTransaction tx).1 = none ↔ d.next.1 = none := by
  unfold DB.CreateTransaction
  split
  · rename_i msg d2 hn; rw [hn]; simp
  · rename_i d2 hn; rw [hn]; simp

theorem saveFailed_terminal (tx : Transaction) (err : Err) (d : DB) :
    IsTerminal (saveFailed tx err d).1.Status := by
  rw [(saveFailed_frame tx err d).2]; exact Or.inr rfl

theorem saveCompleted_terminal (tx : Transaction) (d : DB) :
    IsTerminal (d.SaveTransaction { tx with Status := TransactionStatusCompleted }).2.1.Status := by
  rw [(saveTransaction_frame d _).2.2]; exact Or.inl rfl

theorem applyCredit_returns (u : Nat) (a : Int) (d : DB) :
    ((ApplyCredit u a d).1.1 = none ↔ (a ≤ 0 ∨ d.next.1 ≠ none)) ∧
    ((ApplyCredit u a d).1.1 = none → (ApplyCredit u a d).1.2 ≠ none) ∧
    (∀ tx, (ApplyCredit u a d).1.1 = some tx → IsTerminal tx.Status) ∧
    (a ≤ 0 → (ApplyCredit u a d).2 = d) := by
  unfold ApplyCredit
  by_cases ha : a ≤ 0
  · simp [ha]
  · simp only [ha, if_false, false_or, false_implies, and_true]
    have hI := createTransaction_none_iff d
      { ToUserID := some u, AmountCents := a, Type_ := TransactionTypeCredit,
        Status := TransactionStatusPending }
    rcases hc : d.CreateTransaction
      { ToUserID := some u, AmountCents := a, Type_ := TransactionTypeCredit,
        Status := TransactionStatusPending } with ⟨e, tx1, d1⟩
    rw [hc] at hI
    simp only at hI
    cases e with
    | some e =>
      have hn : d.next.1 ≠ none := fun h0 => by simpa using hI.2 h0
      simp [hn]
    | none =>
      have hn : d.next.1 = none := hI.1 rfl
      simp only [hn, ne_eq, not_true_eq_false, iff_false]
      rcases hk : Credit u a d1 with ⟨e2, d2⟩
      cases e2 with
      | some e2 =>
        simp only [reduceCtorEq, not_false_eq_true, false_implies, Option.some.injEq, true_and]
        intro tx htx; rw [← htx]; exact saveFailed_terminal tx1 e2 d2
      | none =>
        simp only
        have hT := saveCompleted_terminal tx1 d2
        rcases hs : d2.SaveTransaction { tx1 with Status := TransactionStatusCompleted }
          with ⟨e3, tx3, d3⟩
        rw [hs] at hT
        cases e3 <;>
          simp only [reduceCtorEq, not_false_eq_true, false_implies, Option.some.injEq,
            true_and] <;>
          (intro tx htx; rw [← htx]; exact hT)

theorem applyDebit_returns (u : Nat) (a : Int) (d : DB) :
    ((ApplyDebit u a d).1.1 = none ↔ (a ≤ 0 ∨ d.next.1 ≠ none)) ∧
    ((ApplyDebit u a d).1.1 = none → (ApplyDebit u a d).1.2 ≠ none) ∧
    (∀ tx, (ApplyDebit u a d).1.1 = some tx → IsTerminal tx.Status) ∧
    (a ≤ 0 → (ApplyDebit u a d).2 = d) := by
  unfold ApplyDebit
  by_cases ha : a ≤ 0
  · simp [ha]
  · simp only [ha, if_false, false_or, false_implies, and_true]
    have hI := createTransaction_none_iff d
      { FromUserID := some u, AmountCents := a, Type_ := TransactionTypeDebit,
        Status := TransactionStatusPending }
    rcases hc : d.CreateTransaction
      { FromUserID := some u, AmountCents := a, Type_ := TransactionTypeDebit,
        Status := TransactionStatusPending } with ⟨e, tx1, d1⟩
    rw [hc] at hI
    simp only at hI
    cases e with
    | some e =>
      have hn : d.next.1 ≠ none := fun h0 => by simpa using hI.2 h0
      simp [hn]
    | none =>
      have hn : d.next.1 = none := hI.1 rfl
      simp only [hn, ne_eq, not_true_eq_false, iff_false]
      rcases hk : Debit u a d1 with ⟨e2, d2⟩
      cases e2 with
      | some e2 =>
        simp only [reduceCtorEq, not_false_eq_true, false_implies, Option.some.injEq, true_and]
        intro tx htx; rw [← htx]; exact saveFailed_terminal tx1 e2 d2
      | none =>
        simp only
        have hT := saveCompleted_terminal tx1 d2
        rcases hs : d2.SaveTransaction { tx1 with Status := TransactionStatusCompleted }
          with ⟨e3, tx3, d3⟩
        rw [hs] at hT
        cases e3 <;>
          simp only [reduceCtorEq, not_false_eq_true, false_implies, Option.some.injEq,
            true_and] <;>
          (intro tx htx; rw [← htx]; exact hT)

theorem applyTransfer_returns (f t : Nat) (a : Int) (d : DB) :
    ((ApplyTransfer f t a d).1.1 = none ↔ (a ≤ 0 ∨ f = t ∨ d.next.1 ≠ none)) ∧
    ((ApplyTransfer f t a d).1.1 = none → (ApplyTransfer f t a d).1.2 ≠ none) ∧
    (∀ tx, (ApplyTransfer f t a d).1.1 = some tx → IsTerminal tx.Status) ∧
    (a ≤ 0 ∨ f = t → (ApplyTransfer f t a d).2 = d) := by
  unfold ApplyTransfer
  by_cases ha : a ≤ 0
  · simp [ha]
  · by_cases hft : f = t
    · simp [ha, hft]
    · simp only [ha, hft, if_false, false_or, false_implies, and_true]
      have hI := createTransaction_none_iff d
        { FromUserID := some f, ToUserID := some t, AmountCents := a,
          Type_ := TransactionTypeTransfer, Status := TransactionStatusPending }
      rcases hc : d.CreateTransaction
        { FromUserID := some f, ToUserID := some t, AmountCents := a,
          Type_ := TransactionTypeTransfer, Status := TransactionStatusPending } with ⟨e, tx1, d1⟩
      rw [hc] at hI
      simp only at hI
      cases e with
      | some e =>
        have hn : d.next.1 ≠ none := fun h0 => by simpa using hI.2 h0
        simp [hn]
      | none =>
        have hn : d.next.1 = none := hI.1 rfl
        simp only [hn, ne_eq, not_true_eq_false, iff_false]
        rcases hd : Debit f a d1 with ⟨e2, d2⟩
        cases e2 with
        | some e2 =>
          simp only [reduceCtorEq, not_false_eq_true, false_implies, Option.some.injEq, true_and]
          intro tx htx; rw [← htx]; exact saveFailed_terminal tx1 e2 d2
        | none =>
          simp only
          rcases hk : Credit t a d2 with ⟨e3, d3⟩
          cases e3 with
          | some e3 =>
            simp only [reduceCtorEq, not_false_eq_true, false_implies, Option.some.injEq,
              true_and]
            intro tx htx; rw [← htx]; exact saveFailed_terminal tx1 e3 _
          | none =>
            simp only
            have hT := saveCompleted_terminal tx1 d3
            rcases hs : d3.SaveTransaction { tx1 with Status := TransactionStatusCompleted }
              with ⟨e4, tx3, d4⟩
            rw [hs] at hT
            cases e4 <;>
              simp only [reduceCtorEq, not_false_eq_true, false_implies, Option.some.injEq,
                true_and] <;>
              (intro tx htx; rw [← htx]; exact hT)

/-- C10 fails: a same-account transfer, a non-positive amount and a failed
creation of the pending record each make the orchestrator return no
transaction record at all, only an error. -/
theorem orchestrator_can_return_nil :
    (ApplyTransfer 1 1 100 {}).1.1 = none ∧
    (ApplyTransfer 1 1 100 {}).1.2 = some (.errorf "cannot transfer to same user") ∧
    (ApplyTransfer 1 1 100 {}).2.transactions = [] ∧
    (ApplyCredit 1 0 {}).1.1 = none ∧
    (ApplyDebit 1 (-5) {}).1.1 = none ∧
    (ApplyTransfer 1 2 0 {}).1.1 = none ∧
    (ApplyCredit 1 100 { outcomes := [some "connection lost"] }).1.1 = none := by
  decide

/-- C10 (amended): each of `ApplyCredit`, `ApplyDebit` and `ApplyTransfer`
returns a nil transaction exactly when the amount is not positive, when (for a
transfer) the two accounts are the same, or when creating the pending record
fails, and then it returns an error; every transaction it does return has
status `completed` or `failed`; a call rejected for its amount or for naming
the same account twice leaves the store untouched, so no failed record exists
for it. -/
theorem orchestrator_returns_terminal_record_or_nil (u f t : Nat) (a : Int) (d : DB) :
    (((ApplyCredit u a d).1.1 = none ↔ (a ≤ 0 ∨ d.next.1 ≠ none)) ∧
      ((ApplyCredit u a d).1.1 = none → (ApplyCredit u a d).1.2 ≠ none) ∧
      (∀ tx, (ApplyCredit u a d).1.1 = some tx → IsTerminal tx.Status) ∧
      (a ≤ 0 → (ApplyCredit u a d).2 = d)) ∧
    (((ApplyDebit u a d).1.1 = none ↔ (a ≤ 0 ∨ d.next.1 ≠ none)) ∧
      ((ApplyDebit u a d).1.1 = none → (ApplyDebit u a d).1.2 ≠ none) ∧
      (∀ tx, (ApplyDebit u a d).1.1 = some tx → IsTerminal tx.Status) ∧
      (a ≤ 0 → (ApplyDebit u a d).2 = d)) ∧
    (((ApplyTransfer f t a d).1.1 = none ↔ (a ≤ 0 ∨ f = t ∨ d.next.1 ≠ none)) ∧
      ((ApplyTransfer f t a d).1.1 = none → (ApplyTransfer f t a d).1.2 ≠ none) ∧
      (∀ tx, (ApplyTransfer f t a d).1.1 = some tx → IsTerminal tx.Status) ∧
      (a ≤ 0 ∨ f = t → (ApplyTransfer f t a d).2 = d)) :=
  ⟨applyCredit_returns u a d, applyDebit_returns u a d, applyTransfer_returns f t a d⟩

/-! ## Theorems: what holds next to the failing inputs -/

/-- `Debit` never makes a balance negative: on a store of non-negative `int64`
balances every balance is non-negative after the call, whatever its outcome. -/
theorem debit_keeps_nonneg (u : Nat) (a : Int) (d : DB) (hwf : Int64Balances d)
    (h : ∀ v, 0 ≤ d.balanceOf v) : ∀ v, 0 ≤ (Debit u a d).2.balanceOf v := by
  intro v
  have hD := debit_spec u a d
  cases hr : (Debit u a d).1 with
  | some e =>
    rw [hD.2.1 (by rw [hr]; simp) v]; exact h v
  | none =>
    have hD1 := hD.1 hr
    rw [hD1.2.2 v]
    by_cases hv : v = u
    · rw [if_pos hv]
      have hb := balanceOf_inInt64 d hwf u
      unfold InInt64 minInt64 maxInt64 at hb
      unfold wrap64
      omega
    · rw [if_neg hv]; exact h v

/-- `Credit` keeps the balances non-negative as long as the sum fits `int64`. -/
theorem credit_keeps_nonneg_without_overflow (u : Nat) (a : Int) (d : DB)
    (hfit : d.balanceOf u + a ≤ maxInt64) (h : ∀ v, 0 ≤ d.balanceOf v) :
    ∀ v, 0 ≤ (Credit u a d).2.balanceOf v := by
  intro v
  have hC := credit_spec u a d
  cases hr : (Credit u a d).1 with
  | some e =>
    rw [hC.2.1 (by rw [hr]; simp) v]; exact h v
  | none =>
    have hC1 := hC.1 hr
    rw [hC1.2 v]
    by_cases hv : v = u
    · rw [if_pos hv]
      have hu := h u
      unfold maxInt64 at hfit
      unfold wrap64
      omega
    · rw [if_neg hv]; exact h v

/-- The records `db.DB.Create` stores for `ApplyCredit` and `ApplyDebit` are
pending and, for every user and every amount, rejected by `Validate`. -/
theorem credit_debit_record_pending_and_invalid (u : Nat) (a : Int) (d : DB)
    (hnext : d.next.1 = none) :
    ((d.CreateTransaction (creditRecord u a)).2.1 ∈
        (d.CreateTransaction (creditRecord u a)).2.2.transactions ∧
      (d.CreateTransaction (creditRecord u a)).2.1.Status = TransactionStatusPending ∧
      (d.CreateTransaction (creditRecord u a)).2.1.Validate ≠ none) ∧
    ((d.CreateTransaction (debitRecord u a)).2.1 ∈
        (d.CreateTransaction (debitRecord u a)).2.2.transactions ∧
      (d.CreateTransaction (debitRecord u a)).2.1.Status = TransactionStatusPending ∧
      (d.CreateTransaction (debitRecord u a)).2.1.Validate ≠ none) := by
  unfold DB.CreateTransaction
  rcases hn : d.next with ⟨o, d2⟩
  rw [hn] at hnext
  simp only at hnext
  subst hnext
  refine ⟨⟨by simp, rfl, ?_⟩, ⟨by simp, rfl, ?_⟩⟩
  · intro hv
    have := (validate_credit_debit_iff _ (Or.inl rfl)).1 hv
    simp [creditRecord] at this
  · intro hv
    have := (validate_credit_debit_iff _ (Or.inr rfl)).1 hv
    simp [debitRecord] at this

/-! ## Theorems: the outcome script and the history table -/

theorem next_fst (d : DB) : d.next.1 = (d.outcomes.head?).join := by
  unfold DB.next
  cases h : d.outcomes <;> simp

theorem next_outcomes (d : DB) : d.next.2.outcomes = d.outcomes.tail := by
  unfold DB.next
  cases h : d.outcomes <;> simp [h]

theorem next_histories (d : DB) : d.next.2.balance_histories = d.balance_histories := by
  unfold DB.next; split <;> rfl

theorem working_next (d : DB) (h : d.Working) : d.next.1 = none ∧ d.next.2.Working := by
  unfold DB.Working at h ⊢
  rw [next_fst, next_outcomes]
  cases ho : d.outcomes with
  | nil => simp
  | cons o os =>
    rw [ho] at h
    refine ⟨?_, fun x hx => h x (List.mem_cons_of_mem _ hx)⟩
    simp [h o (List.mem_cons_self _ _)]

theorem firstOrCreate_script (d : DB) (u : Nat) :
    (d.FirstOrCreateBalance u).2.outcomes = d.outcomes.tail ∧
    (d.FirstOrCreateBalance u).2.balance_histories = d.balance_histories ∧
    (d.next.1 = none → ∃ b, (d.FirstOrCreateBalance u).1 = .ok b) := by
  have h1 := next_outcomes d; have h2 := next_histories d
  unfold DB.FirstOrCreateBalance
  rcases hn : d.next with ⟨o, d1⟩
  rw [hn] at h1 h2
  simp only at h1 h2
  cases o with
  | some msg => simp [h1, h2]
  | none =>
    simp only
    split
    · rename_i b hb; exact ⟨h1, h2, fun _ => ⟨b, rfl⟩⟩
    · exact ⟨h1, h2, fun _ => ⟨_, rfl⟩⟩

theorem saveBalance_script (d : DB) (b : Balance) :
    (d.SaveBalance b).2.outcomes = d.outcomes.tail ∧
    (d.SaveBalance b).2.balance_histories = d.balance_histories ∧
    (d.next.1 = none → (d.SaveBalance b).1 = none) := by
  have h1 := next_outcomes d; have h2 := next_histories d
  unfold DB.SaveBalance
  rcases hn : d.next with ⟨o, d1⟩
  rw [hn] at h1 h2
  simp only at h1 h2
  cases o <;> simp [h1, h2]

theorem createBalanceHistory_script (d : DB) (h : BalanceHistory) :
    (d.CreateBalanceHistory h).2.outcomes = d.outcomes.tail ∧
    (d.next.1 = none →
      (d.CreateBalanceHistory h).2.balance_histories =
        d.balance_histories ++
          [{ h with ID := d.balance_histories.length + 1, CreatedAt := d.now }]) ∧
    (d.next.1 ≠ none → (d.CreateBalanceHistory h).2.balance_histories = d.balance_histories) := by
  have h1 := next_outcomes d; have h2 := next_histories d; have h3 := next_now d
  unfold DB.CreateBalanceHistory
  rcases hn : d.next with ⟨o, d1⟩
  rw [hn] at h1 h2 h3
  simp only at h1 h2 h3
  cases o <;> simp [h1, h2, h3]

theorem createAuditLog_script (d : DB) (a : AuditLog) :
    (d.CreateAuditLog a).2.outcomes = d.outcomes.tail ∧
    (d.CreateAuditLog a).2.balance_histories = d.balance_histories := by
  have h1 := next_outcomes d; have h2 := next_histories d
  unfold DB.CreateAuditLog
  rcases hn : d.next with ⟨o, d1⟩
  rw [hn] at h1 h2
  simp only at h1 h2
  cases o <;> simp [h1, h2]

theorem createTransaction_script (d : DB) (tx : Transaction) :
    (d.CreateTransaction tx).2.2.outcomes = d.outcomes.tail ∧
    (d.CreateTransaction tx).2.2.balance_histories = d.balance_histories ∧
    (d.CreateTransaction tx).2.1.FromUserID = tx.FromUserID ∧
    (d.CreateTransaction tx).2.1.ToUserID = tx.ToUserID ∧
    (d.CreateTransaction tx).2.1.AmountCents = tx.AmountCents ∧
    (d.CreateTransaction tx).2.1.Type_ = tx.Type_ ∧
    (d.CreateTransaction tx).2.1.Status = tx.Status := by
  have h1 := next_outcomes d; have h2 := next_histories d
  unfold DB.CreateTransaction
  rcases hn : d.next with ⟨o, d1⟩
  rw [hn] at h1 h2
  simp only at h1 h2
  cases o <;> simp [h1, h2]

theorem saveTransaction_script (d : DB) (tx : Transaction) :
    (d.SaveTransaction tx).2.2.outcomes = d.outcomes.tail ∧
    (d.SaveTransaction tx).2.2.balance_histories = d.balance_histories ∧
    (d.next.1 = none → (d.SaveTransaction tx).1 = none) := by
  have h1 := next_outcomes d; have h2 := next_histories d
  unfold DB.SaveTransaction
  rcases hn : d.next with ⟨o, d1⟩
  rw [hn] at h1 h2
  simp only at h1 h2
  cases o <;> simp [h1, h2]

theorem working_of_tail {d d1 : DB} (h : d.Working) (ht : d1.outcomes = d.outcomes.tail) :
    d1.Working := by
  unfold DB.Working at h ⊢
  rw [ht]
  intro o ho
  exact h o (List.mem_of_mem_tail ho)

theorem auditLog_script (entityType entityID action details : String) (d : DB) :
    (audit.Log entityType entityID action details d).balance_histories = d.balance_histories ∧
    (d.Working → (audit.Log entityType entityID action details d).Working) := by
  unfold audit.Log
  split
  · exact ⟨rfl, id⟩
  · split
    · exact ⟨rfl, id⟩
    · split
      · exact ⟨rfl, id⟩
      · exact ⟨(createAuditLog_script d _).2,
          fun h => working_of_tail h (createAuditLog_script d _).1⟩

theorem next_fst_after_two {d d1 d2 : DB} (h1 : d1.outcomes = d.outcomes.tail)
    (h2 : d2.outcomes = d1.outcomes.tail) : d2.next.1.isSome = d.failsAt 2 := by
  rw [next_fst, h2, h1]
  unfold DB.failsAt
  cases d.outcomes with
  | nil => rfl
  | cons a l =>
    cases l with
    | nil => rfl
    | cons b l2 => cases l2 <;> simp

/-- The history written by `Credit`: a failed call writes nothing; a successful
call appends one snapshot with the user and the saved amount, unless the
insert of the snapshot, the third storage call, fails. -/
theorem credit_history (u : Nat) (a : Int) (d : DB) :
    ((Credit u a d).1 = none →
      (d.failsAt 2 = false → (Credit u a d).2.balance_histories =
        d.balance_histories ++ [historySnapshot d u (wrap64 (d.balanceOf u + a))]) ∧
      (d.failsAt 2 = true → (Credit u a d).2.balance_histories = d.balance_histories)) ∧
    ((Credit u a d).1 ≠ none → (Credit u a d).2.balance_histories = d.balance_histories) := by
  unfold Credit
  by_cases ha : a ≤ 0
  · simp [ha]
  · simp only [ha, if_false]
    have hF := firstOrCreate_script d u
    rcases hf : d.FirstOrCreateBalance u with ⟨r, d1⟩
    rw [hf] at hF
    simp only at hF
    cases r with
    | error e => simp [hF.2.1]
    | ok b =>
      have hb := firstOrCreate_ok hf
      simp only
      have hS := saveBalance_script d1
        { b with AmountCents := wrap64 (b.AmountCents + a), LastUpdated := d1.now }
      have hSo := @saveBalance_ok d1
      rcases hs : d1.SaveBalance
        { b with AmountCents := wrap64 (b.AmountCents + a), LastUpdated := d1.now } with ⟨e, d2⟩
      rw [hs] at hS
      simp only at hS
      cases e with
      | some e => simp [hS.2.1, hF.2.1]
      | none =>
        have hnow : d2.now = d.now := ((hSo hs).2.1).trans hb.2.2.2.1
        have hhist : d2.balance_histories = d.balance_histories := hS.2.1.trans hF.2.1
        have hH := createBalanceHistory_script d2
          { UserID := u, AmountCents := wrap64 (b.AmountCents + a) }
        have hA := auditLog_script "balance" (toString u) "credit"
          ("+" ++ toString a ++ " -> " ++ toString (wrap64 (b.AmountCents + a)))
          (d2.CreateBalanceHistory { UserID := u, AmountCents := wrap64 (b.AmountCents + a) }).2
        have hfail := next_fst_after_two hF.1 hS.1
        simp only [ne_eq, not_true_eq_false, false_implies, true_implies, and_true]
        rw [hA.1]
        constructor
        · intro h2
          rw [h2] at hfail
          have hn : d2.next.1 = none := by
            cases hx : d2.next.1 <;> simp [hx] at hfail ⊢
          rw [hH.2.1 hn, hhist, hnow, hb.2.1]
          rfl
        · intro h2
          rw [h2] at hfail
          have hn : d2.next.1 ≠ none := by
            cases hx : d2.next.1 <;> simp [hx] at hfail ⊢
          rw [hH.2.2 hn, hhist]

/-- The history written by `Debit`, as for `Credit`. -/
theorem debit_history (u : Nat) (a : Int) (d : DB) :
    ((Debit u a d).1 = none →
      (d.failsAt 2 = false → (Debit u a d).2.balance_histories =
        d.balance_histories ++ [historySnapshot d u (wrap64 (d.balanceOf u - a))]) ∧
      (d.failsAt 2 = true → (Debit u a d).2.balance_histories = d.balance_histories)) ∧
    ((Debit u a d).1 ≠ none → (Debit u a d).2.balance_histories = d.balance_histories) := by
  unfold Debit
  by_cases ha : a ≤ 0
  · simp [ha]
  · simp only [ha, if_false]
    have hF := firstOrCreate_script d u
    rcases hf : d.FirstOrCreateBalance u with ⟨r, d1⟩
    rw [hf] at hF
    simp only at hF
    cases r with
    | error e => simp [hF.2.1]
    | ok b =>
      have hb := firstOrCreate_ok hf
      simp only
      by_cases hlt : b.AmountCents < a
      · simp [hlt, hF.2.1]
      · simp only [hlt, if_false]
        have hS := saveBalance_script d1
          { b with AmountCents := wrap64 (b.AmountCents - a), LastUpdated := d1.now }
        have hSo := @saveBalance_ok d1
        rcases hs : d1.SaveBalance
          { b with AmountCents := wrap64 (b.AmountCents - a), LastUpdated := d1.now }
          with ⟨e, d2⟩
        rw [hs] at hS
        simp only at hS
        cases e with
        | some e => simp [hS.2.1, hF.2.1]
        | none =>
          have hnow : d2.now = d.now := ((hSo hs).2.1).trans hb.2.2.2.1
          have hhist : d2.balance_histories = d.balance_histories := hS.2.1.trans hF.2.1
          have hH := createBalanceHistory_script d2
            { UserID := u, AmountCents := wrap64 (b.AmountCents - a) }
          have hA := auditLog_script "balance" (toString u) "debit"
            ("-" ++ toString a ++ " -> " ++ toString (wrap64 (b.AmountCents - a)))
            (d2.CreateBalanceHistory { UserID := u, AmountCents := wrap64 (b.AmountCents - a) }).2
          have hfail := next_fst_after_two hF.1 hS.1
          simp only [ne_eq, not_true_eq_false, false_implies, true_implies, and_true]
          rw [hA.1]
          constructor
          · intro h2
            rw [h2] at hfail
            have hn : d2.next.1 = none := by
              cases hx : d2.next.1 <;> simp [hx] at hfail ⊢
            rw [hH.2.1 hn, hhist, hnow, hb.2.1]
            rfl
          · intro h2
            rw [h2] at hfail
            have hn : d2.next.1 ≠ none := by
              cases hx : d2.next.1 <;> simp [hx] at hfail ⊢
            rw [hH.2.2 hn, hhist]

theorem working_failsAt (d : DB) (h : d.Working) (n : Nat) : d.failsAt n = false := by
  unfold DB.failsAt
  cases hx : d.outcomes[n]? with
  | none => rfl
  | some o =>
    have hm : o ∈ d.outcomes := List.getElem?_mem hx
    rw [h o hm]; rfl

/-- With working storage `Credit` succeeds for every positive amount and leaves
the storage working. -/
theorem credit_working (u : Nat) (a : Int) (d : DB) (hw : d.Working) (ha : 0 < a) :
    (Credit u a d).1 = none ∧ (Credit u a d).2.Working := by
  unfold Credit
  have ha1 : ¬ a ≤ 0 := by omega
  simp only [ha1, if_false]
  have hF := firstOrCreate_script d u
  rcases hf : d.FirstOrCreateBalance u with ⟨r, d1⟩
  rw [hf] at hF
  simp only at hF
  obtain ⟨b, hb⟩ := hF.2.2 (working_next d hw).1
  subst hb
  have hw1 : d1.Working := working_of_tail hw hF.1
  simp only
  have hS := saveBalance_script d1
    { b with AmountCents := wrap64 (b.AmountCents + a), LastUpdated := d1.now }
  rcases hs : d1.SaveBalance
    { b with AmountCents := wrap64 (b.AmountCents + a), LastUpdated := d1.now } with ⟨e, d2⟩
  rw [hs] at hS
  simp only at hS
  have he := hS.2.2 (working_next d1 hw1).1
  subst he
  have hw2 : d2.Working := working_of_tail hw1 hS.1
  simp only [true_and]
  exact (auditLog_script _ _ _ _ _).2
    (working_of_tail hw2 (createBalanceHistory_script d2 _).1)

/-- With working storage `Debit` succeeds for every positive amount covered by
the balance and leaves the storage working; an amount above the balance is
rejected as insufficient funds, without a history entry. -/
theorem debit_working (u : Nat) (a : Int) (d : DB) (hw : d.Working) (ha : 0 < a) :
    (Debit u a d).2.Working ∧
    (a ≤ d.balanceOf u → (Debit u a d).1 = none) ∧
    (d.balanceOf u < a → (Debit u a d).1 = some .ErrInsufficientFunds) := by
  unfold Debit
  have ha1 : ¬ a ≤ 0 := by omega
  simp only [ha1, if_false]
  have hF := firstOrCreate_script d u
  rcases hf : d.FirstOrCreateBalance u with ⟨r, d1⟩
  rw [hf] at hF
  simp only at hF
  obtain ⟨b, hb⟩ := hF.2.2 (working_next d hw).1
  subst hb
  have hbal := (firstOrCreate_ok hf).2.1
  have hw1 : d1.Working := working_of_tail hw hF.1
  simp only
  by_cases hlt : b.AmountCents < a
  · simp only [hlt, if_true]
    refine ⟨hw1, fun h => ?_, fun _ => trivial⟩
    omega
  · simp only [hlt, if_false]
    have hS := saveBalance_script d1
      { b with AmountCents := wrap64 (b.AmountCents - a), LastUpdated := d1.now }
    rcases hs : d1.SaveBalance
      { b with AmountCents := wrap64 (b.AmountCents - a), LastUpdated := d1.now } with ⟨e, d2⟩
    rw [hs] at hS
    simp only at hS
    have he := hS.2.2 (working_next d1 hw1).1
    subst he
    have hw2 : d2.Working := working_of_tail hw1 hS.1
    simp only
    refine ⟨?_, fun _ => trivial, fun h => ?_⟩
    · exact (auditLog_script _ _ _ _ _).2
        (working_of_tail hw2 (createBalanceHistory_script d2 _).1)
    · omega

/-! ## Theorems: rejected calls -/

/-- C13: for every amount `<= 0` and all user identifiers, `Credit`, `Debit`,
`ApplyCredit`, `ApplyDebit` and `ApplyTransfer` each return an error and leave
the whole store, so every balance, every history snapshot and every
transaction record, unchanged. -/
theorem invalid_amount_rejected_without_effect (u f t : Nat) (a : Int) (d : DB) (ha : a ≤ 0) :
    ((Credit u a d).1 ≠ none ∧ (Credit u a d).2 = d) ∧
    ((Debit u a d).1 ≠ none ∧ (Debit u a d).2 = d) ∧
    ((ApplyCredit u a d).1.2 ≠ none ∧ (ApplyCredit u a d).2 = d) ∧
    ((ApplyDebit u a d).1.2 ≠ none ∧ (ApplyDebit u a d).2 = d) ∧
    ((ApplyTransfer f t a d).1.2 ≠ none ∧ (ApplyTransfer f t a d).2 = d) := by
  unfold Credit Debit ApplyCredit ApplyDebit ApplyTransfer
  simp [ha]

theorem invalid_amount_rejected_without_effect_witness :
    (ApplyTransfer 1 2 (-400) creditOutage).1.2 =
      some (.errorf "transfer amount must be positive") ∧
    (ApplyTransfer 1 2 (-400) creditOutage).2 = creditOutage :=
  ⟨by decide,
   (invalid_amount_rejected_without_effect 1 1 2 (-400) creditOutage (by decide)).2.2.2.2.2⟩

/-- C14: for every account `x` and every amount, `ApplyTransfer x x` returns an
error and no transaction, and leaves the store, so every balance, unchanged. -/
theorem same_account_transfer_rejected (x : Nat) (a : Int) (d : DB) :
    (ApplyTransfer x x a d).1.2 ≠ none ∧ (ApplyTransfer x x a d).1.1 = none ∧
    (ApplyTransfer x x a d).2 = d ∧
    (∀ v, (ApplyTransfer x x a d).2.balanceOf v = d.balanceOf v) ∧
    (0 < a → (ApplyTransfer x x a d).1.2 = some (.errorf "cannot transfer to same user")) := by
  unfold ApplyTransfer
  by_cases ha : a ≤ 0
  · simp [ha]
  · simp [ha]

/-- C11: with working storage, for every user and every amount `a > 0` above
the stored balance, `ApplyDebit` returns `ErrInsufficientFunds`, leaves every
stored balance and the balance history unchanged, and returns a transaction of
type `debit` from that user with status `failed` and a non-empty failure
cause. -/
theorem insufficient_funds_on_debit (u : Nat) (a : Int) (d : DB) (hw : d.Working)
    (ha : 0 < a) (hlt : d.balanceOf u < a) :
    (ApplyDebit u a d).1.2 = some .ErrInsufficientFunds ∧
    (∀ v, (ApplyDebit u a d).2.balanceOf v = d.balanceOf v) ∧
    (ApplyDebit u a d).2.balance_histories = d.balance_histories ∧
    ∃ tx, (ApplyDebit u a d).1.1 = some tx ∧ tx.Type_ = TransactionTypeDebit ∧
      tx.FromUserID = some u ∧ tx.ToUserID = none ∧ tx.AmountCents = a ∧
      tx.Status = TransactionStatusFailed ∧ tx.FailureCause = "yetersiz bakiye" ∧
      tx.FailureCause ≠ "" := by
  unfold ApplyDebit
  have ha1 : ¬ a ≤ 0 := by omega
  simp only [ha1, if_false]
  have hI := createTransaction_none_iff d
    { FromUserID := some u, AmountCents := a, Type_ := TransactionTypeDebit,
      Status := TransactionStatusPending }
  have hC := createTransaction_script d
    { FromUserID := some u, AmountCents := a, Type_ := TransactionTypeDebit,
      Status := TransactionStatusPending }
  have hCf := createTransaction_frame d
    { FromUserID := some u, AmountCents := a, Type_ := TransactionTypeDebit,
      Status := TransactionStatusPending }
  rcases hc : d.CreateTransaction
    { FromUserID := some u, AmountCents := a, Type_ := TransactionTypeDebit,
      Status := TransactionStatusPending } with ⟨e, tx1, d1⟩
  rw [hc] at hI hC hCf
  simp only at hI hC hCf
  have he := hI.2 (working_next d hw).1
  subst he
  simp only [hc]
  have hw1 : d1.Working := working_of_tail hw hC.1
  have hlt1 : d1.balanceOf u < a := by rw [balanceOf_congr hCf.1 u]; exact hlt
  have hDw := (debit_working u a d1 hw1 ha).2.2 hlt1
  have hDs := (debit_spec u a d1).2.1 (by rw [hDw]; simp)
  have hDh := (debit_history u a d1).2 (by rw [hDw]; simp)
  rcases hd : Debit u a d1 with ⟨e2, d2⟩
  rw [hd] at hDw hDs hDh
  simp only at hDw hDs hDh
  subst hDw
  simp only [hd]
  have hS := saveFailed_frame tx1 .ErrInsufficientFunds d2
  have hSh := (saveTransaction_script d2
    { tx1 with Status := TransactionStatusFailed,
               FailureCause := Err.ErrInsufficientFunds.Error }).2.1
  refine ⟨trivial, fun v => ?_, ?_, _, rfl, ?_⟩
  · rw [balanceOf_congr hS.1 v, hDs v, balanceOf_congr hCf.1 v]
  · unfold saveFailed
    simp only
    rw [hSh, hDh, hC.2.1]
  · rw [hS.2]
    refine ⟨hC.2.2.2.2.2.1, hC.2.2.1, hC.2.2.2.1, hC.2.2.2.2.1, rfl, rfl, ?_⟩
    simp only [Err.Error]
    decide

theorem insufficient_funds_on_debit_witness :
    (ApplyDebit 1 1500 { balances := [{ UserID := 1, AmountCents := 1000 }] }).1.2 =
      some .ErrInsufficientFunds ∧
    (ApplyDebit 1 1500 { balances := [{ UserID := 1, AmountCents := 1000 }] }).2.balanceOf 1 =
      1000 :=
  ⟨(insufficient_funds_on_debit 1 1500 { balances := [{ UserID := 1, AmountCents := 1000 }] }
      (by decide) (by decide) (by decide)).1,
   by decide⟩

/-! ## Theorems: successful credits -/

/-- With working storage `ApplyCredit` succeeds for every positive amount: the
stored balance becomes the wrapped sum, which is the exact sum whenever that
fits `int64`, and the returned record is a completed credit to the user. -/
theorem applyCredit_working (u : Nat) (a : Int) (d : DB) (hw : d.Working) (ha : 0 < a) :
    (ApplyCredit u a d).1.2 = none ∧
    (ApplyCredit u a d).2.balanceOf u = wrap64 (d.balanceOf u + a) ∧
    (InInt64 (d.balanceOf u + a) → (ApplyCredit u a d).2.balanceOf u = d.balanceOf u + a) ∧
    ∃ tx, (ApplyCredit u a d).1.1 = some tx ∧ tx.Type_ = TransactionTypeCredit ∧
      tx.ToUserID = some u ∧ tx.FromUserID = none ∧ tx.AmountCents = a ∧
      tx.Status = TransactionStatusCompleted := by
  have key : (ApplyCredit u a d).1.2 = none ∧
      (ApplyCredit u a d).2.balanceOf u = wrap64 (d.balanceOf u + a) ∧
      ∃ tx, (ApplyCredit u a d).1.1 = some tx ∧ tx.Type_ = TransactionTypeCredit ∧
        tx.ToUserID = some u ∧ tx.FromUserID = none ∧ tx.AmountCents = a ∧
        tx.Status = TransactionStatusCompleted := by
    unfold ApplyCredit
    have ha1 : ¬ a ≤ 0 := by omega
    simp only [ha1, if_false]
    have hI := createTransaction_none_iff d
      { ToUserID := some u, AmountCents := a, Type_ := TransactionTypeCredit,
        Status := TransactionStatusPending }
    have hC := createTransaction_script d
      { ToUserID := some u, AmountCents := a, Type_ := TransactionTypeCredit,
        Status := TransactionStatusPending }
    have hCf := createTransaction_frame d
      { ToUserID := some u, AmountCents := a, Type_ := TransactionTypeCredit,
        Status := TransactionStatusPending }
    rcases hc : d.CreateTransaction
      { ToUserID := some u, AmountCents := a, Type_ := TransactionTypeCredit,
        Status := TransactionStatusPending } with ⟨e, tx1, d1⟩
    rw [hc] at hI hC hCf
    simp only at hI hC hCf
    have he := hI.2 (working_next d hw).1
    subst he
    simp only [hc]
    have hw1 : d1.Working := working_of_tail hw hC.1
    have hKw := credit_working u a d1 hw1 ha
    have hKs := (credit_spec u a d1).1 hKw.1
    rcases hk : Credit u a d1 with ⟨e2, d2⟩
    rw [hk] at hKw hKs
    simp only at hKw hKs
    have he2 := hKw.1
    subst he2
    simp only [hk]
    have hS := saveTransaction_script d2 { tx1 with Status := TransactionStatusCompleted }
    have hSf := saveTransaction_frame d2 { tx1 with Status := TransactionStatusCompleted }
    rcases hs : d2.SaveTransaction { tx1 with Status := TransactionStatusCompleted }
      with ⟨e3, tx3, d3⟩
    rw [hs] at hS hSf
    simp only at hS hSf
    have he3 := hS.2.2 (working_next d2 hKw.2).1
    subst he3
    simp only [hs]
    have hA := auditLog_frame "transaction" (toString tx3.ID) "credit"
      ("to=" ++ toString u ++ " amount=" ++ toString a) d3
    refine ⟨trivial, ?_, tx3, rfl, ?_⟩
    · rw [balanceOf_congr hA.1 u, balanceOf_congr hSf.1 u, hKs.2 u, if_pos rfl,
        balanceOf_congr hCf.1 u]
    · rw [hSf.2.2]
      exact ⟨hC.2.2.2.2.2.1, hC.2.2.2.1, hC.2.2.1, hC.2.2.2.2.1, rfl⟩
  refine ⟨key.1, key.2.1, fun hfit => ?_, key.2.2⟩
  rw [key.2.1, wrap64_of_inInt64 _ hfit]

/-- C12 (failing input): with working storage and account 1 at the largest
`int64`, reached by a credit from the empty store, `ApplyCredit 1 1` returns no
error and a completed credit record, while the stored balance becomes the
smallest `int64` instead of the previous value plus 1. -/
theorem successful_credit_can_wrap :
    DB.Working (ApplyCredit 1 maxInt64 {}).2 ∧
    (ApplyCredit 1 maxInt64 {}).2.balanceOf 1 = 9223372036854775807 ∧
    (ApplyCredit 1 1 (ApplyCredit 1 maxInt64 {}).2).1.2 = none ∧
    (ApplyCredit 1 1 (ApplyCredit 1 maxInt64 {}).2).1.1 =
      some { ID := 2, ToUserID := some 1, AmountCents := 1, Type_ := "credit",
             Status := "completed" } ∧
    (ApplyCredit 1 1 (ApplyCredit 1 maxInt64 {}).2).2.balanceOf 1 = -9223372036854775808 ∧
    (ApplyCredit 1 1 (ApplyCredit 1 maxInt64 {}).2).2.balanceOf 1 ≠
      (ApplyCredit 1 maxInt64 {}).2.balanceOf 1 + 1 := by
  decide

/-! ## Theorems: credits and debits of one account in any order -/

theorem credits_debits_any_order (u : Nat) (a : Int) (ha : 0 < a) (ops : List Op) :
    ∀ (d : DB), d.Working →
      (∀ op ∈ ops, op = Op.Credit u a ∨ op = Op.Debit u a) →
      (ops.count (Op.Debit u a) : Int) * a ≤ d.balanceOf u →
      d.balanceOf u + (ops.count (Op.Credit u a) : Int) * a ≤ maxInt64 →
      (∀ e ∈ runOpsErrs ops d, e = none) ∧
      (runOps ops d).balanceOf u =
        d.balanceOf u + ((ops.count (Op.Credit u a) : Int) - ops.count (Op.Debit u a)) * a := by
  induction ops with
  | nil =>
    intro d _ _ _ _
    simp [runOpsErrs, runOps]
  | cons op ops ih =>
    intro d hw hops hM hN
    have hne : Op.Credit u a ≠ Op.Debit u a := by intro h; cases h
    have hne2 : Op.Debit u a ≠ Op.Credit u a := by intro h; cases h
    have htail : ∀ op1 ∈ ops, op1 = Op.Credit u a ∨ op1 = Op.Debit u a :=
      fun op1 h1 => hops op1 (List.mem_cons_of_mem _ h1)
    have hn0 : (0 : Int) ≤ (ops.count (Op.Credit u a) : Int) * a :=
      mul_nonneg (Int.ofNat_nonneg _) (le_of_lt ha)
    have hm0 : (0 : Int) ≤ (ops.count (Op.Debit u a) : Int) * a :=
      mul_nonneg (Int.ofNat_nonneg _) (le_of_lt ha)
    rcases hops op (List.mem_cons_self _ _) with hop | hop
    · subst hop
      rw [List.count_cons_of_ne hne2] at hM
      rw [List.count_cons_self] at hN
      have hN1 : ((ops.count (Op.Credit u a) + 1 : Nat) : Int) * a =
          (ops.count (Op.Credit u a) : Int) * a + a := by push_cast; ring
      rw [hN1] at hN
      have hw1 := credit_working u a d hw ha
      have hs1 := ((credit_spec u a d).1 hw1.1).2 u
      rw [if_pos rfl] at hs1
      have hwrap : wrap64 (d.balanceOf u + a) = d.balanceOf u + a := by
        apply wrap64_of_inInt64
        unfold InInt64 minInt64
        unfold maxInt64 at hN ⊢
        constructor <;> omega
      rw [hwrap] at hs1
      have hrec := ih (Credit u a d).2 hw1.2 htail (by rw [hs1]; omega) (by rw [hs1]; omega)
      refine ⟨?_, ?_⟩
      · intro e he
        simp only [runOpsErrs, Op.err, Op.run, List.mem_cons] at he
        rcases he with he | he
        · rw [he]; exact hw1.1
        · exact hrec.1 e he
      · simp only [runOps, Op.run]
        rw [hrec.2, hs1, List.count_cons_self, List.count_cons_of_ne hne2]
        push_cast; ring
    · subst hop
      rw [List.count_cons_self] at hM
      rw [List.count_cons_of_ne hne] at hN
      have hM1 : ((ops.count (Op.Debit u a) + 1 : Nat) : Int) * a =
          (ops.count (Op.Debit u a) : Int) * a + a := by push_cast; ring
      rw [hM1] at hM
      have hw1 := debit_working u a d hw ha
      have hok := hw1.2.1 (by omega)
      have hs1 := ((debit_spec u a d).1 hok).2.2 u
      rw [if_pos rfl] at hs1
      have hwrap : wrap64 (d.balanceOf u - a) = d.balanceOf u - a := by
        apply wrap64_of_inInt64
        unfold InInt64 minInt64
        unfold maxInt64 at hN ⊢
        constructor <;> omega
      rw [hwrap] at hs1
      have hrec := ih (Debit u a d).2 hw1.1 htail (by rw [hs1]; omega) (by rw [hs1]; omega)
      refine ⟨?_, ?_⟩
      · intro e he
        simp only [runOpsErrs, Op.err, Op.run, List.mem_cons] at he
        rcases he with he | he
        · rw [he]; exact hok
        · exact hrec.1 e he
      · simp only [runOps, Op.run]
        rw [hrec.2, hs1, List.count_cons_self, List.count_cons_of_ne hne]
        push_cast; ring

/-- C15 fails as stated: a `Credit` whose storage call fails returns an error
and leaves the balance where it was; and a `Credit` on an account at the
largest `int64` succeeds but leaves the smallest `int64` instead of the initial
balance plus the amount. -/
theorem credits_can_fail_or_wrap :
    runOpsErrs [.Credit 1 100]
        { balances := [{ UserID := 1, AmountCents := 1000 }],
          outcomes := [some "connection lost"] } =
      [some (.wrapf "failed to get/create balance" (.storage "connection lost"))] ∧
    (runOps [.Credit 1 100]
        { balances := [{ UserID := 1, AmountCents := 1000 }],
          outcomes := [some "connection lost"] }).balanceOf 1 = 1000 ∧
    runOpsErrs [.Credit 1 1] { balances := [{ UserID := 1, AmountCents := maxInt64 }] } =
      [none] ∧
    (runOps [.Credit 1 1]
        { balances := [{ UserID := 1, AmountCents := maxInt64 }] }).balanceOf 1 =
      -9223372036854775808 := by
  decide

/-- C15 (amended): with working storage, for every initial balance, amount
`a > 0` and every sequence made of `N` calls `Credit user a` and `M` calls
`Debit user a` in any order, if the initial balance is at least `M * a` and the
initial balance plus `N * a` fits `int64`, then every call succeeds and the
final balance is the initial balance plus `(N - M) * a`. -/
theorem order_independence_of_credits_and_debits (u : Nat) (a : Int) (ops : List Op) (d : DB)
    (hw : d.Working) (ha : 0 < a)
    (hops : ∀ op ∈ ops, op = Op.Credit u a ∨ op = Op.Debit u a)
    (hM : (ops.count (Op.Debit u a) : Int) * a ≤ d.balanceOf u)
    (hN : d.balanceOf u + (ops.count (Op.Credit u a) : Int) * a ≤ maxInt64) :
    (∀ e ∈ runOpsErrs ops d, e = none) ∧
    (runOps ops d).balanceOf u =
      d.balanceOf u + ((ops.count (Op.Credit u a) : Int) - ops.count (Op.Debit u a)) * a :=
  credits_debits_any_order u a ha ops d hw hops hM hN

theorem order_independence_of_credits_and_debits_witness :
    (runOps [.Debit 1 100, .Credit 1 100, .Debit 1 100, .Credit 1 100, .Credit 1 100]
        { balances := [{ UserID := 1, AmountCents := 200 }] }).balanceOf 1 =
      200 + ((3 : Int) - 2) * 100 ∧
    (runOps [.Credit 1 100, .Credit 1 100, .Credit 1 100, .Debit 1 100, .Debit 1 100]
        { balances := [{ UserID := 1, AmountCents := 200 }] }).balanceOf 1 = 300 :=
  ⟨(order_independence_of_credits_and_debits 1 100
      [.Debit 1 100, .Credit 1 100, .Debit 1 100, .Credit 1 100, .Credit 1 100]
      { balances := [{ UserID := 1, AmountCents := 200 }] }
      (by decide) (by decide) (by decide) (by decide) (by decide)).2,
   by decide⟩

/-! ## Theorems: the balance history -/

theorem failsAt_zero (d : DB) : d.next.1.isSome = d.failsAt 0 := by
  rw [next_fst]
  unfold DB.failsAt
  cases d.outcomes <;> simp

theorem next_fst_after_one {d d1 : DB} (h1 : d1.outcomes = d.outcomes.tail) :
    d1.next.1.isSome = d.failsAt 1 := by
  rw [next_fst, h1]
  unfold DB.failsAt
  cases d.outcomes with
  | nil => rfl
  | cons a l => cases l <;> simp

theorem firstOrCreate_ok_iff (d : DB) (u : Nat) :
    (∃ b, (d.FirstOrCreateBalance u).1 = .ok b) ↔ d.next.1 = none := by
  unfold DB.FirstOrCreateBalance
  rcases hn : d.next with ⟨o, d1⟩
  cases o with
  | some msg => simp
  | none =>
    simp only [iff_true]
    split
    · exact ⟨_, rfl⟩
    · exact ⟨_, rfl⟩

theorem saveBalance_ok_iff (d : DB) (b : Balance) :
    (d.SaveBalance b).1 = none ↔ d.next.1 = none := by
  unfold DB.SaveBalance
  rcases hn : d.next with ⟨o, d1⟩
  cases o <;> simp

/-- When `Credit` returns no error: exactly when the amount is positive and the
first two storage calls, the get-or-create and the save of the balance,
succeed.  The outcome of the insert of the snapshot plays no part. -/
theorem credit_returns_nil_iff (u : Nat) (a : Int) (d : DB) :
    (Credit u a d).1 = none ↔ 0 < a ∧ d.failsAt 0 = false ∧ d.failsAt 1 = false := by
  unfold Credit
  by_cases ha : a ≤ 0
  · have hn : ¬ 0 < a := by omega
    simp [ha, hn]
  · have hpos : 0 < a := by omega
    simp only [ha, if_false, hpos, true_and]
    have hF := firstOrCreate_script d u
    have hFi := firstOrCreate_ok_iff d u
    have h0 := failsAt_zero d
    rcases hf : d.FirstOrCreateBalance u with ⟨r, d1⟩
    rw [hf] at hF hFi
    simp only at hF hFi
    cases r with
    | error e =>
      have h0t : d.failsAt 0 = true := by
        rw [← h0]
        cases hx : d.next.1 with
        | none => obtain ⟨b, hb⟩ := hFi.2 hx; cases hb
        | some m => rfl
      simp [h0t]
    | ok b =>
      have hn : d.next.1 = none := hFi.1 ⟨b, rfl⟩
      have h0f : d.failsAt 0 = false := by rw [← h0, hn]; rfl
      simp only [h0f, true_and]
      have hSi := saveBalance_ok_iff d1
        { b with AmountCents := wrap64 (b.AmountCents + a), LastUpdated := d1.now }
      have h1 := @next_fst_after_one d d1 hF.1
      rcases hs : d1.SaveBalance
        { b with AmountCents := wrap64 (b.AmountCents + a), LastUpdated := d1.now } with ⟨e, d2⟩
      rw [hs] at hSi
      simp only at hSi
      cases e with
      | some e =>
        have h1t : d.failsAt 1 = true := by
          rw [← h1]
          cases hx : d1.next.1 with
          | none => have := hSi.2 hx; cases this
          | some m => rfl
        simp [h1t]
      | none =>
        have h1f : d.failsAt 1 = false := by rw [← h1, hSi.1 rfl]; rfl
        simp [h1f]

/-- When `Debit` returns no error: exactly when the amount is positive, the
get-or-create succeeds, the balance covers the amount and the save of the
balance succeeds.  The outcome of the insert of the snapshot plays no part. -/
theorem debit_returns_nil_iff (u : Nat) (a : Int) (d : DB) :
    (Debit u a d).1 = none ↔
      0 < a ∧ d.failsAt 0 = false ∧ a ≤ d.balanceOf u ∧ d.failsAt 1 = false := by
  unfold Debit
  by_cases ha : a ≤ 0
  · have hn : ¬ 0 < a := by omega
    simp [ha, hn]
  · have hpos : 0 < a := by omega
    simp only [ha, if_false, hpos, true_and]
    have hF := firstOrCreate_script d u
    have hFi := firstOrCreate_ok_iff d u
    have h0 := failsAt_zero d
    rcases hf : d.FirstOrCreateBalance u with ⟨r, d1⟩
    rw [hf] at hF hFi
    simp only at hF hFi
    cases r with
    | error e =>
      have h0t : d.failsAt 0 = true := by
        rw [← h0]
        cases hx : d.next.1 with
        | none => obtain ⟨b, hb⟩ := hFi.2 hx; cases hb
        | some m => rfl
      simp [h0t]
    | ok b =>
      have hb := (firstOrCreate_ok hf).2.1
      have hn : d.next.1 = none := hFi.1 ⟨b, rfl⟩
      have h0f : d.failsAt 0 = false := by rw [← h0, hn]; rfl
      simp only [h0f, true_and]
      by_cases hlt : b.AmountCents < a
      · have hnle : ¬ a ≤ d.balanceOf u := by rw [← hb]; omega
        simp [hlt, hnle]
      · have hle : a ≤ d.balanceOf u := by rw [← hb]; omega
        simp only [hlt, if_false, hle, true_and]
        have hSi := saveBalance_ok_iff d1
          { b with AmountCents := wrap64 (b.AmountCents - a), LastUpdated := d1.now }
        have h1 := @next_fst_after_one d d1 hF.1
        rcases hs : d1.SaveBalance
          { b with AmountCents := wrap64 (b.AmountCents - a), LastUpdated := d1.now }
          with ⟨e, d2⟩
        rw [hs] at hSi
        simp only at hSi
        cases e with
        | some e =>
          have h1t : d.failsAt 1 = true := by
            rw [← h1]
            cases hx : d1.next.1 with
            | none => have := hSi.2 hx; cases this
            | some m => rfl
          simp [h1t]
        | none =>
          have h1f : d.failsAt 1 = false := by rw [← h1, hSi.1 rfl]; rfl
          simp [h1f]

/-- C16 fails when the insert of the snapshot fails: `Credit` and `Debit` still
return no error and change the balance, and nothing is appended to the
history. -/
theorem history_insert_failure_is_swallowed :
    (Credit 1 100 { outcomes := [none, none, some "connection lost"] }).1 = none ∧
    (Credit 1 100 { outcomes := [none, none, some "connection lost"] }).2.balanceOf 1 = 100 ∧
    (Credit 1 100 { outcomes := [none, none, some "connection lost"] }).2.balance_histories
      = [] ∧
    (Debit 1 100 { balances := [{ UserID := 1, AmountCents := 1000 }],
                   outcomes := [none, none, some "connection lost"] }).1 = none ∧
    (Debit 1 100 { balances := [{ UserID := 1, AmountCents := 1000 }],
                   outcomes := [none, none, some "connection lost"] }).2.balanceOf 1 = 900 ∧
    (Debit 1 100 { balances := [{ UserID := 1, AmountCents := 1000 }],
                   outcomes := [none, none, some "connection lost"] }).2.balance_histories
      = [] := by
  decide

/-- C16 (amended): `Credit` returns without error exactly when the amount is
positive and its first two storage calls (the get-or-create and the save of the
balance) succeed, and `Debit` exactly when in addition the balance covers the
amount; the insert of the snapshot, the third storage call of the operation,
plays no part in the result.  So when that insert fails the call still returns
no error, the stored balance is the new balance (the `int64` sum or difference,
which differs from the balance before whenever the balance before and the
amount are `int64` values) and the history is unchanged.  And
whenever `Credit` or `Debit` returns without error and the insert succeeds, the
history afterwards is the history before followed by exactly one snapshot
carrying the user and the new balance. -/
theorem history_written_unless_insert_fails (u : Nat) (a : Int) (d : DB) :
    ((Credit u a d).1 = none ↔ 0 < a ∧ d.failsAt 0 = false ∧ d.failsAt 1 = false) ∧
    ((Debit u a d).1 = none ↔
      0 < a ∧ d.failsAt 0 = false ∧ a ≤ d.balanceOf u ∧ d.failsAt 1 = false) ∧
    (0 < a → d.failsAt 0 = false → d.failsAt 1 = false → d.failsAt 2 = true →
      (Credit u a d).1 = none ∧
      (Credit u a d).2.balanceOf u = wrap64 (d.balanceOf u + a) ∧
      (InInt64 (d.balanceOf u) → a ≤ maxInt64 →
        (Credit u a d).2.balanceOf u ≠ d.balanceOf u) ∧
      (Credit u a d).2.balance_histories = d.balance_histories) ∧
    (0 < a → d.failsAt 0 = false → a ≤ d.balanceOf u → d.failsAt 1 = false →
      d.failsAt 2 = true →
      (Debit u a d).1 = none ∧
      (Debit u a d).2.balanceOf u = wrap64 (d.balanceOf u - a) ∧
      (InInt64 (d.balanceOf u) → (Debit u a d).2.balanceOf u ≠ d.balanceOf u) ∧
      (Debit u a d).2.balance_histories = d.balance_histories) ∧
    ((Credit u a d).1 = none →
      (d.failsAt 2 = false → (Credit u a d).2.balance_histories =
        d.balance_histories ++ [historySnapshot d u ((Credit u a d).2.balanceOf u)]) ∧
      (d.failsAt 2 = true → (Credit u a d).2.balance_histories = d.balance_histories)) ∧
    ((Debit u a d).1 = none →
      (d.failsAt 2 = false → (Debit u a d).2.balance_histories =
        d.balance_histories ++ [historySnapshot d u ((Debit u a d).2.balanceOf u)]) ∧
      (d.failsAt 2 = true → (Debit u a d).2.balance_histories = d.balance_histories)) := by
  refine ⟨credit_returns_nil_iff u a d, debit_returns_nil_iff u a d, ?_, ?_, ?_, ?_⟩
  · intro hpos h0 h1 h2
    have hnil := (credit_returns_nil_iff u a d).2 ⟨hpos, h0, h1⟩
    have hb := ((credit_spec u a d).1 hnil).2 u
    rw [if_pos rfl] at hb
    refine ⟨hnil, hb, ?_, ((credit_history u a d).1 hnil).2 h2⟩
    intro hin hmax
    rw [hb]
    unfold InInt64 minInt64 maxInt64 at hin
    unfold maxInt64 at hmax
    unfold wrap64
    omega
  · intro hpos h0 hle h1 h2
    have hnil := (debit_returns_nil_iff u a d).2 ⟨hpos, h0, hle, h1⟩
    have hb := ((debit_spec u a d).1 hnil).2.2 u
    rw [if_pos rfl] at hb
    refine ⟨hnil, hb, ?_, ((debit_history u a d).1 hnil).2 h2⟩
    intro hin
    rw [hb]
    unfold InInt64 minInt64 maxInt64 at hin
    unfold wrap64
    omega
  · intro h
    have hb := ((credit_spec u a d).1 h).2 u
    rw [if_pos rfl] at hb
    rw [hb]
    exact (credit_history u a d).1 h
  · intro h
    have hb := ((debit_spec u a d).1 h).2.2 u
    rw [if_pos rfl] at hb
    rw [hb]
    exact (debit_history u a d).1 h

theorem history_written_unless_insert_fails_witness :
    (Credit 1 5000 {}).2.balance_histories =
      [{ ID := 1, UserID := 1, AmountCents := 5000, CreatedAt := 0 }] ∧
    (Debit 1 100 { balances := [{ UserID := 1, AmountCents := 1000 }],
                   outcomes := [none, none, some "timeout"] }).1 = none :=
  ⟨((history_written_unless_insert_fails 1 5000 {}).2.2.2.2.1 (by decide)).1 (by decide),
   ((history_written_unless_insert_fails 1 100
      { balances := [{ UserID := 1, AmountCents := 1000 }],
        outcomes := [none, none, some "timeout"] }).2.2.2.1
      (by decide) (by decide) (by decide) (by decide) (by decide)).1⟩

/-! ## Theorems: `ThreadSafeBalance.TransferAmount` -/

/-- What `TransferAmount` does on two distinct objects: a non-positive amount
or an amount above the amount of the receiver is rejected and both objects are
unchanged; otherwise the call succeeds, the receiver holds exactly `amount`
less, and the target holds the wrapped sum, which is exactly `amount` more
(and the sum of the two is kept) whenever it fits `int64`. -/
theorem transferAmount_spec (b target : ThreadSafeBalance) (amount : Int) (now : Nat)
    (hb : InInt64 b.AmountCents) :
    ((amount ≤ 0 ∨ b.AmountCents < amount) →
      (b.TransferAmount target amount now).1 ≠ none ∧
      (b.TransferAmount target amount now).2.1 = b ∧
      (b.TransferAmount target amount now).2.2 = target) ∧
    (¬ (amount ≤ 0 ∨ b.AmountCents < amount) →
      (b.TransferAmount target amount now).1 = none ∧
      (b.TransferAmount target amount now).2.1.AmountCents = b.AmountCents - amount ∧
      (b.TransferAmount target amount now).2.2.AmountCents =
        wrap64 (target.AmountCents + amount) ∧
      (InInt64 (target.AmountCents + amount) →
        (b.TransferAmount target amount now).2.2.AmountCents = target.AmountCents + amount ∧
        (b.TransferAmount target amount now).2.1.AmountCents +
          (b.TransferAmount target amount now).2.2.AmountCents =
          b.AmountCents + target.AmountCents)) := by
  unfold ThreadSafeBalance.TransferAmount
  by_cases h1 : amount ≤ 0
  · simp [h1]
  · by_cases h2 : b.AmountCents < amount
    · simp [h1, h2]
    · have hw : wrap64 (b.AmountCents - amount) = b.AmountCents - amount := by
        apply wrap64_of_inInt64
        unfold InInt64 minInt64 maxInt64 at *
        omega
      simp only [h1, h2, if_false, or_self, false_implies, not_false_eq_true, true_implies,
        true_and, hw]
      intro hfit
      rw [wrap64_of_inInt64 _ hfit]
      exact ⟨rfl, by omega⟩

/-- C17 (failing input): with the receiver at 1 and the target at the largest
`int64`, `TransferAmount` of 1 returns no error and takes 1 from the receiver,
while the target drops to the smallest `int64` instead of rising by 1 and the
sum of the two amounts changes. -/
theorem transferAmount_can_wrap :
    (ThreadSafeBalance.TransferAmount { UserID := 1, AmountCents := 1 }
      (ThreadSafeBalance.SetAmount { UserID := 2 } maxInt64 3) 1 5).1 = none ∧
    (ThreadSafeBalance.TransferAmount { UserID := 1, AmountCents := 1 }
      (ThreadSafeBalance.SetAmount { UserID := 2 } maxInt64 3) 1 5).2.1.AmountCents = 0 ∧
    (ThreadSafeBalance.TransferAmount { UserID := 1, AmountCents := 1 }
      (ThreadSafeBalance.SetAmount { UserID := 2 } maxInt64 3) 1 5).2.2.AmountCents =
      -9223372036854775808 ∧
    (ThreadSafeBalance.TransferAmount { UserID := 1, AmountCents := 1 }
      (ThreadSafeBalance.SetAmount { UserID := 2 } maxInt64 3) 1 5).2.2.AmountCents ≠
      maxInt64 + 1 ∧
    (ThreadSafeBalance.AddAmount (ThreadSafeBalance.SetAmount { UserID := 2 } maxInt64 3) 1 5).1 =
      some (.errorf "insufficient balance: cannot go below 0") := by
  decide

/-! ## Theorems: the event bus -/

theorem publish_eq_loop {σ : Type} (eb : InMemoryEventBus σ) (event : Event) (s : σ) :
    eb.Publish event s = publishLoop event ((eb.handlers event.Type_).getD []) 0 s := by
  unfold InMemoryEventBus.Publish
  cases eb.handlers event.Type_ <;> simp [publishLoop]

theorem subscribe_handlers {σ : Type} (eb : InMemoryEventBus σ) (t : String)
    (h : Option (EventHandler σ)) (t1 : String) :
    ((eb.Subscribe t h).2.handlers t1).getD [] =
      (eb.handlers t1).getD [] ++ registered [(t, h)] t1 := by
  unfold InMemoryEventBus.Subscribe registered
  by_cases ht : t = ""
  · simp [ht]
  · cases h with
    | none => simp [ht]
    | some f =>
      by_cases h1 : t1 = t
      · subst h1
        cases hx : eb.handlers t1 <;> simp [ht, hx]
      · have h2 : ¬ t = t1 := fun e => h1 e.symm
        simp [ht, h1, h2]

theorem registered_cons {σ : Type} (p : String × Option (EventHandler σ))
    (subs : List (String × Option (EventHandler σ))) (t : String) :
    registered (p :: subs) t = registered [p] t ++ registered subs t := by
  unfold registered
  simp only [List.filterMap_cons, List.filterMap_nil]
  split <;> simp

theorem subscribeAll_handlers {σ : Type} (subs : List (String × Option (EventHandler σ))) :
    ∀ (eb : InMemoryEventBus σ) (t : String),
      ((subscribeAll eb subs).handlers t).getD [] =
        (eb.handlers t).getD [] ++ registered subs t := by
  induction subs with
  | nil => intro eb t; simp [subscribeAll, registered]
  | cons p subs ih =>
    intro eb t
    have h1 : subscribeAll eb (p :: subs) = subscribeAll (eb.Subscribe p.1 p.2).2 subs := rfl
    rw [h1, ih, subscribe_handlers, registered_cons p subs t, List.append_assoc]

theorem stateBefore_zero {σ : Type} (event : Event) (hs : List (EventHandler σ)) (s : σ) :
    stateBefore event hs s 0 = s := by
  simp [stateBefore]

theorem stateBefore_succ {σ : Type} (event : Event) (h : EventHandler σ)
    (hs : List (EventHandler σ)) (s : σ) (j : Nat) :
    stateBefore event (h :: hs) s (j + 1) = stateBefore event hs (h event s).2 j := by
  simp [stateBefore]

theorem publishLoop_all_succeed {σ : Type} (event : Event) (hs : List (EventHandler σ)) :
    ∀ (i : Nat) (s : σ),
      (∀ (j : Nat) (h : EventHandler σ), hs[j]? = some h →
        (h event (stateBefore event hs s j)).1 = none) →
      publishLoop event hs i s =
        (none, List.range' i hs.length, stateBefore event hs s hs.length) := by
  induction hs with
  | nil => intro i s _; simp [publishLoop, stateBefore]
  | cons h hs ih =>
    intro i s hall
    have h0 := hall 0 h (by simp)
    rw [stateBefore_zero] at h0
    have hrec := ih (i + 1) (h event s).2 (fun j g hg => by
      have := hall (j + 1) g (by simpa using hg)
      rwa [stateBefore_succ] at this)
    rcases hr : h event s with ⟨e, s1⟩
    rw [hr] at h0 hrec
    simp only at h0 hrec
    subst h0
    simp only [publishLoop, hr, hrec, List.length_cons, stateBefore_succ]
    simp [List.range'_succ]

theorem publishLoop_first_failure {σ : Type} (event : Event) (hs : List (EventHandler σ)) :
    ∀ (i : Nat) (s : σ) (k : Nat) (hk : EventHandler σ) (err : Err),
      hs[k]? = some hk →
      (∀ (j : Nat) (h : EventHandler σ), j < k → hs[j]? = some h →
        (h event (stateBefore event hs s j)).1 = none) →
      (hk event (stateBefore event hs s k)).1 = some err →
      publishLoop event hs i s =
        (some (.wrapf ("handler failed for event " ++ event.Type_) err),
          List.range' i (k + 1), stateBefore event hs s (k + 1)) := by
  induction hs with
  | nil => intro i s k hk err hget; simp at hget
  | cons h hs ih =>
    intro i s k hk err hget hbefore hfail
    cases k with
    | zero =>
      simp only [List.getElem?_cons_zero, Option.some.injEq] at hget
      subst hget
      rw [stateBefore_zero] at hfail
      rcases hr : h event s with ⟨e, s1⟩
      rw [hr] at hfail
      simp only at hfail
      subst hfail
      simp only [publishLoop, hr]
      simp [stateBefore, hr]
    | succ k =>
      simp only [List.getElem?_cons_succ] at hget
      have h0 := hbefore 0 h (Nat.succ_pos k) (by simp)
      rw [stateBefore_zero] at h0
      rw [stateBefore_succ] at hfail
      have hrec := ih (i + 1) (h event s).2 k hk err hget (fun j g hj hg => by
        have := hbefore (j + 1) g (Nat.succ_lt_succ hj) (by simpa using hg)
        rwa [stateBefore_succ] at this) hfail
      rcases hr : h event s with ⟨e, s1⟩
      rw [hr] at h0 hrec
      simp only at h0 hrec
      subst h0
      simp only [publishLoop, hr, hrec, stateBefore_succ]
      simp [List.range'_succ]

theorem publish_subscribed {σ : Type} (subs : List (String × Option (EventHandler σ)))
    (event : Event) (s : σ) :
    (subscribeAll (NewInMemoryEventBus σ) subs).Publish event s =
      publishLoop event (registered subs event.Type_) 0 s := by
  rw [publish_eq_loop, subscribeAll_handlers]
  simp [NewInMemoryEventBus]

/-- C18: on a bus built by any sequence of `Subscribe` calls, let `h1..hn` be the
handlers registered for the type of the event, in registration order.  If
`hk` is the first of them to return an error, `Publish` calls exactly
`h1..hk`, in that order, each in the state left by the one before, and returns
the error of `hk` wrapped; if none fails it calls all `n` once each, in order,
and returns nil.  Handlers registered for other types play no part: two
sequences that register the same handlers for the type give the same result. -/
theorem publish_dispatches_in_order_until_first_error {σ : Type}
    (subs : List (String × Option (EventHandler σ))) (event : Event) (s : σ) :
    (∀ (k : Nat) (hk : EventHandler σ) (err : Err),
      (registered subs event.Type_)[k]? = some hk →
      (∀ (j : Nat) (h : EventHandler σ), j < k → (registered subs event.Type_)[j]? = some h →
        (h event (stateBefore event (registered subs event.Type_) s j)).1 = none) →
      (hk event (stateBefore event (registered subs event.Type_) s k)).1 = some err →
      (subscribeAll (NewInMemoryEventBus σ) subs).Publish event s =
        (some (.wrapf ("handler failed for event " ++ event.Type_) err),
          List.range (k + 1),
          stateBefore event (registered subs event.Type_) s (k + 1))) ∧
    ((∀ (j : Nat) (h : EventHandler σ), (registered subs event.Type_)[j]? = some h →
        (h event (stateBefore event (registered subs event.Type_) s j)).1 = none) →
      (subscribeAll (NewInMemoryEventBus σ) subs).Publish event s =
        (none, List.range (registered subs event.Type_).length,
          stateBefore event (registered subs event.Type_) s
            (registered subs event.Type_).length)) ∧
    (∀ (subs2 : List (String × Option (EventHandler σ))),
      registered subs2 event.Type_ = registered subs event.Type_ →
      (subscribeAll (NewInMemoryEventBus σ) subs2).Publish event s =
        (subscribeAll (NewInMemoryEventBus σ) subs).Publish event s) := by
  refine ⟨?_, ?_, ?_⟩
  · intro k hk err hget hbefore hfail
    rw [publish_subscribed, List.range_eq_range']
    exact publishLoop_first_failure event _ 0 s k hk err hget hbefore hfail
  · intro hall
    rw [publish_subscribed, List.range_eq_range']
    exact publishLoop_all_succeed event _ 0 s hall
  · intro subs2 h2
    rw [publish_subscribed, publish_subscribed, h2]

theorem publish_dispatches_in_order_until_first_error_witness :
    (subscribeAll (NewInMemoryEventBus (List String))
        [("t", some (logHandler "h1" none)), ("u", some (logHandler "other" none)),
         ("t", some (logHandler "h2" (some (.errorf "boom")))),
         ("t", some (logHandler "h3" none))]).Publish { Type_ := "t" } [] =
      (some (.wrapf "handler failed for event t" (.errorf "boom")), [0, 1], ["h1", "h2"]) :=
  (publish_dispatches_in_order_until_first_error
      [("t", some (logHandler "h1" none)), ("u", some (logHandler "other" none)),
       ("t", some (logHandler "h2" (some (.errorf "boom")))),
       ("t", some (logHandler "h3" none))] { Type_ := "t" } []).1 1
    (logHandler "h2" (some (.errorf "boom"))) (.errorf "boom") rfl
    (fun j h hj hg => by
      have hj0 : j = 0 := by omega
      subst hj0
      have hh : logHandler "h1" none = h := by
        have hg1 : some (logHandler "h1" none) = some h := hg
        exact Option.some.inj hg1
      subst hh
      rfl)
    rfl

theorem unsubscribeLoop_none {σ : Type} (hs : List (EventHandler σ)) :
    ∀ (i : Nat), unsubscribeLoop hs i = none := by
  induction hs with
  | nil => intro i; rfl
  | cons h hs ih =>
    intro i
    unfold unsubscribeLoop
    rw [if_neg (by decide)]
    exact ih (i + 1)

/-- `Unsubscribe` never removes anything: the addresses it compares belong to
two different variables, so the bus is returned as it was. -/
theorem unsubscribe_is_noop {σ : Type} (eb : InMemoryEventBus σ) (t : String)
    (h : Option (EventHandler σ)) : eb.Unsubscribe t h = (none, eb) := by
  unfold InMemoryEventBus.Unsubscribe
  cases eb.handlers t with
  | none => rfl
  | some hs => simp [unsubscribeLoop_none]

/-- C19 (failing input): after `Subscribe("t", h)` and `Unsubscribe("t", h)` on
a new bus, both returning nil, `Publish` of an event of type `t` still calls
`h`. -/
theorem unsubscribe_leaves_handler_registered :
    ((NewInMemoryEventBus (List String)).Subscribe "t" (some (logHandler "h" none))).1 = none ∧
    ((((NewInMemoryEventBus (List String)).Subscribe "t" (some (logHandler "h" none))).2
        ).Unsubscribe "t" (some (logHandler "h" none))).1 = none ∧
    ((((NewInMemoryEventBus (List String)).Subscribe "t" (some (logHandler "h" none))).2
        ).Unsubscribe "t" (some (logHandler "h" none))).2.Publish { Type_ := "t" } [] =
      (none, [0], ["h"]) := by
  decide

/-! ## Theorems: the scheduler -/

/-- C20: `ScheduleTransaction` returns an error and leaves the scheduler, so
the identifier-to-trigger mapping, unchanged whenever the identifier is empty,
the schedule expression is empty, the amount is `<= 0` or the cron parser
rejects the expression; otherwise it returns nil and the mapping afterwards
contains the identifier, bound to the entry just added to the cron registry. -/
theorem scheduleTransaction_validates {σ : Type} (parse : String → Option Err)
    (s : Scheduler σ) (st : ScheduledTransaction) :
    ((st.ID = "" ∨ st.Schedule = "" ∨ st.Amount.leZero = true ∨ parse st.Schedule ≠ none) →
      (s.ScheduleTransaction parse st).1 ≠ none ∧
      (s.ScheduleTransaction parse st).2.entries = s.entries ∧
      (s.ScheduleTransaction parse st).2.cron = s.cron) ∧
    (¬ (st.ID = "" ∨ st.Schedule = "" ∨ st.Amount.leZero = true ∨ parse st.Schedule ≠ none) →
      (s.ScheduleTransaction parse st).1 = none ∧
      (s.ScheduleTransaction parse st).2.entries st.ID = some (s.cron.nextID + 1) ∧
      (∀ id, id ≠ st.ID → (s.ScheduleTransaction parse st).2.entries id = s.entries id) ∧
      (s.ScheduleTransaction parse st).2.cron.entries =
        s.cron.entries ++ [{ ID := s.cron.nextID + 1, Spec := st.Schedule, Job := st }]) := by
  unfold Scheduler.ScheduleTransaction Cron.AddFunc
  by_cases h1 : st.ID = ""
  · simp [h1]
  · by_cases h2 : st.Schedule = ""
    · simp [h1, h2]
    · by_cases h3 : st.Amount.leZero = true
      · simp [h1, h2, h3]
      · cases h4 : parse st.Schedule with
        | some e => simp [h1, h2, h3, h4]
        | none =>
          have h3f : st.Amount.leZero = false := by simpa using h3
          simp only [h1, h2, h3f, h4, if_false, ne_eq, not_true_eq_false, or_self,
            false_implies, not_false_eq_true, true_implies, true_and, if_true,
            Bool.false_eq_true]
          refine ⟨fun id hid => ?_, trivial⟩
          simp [hid]

theorem scheduleTransaction_validates_witness :
    (Scheduler.ScheduleTransaction sixFieldParser ({} : Scheduler Unit)
        { ID := "rent", Amount := .finite 0, Schedule := "0 0 9 1 * *" }).1 =
      some (.errorf "amount must be positive") ∧
    (Scheduler.ScheduleTransaction sixFieldParser ({} : Scheduler Unit)
        { ID := "rent", Amount := .finite 250, Schedule := "0 0 9 1 * *" }).1 = none ∧
    (Scheduler.ScheduleTransaction sixFieldParser ({} : Scheduler Unit)
        { ID := "rent", Amount := .finite 250, Schedule := "0 0 9 1 * *" }).2.entries "rent" =
      some 1 :=
  ⟨by decide, by decide,
   ((scheduleTransaction_validates sixFieldParser ({} : Scheduler Unit)
      { ID := "rent", Amount := .finite 250, Schedule := "0 0 9 1 * *" }).2 (by decide)).2.1⟩

/-- What `UnscheduleTransaction` removes: when the identifier is mapped, the
call returns nil, the mapping loses the identifier and the cron entry it was
mapped to leaves the registry; every other cron entry stays. -/
theorem unschedule_removes_mapped_trigger {σ : Type} (s : Scheduler σ) (id : String)
    (entryID : Nat) (h : s.entries id = some entryID) :
    (s.UnscheduleTransaction id).1 = none ∧
    (s.UnscheduleTransaction id).2.entries id = none ∧
    (∀ e ∈ (s.UnscheduleTransaction id).2.cron.entries, e.ID ≠ entryID) ∧
    (∀ e ∈ s.cron.entries, e.ID ≠ entryID → e ∈ (s.UnscheduleTransaction id).2.cron.entries) := by
  unfold Scheduler.UnscheduleTransaction Cron.Remove
  rw [h]
  simp only [if_true, true_and]
  refine ⟨?_, ?_⟩
  · intro e he
    simpa using (List.mem_filter.1 he).2
  · intro e he hne
    exact List.mem_filter.2 ⟨he, by simpa using hne⟩

/-- C21 (failing input): after registering the identifier `rent` twice and
unregistering it once, every call returning nil, the mapping no longer holds
`rent`, but the cron entry of the first registration is still in the registry
and still fires the transaction `rent`. -/
theorem unschedule_leaves_earlier_trigger :
    (Scheduler.ScheduleTransaction sixFieldParser ({} : Scheduler Unit)
      { ID := "rent", Amount := .finite 250, Schedule := "0 0 9 1 * *" }).1 = none ∧
    (Scheduler.ScheduleTransaction sixFieldParser
      (Scheduler.ScheduleTransaction sixFieldParser ({} : Scheduler Unit)
        { ID := "rent", Amount := .finite 250, Schedule := "0 0 9 1 * *" }).2
      { ID := "rent", Amount := .finite 250, Schedule := "0 0 10 1 * *" }).1 = none ∧
    (Scheduler.UnscheduleTransaction
      (runSchedulerCalls sixFieldParser
        [.inl { ID := "rent", Amount := .finite 250, Schedule := "0 0 9 1 * *" },
         .inl { ID := "rent", Amount := .finite 250, Schedule := "0 0 10 1 * *" }]
        ({} : Scheduler Unit)) "rent").1 = none ∧
    (runSchedulerCalls sixFieldParser
      [.inl { ID := "rent", Amount := .finite 250, Schedule := "0 0 9 1 * *" },
       .inl { ID := "rent", Amount := .finite 250, Schedule := "0 0 10 1 * *" },
       .inr "rent"] ({} : Scheduler Unit)).entries "rent" = none ∧
    (runSchedulerCalls sixFieldParser
      [.inl { ID := "rent", Amount := .finite 250, Schedule := "0 0 9 1 * *" },
       .inl { ID := "rent", Amount := .finite 250, Schedule := "0 0 10 1 * *" },
       .inr "rent"] ({} : Scheduler Unit)).cron.entries =
      [{ ID := 1, Spec := "0 0 9 1 * *",
         Job := { ID := "rent", Amount := .finite 250, Schedule := "0 0 9 1 * *" } }] := by
  decide

/-- `UpdateSchedule` never returns nil: an identifier that is not registered is
reported as not found, and for a registered one the record it re-registers
carries the zero amount, which `ScheduleTransaction` rejects; the identifier
is then no longer registered. -/
theorem updateSchedule_always_fails {σ : Type} (parse : String → Option Err)
    (s : Scheduler σ) (id newSchedule : String) :
    (s.UpdateSchedule parse id newSchedule).1 ≠ none ∧
    (s.UpdateSchedule parse id newSchedule).2.entries id = none := by
  unfold Scheduler.UpdateSchedule Scheduler.UnscheduleTransaction
  cases h : s.entries id with
  | none => simp [h]
  | some entryID =>
    simp only
    unfold Scheduler.ScheduleTransaction
    by_cases h1 : id = ""
    · simp [h1]
    · by_cases h2 : newSchedule = ""
      · simp [h1, h2]
      · have h3 : F64.leZero (.finite 0) = true := by decide
        simp [h1, h2, h3]

/-- C22 (failing input): with `rent` registered, `UpdateSchedule("rent", s)` for
a schedule the parser accepts returns the error of the amount check, and
afterwards `rent` is not registered and no cron entry is left. -/
theorem updateSchedule_loses_the_schedule :
    (runSchedulerCalls sixFieldParser
      [.inl { ID := "rent", Amount := .finite 250, Schedule := "0 0 9 1 * *" }]
      ({} : Scheduler Unit)).entries "rent" = some 1 ∧
    sixFieldParser "0 0 10 1 * *" = none ∧
    (Scheduler.UpdateSchedule sixFieldParser
      (runSchedulerCalls sixFieldParser
        [.inl { ID := "rent", Amount := .finite 250, Schedule := "0 0 9 1 * *" }]
        ({} : Scheduler Unit)) "rent" "0 0 10 1 * *").1 =
      some (.errorf "amount must be positive") ∧
    (Scheduler.UpdateSchedule sixFieldParser
      (runSchedulerCalls sixFieldParser
        [.inl { ID := "rent", Amount := .finite 250, Schedule := "0 0 9 1 * *" }]
        ({} : Scheduler Unit)) "rent" "0 0 10 1 * *").2.entries "rent" = none ∧
    (Scheduler.UpdateSchedule sixFieldParser
      (runSchedulerCalls sixFieldParser
        [.inl { ID := "rent", Amount := .finite 250, Schedule := "0 0 9 1 * *" }]
        ({} : Scheduler Unit)) "rent" "0 0 10 1 * *").2.cron.entries = [] := by
  decide

/-- C23: a fire of a scheduled transaction hands exactly one event to `Publish`,
of type `transaction.scheduled`, with the identifier of the record as aggregate
and the sender, the receiver, the amount and the type of the record as data.
The state of the program after the fire is the state that this one `Publish`
leaves (unchanged when no handler is subscribed), so the fire changes no
balance and no transaction record by itself; and the status of the record
becomes `completed` when `Publish` returns no error and is left as it was
otherwise. -/
theorem schedule_fire_only_publishes {σ : Type} (s : Scheduler σ) (st : ScheduledTransaction)
    (generatedID : String) (now : Nat) (w : σ) :
    (scheduledEvent st generatedID now).Type_ = "transaction.scheduled" ∧
    (scheduledEvent st generatedID now).AggregateID = st.ID ∧
    (scheduledEvent st generatedID now).dataAt "from_user_id" = some (.str st.FromUserID) ∧
    (scheduledEvent st generatedID now).dataAt "to_user_id" = some (.str st.ToUserID) ∧
    (scheduledEvent st generatedID now).dataAt "amount" = some (.num st.Amount) ∧
    (scheduledEvent st generatedID now).dataAt "type" = some (.str st.Type_) ∧
    (s.executeScheduledTransaction st generatedID now w).2.1 =
      (s.eventBus.Publish (scheduledEvent st generatedID now) w).1 ∧
    (s.executeScheduledTransaction st generatedID now w).2.2 =
      (s.eventBus.Publish (scheduledEvent st generatedID now) w).2.2 ∧
    (s.eventBus.handlers "transaction.scheduled" = none →
      (s.executeScheduledTransaction st generatedID now w).2.2 = w) ∧
    ((s.eventBus.Publish (scheduledEvent st generatedID now) w).1 = none →
      (s.executeScheduledTransaction st generatedID now w).1 =
        { st with Status := "completed" }) ∧
    ((s.eventBus.Publish (scheduledEvent st generatedID now) w).1 ≠ none →
      (s.executeScheduledTransaction st generatedID now w).1 = st) := by
  have hev : NewEvent "transaction.scheduled" st.ID
      [("from_user_id", .str st.FromUserID), ("to_user_id", .str st.ToUserID),
       ("amount", .num st.Amount), ("type", .str st.Type_), ("metadata", .fields st.Metadata)]
      generatedID now = scheduledEvent st generatedID now := rfl
  refine ⟨rfl, rfl, ?_, ?_, ?_, ?_, ?_, ?_, ?_, ?_, ?_⟩
  · simp [Event.dataAt, scheduledEvent]
  · simp [Event.dataAt, scheduledEvent]
  · simp [Event.dataAt, scheduledEvent]
  · simp [Event.dataAt, scheduledEvent]
  · unfold Scheduler.executeScheduledTransaction
    rw [hev]
    rcases hp : s.eventBus.Publish (scheduledEvent st generatedID now) w with ⟨e, tr, w1⟩
    cases e <;> simp [hp]
  · unfold Scheduler.executeScheduledTransaction
    rw [hev]
    rcases hp : s.eventBus.Publish (scheduledEvent st generatedID now) w with ⟨e, tr, w1⟩
    cases e <;> simp [hp]
  · intro hnone
    unfold Scheduler.executeScheduledTransaction
    rw [hev]
    have hp : s.eventBus.Publish (scheduledEvent st generatedID now) w = (none, [], w) := by
      unfold InMemoryEventBus.Publish
      have ht : (scheduledEvent st generatedID now).Type_ = "transaction.scheduled" := rfl
      rw [ht, hnone]
    simp [hp]
  · intro hok
    unfold Scheduler.executeScheduledTransaction
    rw [hev]
    rcases hp : s.eventBus.Publish (scheduledEvent st generatedID now) w with ⟨e, tr, w1⟩
    rw [hp] at hok
    simp only at hok
    subst hok
    simp [hp]
  · intro hfail
    unfold Scheduler.executeScheduledTransaction
    rw [hev]
    rcases hp : s.eventBus.Publish (scheduledEvent st generatedID now) w with ⟨e, tr, w1⟩
    rw [hp] at hfail
    cases e with
    | none => exact absurd rfl hfail
    | some err => simp [hp]

theorem schedule_fire_only_publishes_witness :
    (Scheduler.executeScheduledTransaction
      { eventBus := ((NewInMemoryEventBus (List Event)).Subscribe "transaction.scheduled"
          (some recordingHandler)).2 }
      { ID := "rent", FromUserID := "1", ToUserID := "2", Amount := .finite 250,
        Type_ := "transfer", Schedule := "0 0 9 1 * *", Status := "pending" }
      "20261104090000-abcdefgh" 7 []).2.2 =
      [scheduledEvent
        { ID := "rent", FromUserID := "1", ToUserID := "2", Amount := .finite 250,
          Type_ := "transfer", Schedule := "0 0 9 1 * *", Status := "pending" }
        "20261104090000-abcdefgh" 7] :=
  ((schedule_fire_only_publishes
      { eventBus := ((NewInMemoryEventBus (List Event)).Subscribe "transaction.scheduled"
          (some recordingHandler)).2 }
      { ID := "rent", FromUserID := "1", ToUserID := "2", Amount := .finite 250,
        Type_ := "transfer", Schedule := "0 0 9 1 * *", Status := "pending" }
      "20261104090000-abcdefgh" 7 []).2.2.2.2.2.2.2.1).trans (by decide)

/-! ## Theorems: `Validate` on transfers -/

/-- C29: on a transaction of type `transfer`, `Validate` returns no error iff
the amount is positive and both user identifiers are present and distinct. -/
theorem validate_transfer_iff (t : Transaction) (h : t.Type_ = TransactionTypeTransfer) :
    t.Validate = none ↔
      (0 < t.AmountCents ∧
        ∃ fromID toID, t.FromUserID = some fromID ∧ t.ToUserID = some toID ∧ fromID ≠ toID) := by
  have hc : ¬ t.Type_ = TransactionTypeCredit := by rw [h]; decide
  have hd : ¬ t.Type_ = TransactionTypeDebit := by rw [h]; decide
  unfold Transaction.Validate
  by_cases ha : t.AmountCents ≤ 0
  · simp [ha]
  · have hpos : 0 < t.AmountCents := by omega
    simp only [ha, if_false, h, if_true, hc, hd, or_self, hpos, true_and]
    cases hf : t.FromUserID with
    | none => simp
    | some f =>
      cases ht : t.ToUserID with
      | none => simp
      | some g =>
        by_cases hfg : f = g
        · simp [hfg]
        · simp only [hfg, if_false, ne_eq, not_false_eq_true, Option.some.injEq, exists_and_left,
            exists_eq_left', true_iff]
          simp
          decide

theorem validate_transfer_iff_witness :
    Transaction.Validate { FromUserID := some 1, ToUserID := some 2, AmountCents := 400,
                           Type_ := "transfer", Status := "pending" } = none ∧
    Transaction.Validate { FromUserID := some 1, ToUserID := some 1, AmountCents := 400,
                           Type_ := "transfer", Status := "pending" } ≠ none :=
  ⟨(validate_transfer_iff { FromUserID := some 1, ToUserID := some 2, AmountCents := 400,
                            Type_ := "transfer", Status := "pending" } rfl).2
      ⟨by decide, 1, 2, rfl, rfl, by decide⟩,
   by decide⟩

/-! ## Theorems: the final save of `ApplyCredit` -/

theorem credit_transactions (u : Nat) (a : Int) (d : DB) :
    (Credit u a d).2.transactions = d.transactions := by
  unfold Credit
  by_cases ha : a ≤ 0
  · simp [ha]
  · simp only [ha, if_false]
    rcases hf : d.FirstOrCreateBalance u with ⟨r, d1⟩
    cases r with
    | error e => exact (firstOrCreate_error hf).2.2
    | ok b =>
      have hb := (firstOrCreate_ok hf).2.2.2.2
      simp only
      rcases hs : d1.SaveBalance
        { b with AmountCents := wrap64 (b.AmountCents + a), LastUpdated := d1.now } with ⟨e, d2⟩
      cases e with
      | some e => exact ((saveBalance_error hs).2.2).trans hb
      | none =>
        simp only
        rw [(auditLog_frame _ _ _ _ _).2.2, (createBalanceHistory_frame d2 _).2.2,
          (saveBalance_ok hs).2.2, hb]

theorem createTransaction_row (d : DB) (tx : Transaction)
    (h : (d.CreateTransaction tx).1 = none) :
    (d.CreateTransaction tx).2.2.transactions =
      d.transactions ++ [(d.CreateTransaction tx).2.1] := by
  have h1 := next_transactions d
  unfold DB.CreateTransaction at h ⊢
  rcases hn : d.next with ⟨o, d1⟩
  rw [hn] at h h1
  cases o with
  | some msg => simp at h
  | none => simp only at h1 ⊢; rw [h1]

theorem saveTransaction_failed (d : DB) (tx : Transaction)
    (h : (d.SaveTransaction tx).1 ≠ none) :
    (d.SaveTransaction tx).2.2.transactions = d.transactions := by
  have h1 := next_transactions d
  unfold DB.SaveTransaction at h ⊢
  rcases hn : d.next with ⟨o, d1⟩
  rw [hn] at h h1
  cases o with
  | some msg => exact h1
  | none => simp at h

/-- C30: when the pending record is created, `balance.Credit` succeeds inside
`ApplyCredit` and the final save of the record fails, `ApplyCredit` returns a
non-nil error together with a transaction whose status is `completed`; the
stored balance keeps the sum the credit saved (the int64 sum, which is the
previous balance plus the amount whenever that fits `int64`, and which always
differs from the previous balance); and the stored transaction table ends with
the record as created, still `pending`.  So a non-nil error from `ApplyCredit`
does not imply that the balance is unchanged. -/
theorem nonatomic_finalisation (u : Nat) (a : Int) (d : DB)
    (hcreate : (d.CreateTransaction (creditRecord u a)).1 = none)
    (hcredit : (Credit u a (creditAfterCreate u a d)).1 = none)
    (hsave : ((creditAfterCredit u a d).SaveTransaction
      { (d.CreateTransaction (creditRecord u a)).2.1 with
          Status := TransactionStatusCompleted }).1 ≠ none) :
    (ApplyCredit u a d).1.2 ≠ none ∧
    (∃ tx, (ApplyCredit u a d).1.1 = some tx ∧ tx.Status = TransactionStatusCompleted ∧
      tx.ID = (d.CreateTransaction (creditRecord u a)).2.1.ID) ∧
    (ApplyCredit u a d).2.balanceOf u = wrap64 (d.balanceOf u + a) ∧
    (InInt64 (d.balanceOf u + a) → (ApplyCredit u a d).2.balanceOf u = d.balanceOf u + a) ∧
    (InInt64 (d.balanceOf u) → a ≤ maxInt64 →
      (ApplyCredit u a d).2.balanceOf u ≠ d.balanceOf u) ∧
    (ApplyCredit u a d).2.transactions =
      d.transactions ++ [(d.CreateTransaction (creditRecord u a)).2.1] ∧
    (d.CreateTransaction (creditRecord u a)).2.1.Status = TransactionStatusPending := by
  have hK := (credit_spec u a (creditAfterCreate u a d)).1 hcredit
  have hpos : ¬ a ≤ 0 := by have := hK.1; omega
  have hbal : (creditAfterCreate u a d).balanceOf u = d.balanceOf u :=
    balanceOf_congr (createTransaction_frame d _).1 u
  have hres : ApplyCredit u a d =
      ((some ((creditAfterCredit u a d).SaveTransaction
          { (d.CreateTransaction (creditRecord u a)).2.1 with
              Status := TransactionStatusCompleted }).2.1,
        some (.wrapf "failed to update transaction"
          (((creditAfterCredit u a d).SaveTransaction
            { (d.CreateTransaction (creditRecord u a)).2.1 with
                Status := TransactionStatusCompleted }).1.getD (.errorf "")))),
       ((creditAfterCredit u a d).SaveTransaction
          { (d.CreateTransaction (creditRecord u a)).2.1 with
              Status := TransactionStatusCompleted }).2.2) := by
    unfold ApplyCredit
    rw [if_neg hpos]
    unfold creditAfterCredit creditAfterCreate creditRecord at *
    rcases hc : d.CreateTransaction
      { ToUserID := some u, AmountCents := a, Type_ := TransactionTypeCredit,
        Status := TransactionStatusPending } with ⟨e, tx1, d1⟩
    rw [hc] at hcreate hcredit hsave
    simp only at hcreate hcredit hsave
    subst hcreate
    simp only [hc]
    rcases hk : Credit u a d1 with ⟨e2, d2⟩
    rw [hk] at hcredit hsave
    simp only at hcredit hsave
    subst hcredit
    simp only [hk]
    rcases hs : d2.SaveTransaction { tx1 with Status := TransactionStatusCompleted }
      with ⟨e3, tx3, d3⟩
    rw [hs] at hsave
    cases e3 with
    | none => exact absurd rfl hsave
    | some e3 => simp [hs]
  have hSf := saveTransaction_frame (creditAfterCredit u a d)
    { (d.CreateTransaction (creditRecord u a)).2.1 with Status := TransactionStatusCompleted }
  have hbalance : (ApplyCredit u a d).2.balanceOf u = wrap64 (d.balanceOf u + a) := by
    rw [hres]
    simp only
    rw [balanceOf_congr hSf.1 u]
    unfold creditAfterCredit
    rw [hK.2 u, if_pos rfl, hbal]
  refine ⟨?_, ?_, hbalance, ?_, ?_, ?_, ?_⟩
  · rw [hres]; simp
  · rw [hres]
    refine ⟨_, rfl, ?_, ?_⟩
    · rw [hSf.2.2]
    · rw [hSf.2.2]
  · intro hfit
    rw [hbalance, wrap64_of_inInt64 _ hfit]
  · intro hin hmax
    rw [hbalance]
    have hK1 := hK.1
    unfold InInt64 minInt64 maxInt64 at hin
    unfold maxInt64 at hmax
    unfold wrap64
    omega
  · rw [hres]
    simp only
    rw [saveTransaction_failed _ _ hsave]
    unfold creditAfterCredit
    rw [credit_transactions]
    unfold creditAfterCreate
    exact createTransaction_row d _ hcreate
  · exact (createTransaction_script d (creditRecord u a)).2.2.2.2.2.2

theorem nonatomic_finalisation_witness :
    (ApplyCredit 1 5000 finalSaveOutage).1.2 =
      some (.wrapf "failed to update transaction" (.storage "connection lost")) ∧
    (ApplyCredit 1 5000 finalSaveOutage).2.balanceOf 1 = 6000 ∧
    (ApplyCredit 1 5000 finalSaveOutage).2.transactions =
      [{ ID := 1, ToUserID := some 1, AmountCents := 5000, Type_ := "credit",
         Status := "pending" }] :=
  ⟨by decide,
   ((nonatomic_finalisation 1 5000 finalSaveOutage (by decide) (by decide) (by decide)).2.2.1
      ).trans (by decide),
   (nonatomic_finalisation 1 5000 finalSaveOutage (by decide) (by decide) (by decide)).2.2.2.2.2.1⟩

/-! ## Theorems: the worker pool -/

theorem processTransaction_stats (wp : WorkerPool) (job : TransactionJob) (now : Nat) :
    (wp.processTransaction job now).2.stats =
      { TotalTransactions := wrap64 (wp.stats.TotalTransactions + 1),
        SuccessfulTransactions := wrap64 (wp.stats.SuccessfulTransactions + 1),
        FailedTransactions := wp.stats.FailedTransactions,
        PendingTransactions := wrap64 (wrap64 (wp.stats.PendingTransactions + 1) + -1),
        TotalAmountCents := wrap64 (wp.stats.TotalAmountCents + job.Transaction.AmountCents),
        LastTransactionTime := now } ∧
    (wp.processTransaction job now).2.jobQueue = wp.jobQueue ∧
    (wp.processTransaction job now).2.chans = wp.chans ∧
    (wp.processTransaction job now).2.workers = wp.workers ∧
    (wp.processTransaction job now).1 =
      { ID := job.ID, Success := true, Error := "", ProcessedAt := now } := by
  refine ⟨rfl, rfl, rfl, rfl, rfl⟩

theorem processAll_stats (jobs : List (TransactionJob × Nat)) :
    ∀ (wp : WorkerPool),
      wp.stats.TotalTransactions = wp.stats.SuccessfulTransactions →
      wp.stats.FailedTransactions = 0 → wp.stats.PendingTransactions = 0 →
      (processAll jobs wp).stats.TotalTransactions =
        (processAll jobs wp).stats.SuccessfulTransactions ∧
      (processAll jobs wp).stats.FailedTransactions = 0 ∧
      (processAll jobs wp).stats.PendingTransactions = 0 := by
  induction jobs with
  | nil => intro wp h1 h2 h3; exact ⟨h1, h2, h3⟩
  | cons j jobs ih =>
    intro wp h1 h2 h3
    obtain ⟨job, now⟩ := j
    have hs := (processTransaction_stats wp job now).1
    apply ih (wp.processTransaction job now).2
    · rw [hs]; simp only; rw [h1]
    · rw [hs]; exact h2
    · rw [hs]; simp only; rw [h3]; decide

/-- C28 fails on an overflow: two processed jobs with the amounts
9223372036854775807 and 1 leave `TotalAmountCents` at the smallest `int64`
instead of raising it by 1; and from `TotalTransactions` at the largest `int64`
the count does not rise by 1 either. -/
theorem statistics_can_wrap :
    (processAll [({ Transaction := { AmountCents := maxInt64 } }, 1)]
      (NewWorkerPool 1)).stats.TotalAmountCents = 9223372036854775807 ∧
    (processAll [({ Transaction := { AmountCents := maxInt64 } }, 1),
                 ({ Transaction := { AmountCents := 1 } }, 2)]
      (NewWorkerPool 1)).stats.TotalAmountCents = -9223372036854775808 ∧
    (WorkerPool.processTransaction { stats := { TotalTransactions := maxInt64 } }
      { Transaction := { AmountCents := 1 } } 2).2.stats.TotalTransactions =
      -9223372036854775808 := by
  decide

/-- C28 (amended): on statistics of `int64` values `processTransaction` leaves
`PendingTransactions` at its prior value and `FailedTransactions` unchanged
(every job is counted as successful), raises `TotalTransactions` and
`SuccessfulTransactions` by exactly 1 unless the counter stands at the largest
`int64`, and raises `TotalAmountCents` by the amount of the job whenever the
sum fits `int64`; and from zeroed statistics, after any number of processed
jobs, `Total = Successful + Failed` and `Pending = 0`. -/
theorem per_job_statistics (wp : WorkerPool) (job : TransactionJob) (now : Nat)
    (hr : wp.stats.InRange) :
    (wp.stats.TotalTransactions < maxInt64 →
      (wp.processTransaction job now).2.stats.TotalTransactions =
        wp.stats.TotalTransactions + 1) ∧
    (wp.processTransaction job now).2.stats.PendingTransactions =
      wp.stats.PendingTransactions ∧
    (wp.stats.SuccessfulTransactions < maxInt64 →
      (wp.processTransaction job now).2.stats.SuccessfulTransactions =
        wp.stats.SuccessfulTransactions + 1) ∧
    (wp.processTransaction job now).2.stats.FailedTransactions =
      wp.stats.FailedTransactions ∧
    (InInt64 (wp.stats.TotalAmountCents + job.Transaction.AmountCents) →
      (wp.processTransaction job now).2.stats.TotalAmountCents =
        wp.stats.TotalAmountCents + job.Transaction.AmountCents) ∧
    (∀ (workers : Nat) (jobs : List (TransactionJob × Nat)),
      (processAll jobs (NewWorkerPool workers)).stats.TotalTransactions =
        (processAll jobs (NewWorkerPool workers)).stats.SuccessfulTransactions +
          (processAll jobs (NewWorkerPool workers)).stats.FailedTransactions ∧
      (processAll jobs (NewWorkerPool workers)).stats.PendingTransactions = 0) := by
  have hs := (processTransaction_stats wp job now).1
  obtain ⟨h1, h2, _, h4, _⟩ := hr
  unfold InInt64 minInt64 maxInt64 at h1 h2 h4
  refine ⟨?_, ?_, ?_, ?_, ?_, ?_⟩
  · intro hlt
    rw [hs]; simp only
    unfold maxInt64 at hlt
    unfold wrap64; omega
  · rw [hs]; simp only
    unfold wrap64; omega
  · intro hlt
    rw [hs]; simp only
    unfold maxInt64 at hlt
    unfold wrap64; omega
  · rw [hs]
  · intro hfit
    rw [hs]; simp only
    exact wrap64_of_inInt64 _ hfit
  · intro workers jobs
    have h := processAll_stats jobs (NewWorkerPool workers) rfl rfl rfl
    refine ⟨?_, h.2.2⟩
    rw [h.1, h.2.1]; simp

theorem per_job_statistics_witness :
    (WorkerPool.processTransaction (NewWorkerPool 2)
      { ID := "job_1", Transaction := { AmountCents := 400 } } 9).2.stats =
      { TotalTransactions := 1, SuccessfulTransactions := 1, FailedTransactions := 0,
        PendingTransactions := 0, TotalAmountCents := 400, LastTransactionTime := 9 } ∧
    (WorkerPool.processTransaction (NewWorkerPool 2)
      { ID := "job_1", Transaction := { AmountCents := 400 } } 9).2.stats.TotalTransactions =
      (NewWorkerPool 2).stats.TotalTransactions + 1 :=
  ⟨by decide,
   (per_job_statistics (NewWorkerPool 2)
      { ID := "job_1", Transaction := { AmountCents := 400 } } 9 (by decide)).1 (by decide)⟩

/-- C25: when `jobQueue` holds its full capacity of `10 * workers` jobs and the
context of the caller is not done, `SubmitTransaction` takes the `default`
branch at once: it returns the queue-full error and no result and leaves the
pool, so the contents of the queue, unchanged; and whatever the inputs, a
queue within its capacity stays within its capacity. -/
theorem queue_backpressure (wp : WorkerPool) (txn : Transaction) (generatedID : String)
    (pick : Bool) (hfull : wp.jobQueue.length = wp.capacity) :
    wp.SubmitTransaction txn generatedID false pick =
      (.queueFull (.errorf "worker pool queue is full"), wp) ∧
    (wp.SubmitTransaction txn generatedID false pick).2.jobQueue = wp.jobQueue ∧
    (∀ (wp1 : WorkerPool) (txn1 : Transaction) (id1 : String) (ctxDone pick1 : Bool),
      wp1.jobQueue.length ≤ wp1.capacity →
      (wp1.SubmitTransaction txn1 id1 ctxDone pick1).2.jobQueue.length ≤
        (wp1.SubmitTransaction txn1 id1 ctxDone pick1).2.capacity) := by
  have h1 : wp.SubmitTransaction txn generatedID false pick =
      (.queueFull (.errorf "worker pool queue is full"), wp) := by
    unfold WorkerPool.SubmitTransaction
    have hn : ¬ wp.jobQueue.length < wp.capacity := by omega
    simp [hn]
  refine ⟨h1, by rw [h1], ?_⟩
  intro wp1 txn1 id1 ctxDone pick1 hle
  unfold WorkerPool.SubmitTransaction
  by_cases hlt : wp1.jobQueue.length < wp1.capacity
  · by_cases hc : (!ctxDone || pick1) = true
    · simp only [hlt, decide_True, hc, Bool.and_self, if_true, List.length_append,
        List.length_singleton]
      unfold WorkerPool.capacity at hlt ⊢
      simp only
      omega
    · have hc2 : (!ctxDone || pick1) = false := by simpa using hc
      simp only [hlt, decide_True, hc2, Bool.and_false, Bool.false_eq_true, if_false]
      split <;> exact hle
  · simp only [hlt, decide_False, Bool.false_and, Bool.false_eq_true, if_false]
    split <;> exact hle

theorem queue_backpressure_witness :
    (runPool (List.replicate 10 (.submit {} "job" false true)) (NewWorkerPool 1)).jobQueue.length
      = 10 ∧
    (WorkerPool.SubmitTransaction
      (runPool (List.replicate 10 (.submit {} "job" false true)) (NewWorkerPool 1))
      { AmountCents := 400 } "job_11" false true).1 =
      .queueFull (.errorf "worker pool queue is full") :=
  ⟨by decide,
   congrArg Prod.fst (queue_backpressure
      (runPool (List.replicate 10 (.submit {} "job" false true)) (NewWorkerPool 1))
      { AmountCents := 400 } "job_11" true (by decide)).1⟩

theorem channelsReady_new (workers : Nat) : (NewWorkerPool workers).ChannelsReady := by
  unfold WorkerPool.ChannelsReady NewWorkerPool
  simp

theorem channelsReady_submit (wp : WorkerPool) (txn : Transaction) (generatedID : String)
    (ctxDone pick : Bool) (h : wp.ChannelsReady) :
    (wp.SubmitTransaction txn generatedID ctxDone pick).2.ChannelsReady := by
  unfold WorkerPool.SubmitTransaction
  simp only
  split
  · obtain ⟨h1, h2, h3⟩ := h
    have hlt : ∀ job ∈ wp.jobQueue, job.ResultChan < wp.chans.length := by
      intro job hj
      have := h1 job hj
      exact (List.getElem?_eq_some_iff.1 this).1
    refine ⟨?_, ?_, ?_⟩
    · intro job hj
      simp only [List.mem_append, List.mem_singleton] at hj
      rcases hj with hj | hj
      · rw [List.getElem?_append_left (hlt job hj)]
        exact h1 job hj
      · subst hj
        simp
    · simp only [List.map_append, List.map_cons, List.map_nil]
      rw [List.nodup_append]
      refine ⟨h2, by simp, ?_⟩
      intro a ha hb
      simp only [List.mem_singleton] at hb
      subst hb
      obtain ⟨job, hj, hjr⟩ := List.mem_map.1 ha
      have := hlt job hj
      omega
    · intro ch hch
      simp only [List.mem_append, List.mem_singleton] at hch
      rcases hch with hch | hch
      · exact h3 ch hch
      · subst hch; simp
  · split <;> exact h

theorem channelsReady_process (wp : WorkerPool) (job : TransactionJob) (now : Nat)
    (h : wp.ChannelsReady) : (wp.processTransaction job now).2.ChannelsReady := by
  have hp := processTransaction_stats wp job now
  unfold WorkerPool.ChannelsReady at h ⊢
  rw [hp.2.1, hp.2.2.1]
  exact h

theorem worker_sends (wp : WorkerPool) (now : Nat) (h : wp.ChannelsReady)
    (r : Bool × TransactionResult × WorkerPool) (hr : wp.worker now = some r) :
    r.1 = true ∧ r.2.2.ChannelsReady := by
  unfold WorkerPool.worker at hr
  obtain ⟨h1, h2, h3⟩ := h
  cases hq : wp.jobQueue with
  | nil => rw [hq] at hr; simp at hr
  | cons job rest =>
    rw [hq] at hr h1 h2
    have hp := processTransaction_stats { wp with jobQueue := rest } job now
    have hch : (WorkerPool.processTransaction { wp with jobQueue := rest } job now).2.chans[
        job.ResultChan]? = some [] := by
      rw [hp.2.2.1]
      exact h1 job (List.mem_cons_self _ _)
    simp only [hch, Option.some.injEq] at hr
    subst hr
    refine ⟨rfl, ?_, ?_, ?_⟩
    · intro j hj
      simp only at hj ⊢
      rw [hp.2.1] at hj
      simp only at hj
      have hne : job.ResultChan ≠ j.ResultChan := by
        intro heq
        simp only [List.map_cons, List.nodup_cons, List.mem_map, not_exists, not_and] at h2
        exact h2.1 j hj heq.symm
      rw [List.getElem?_set_ne hne, hp.2.2.1]
      exact h1 j (List.mem_cons_of_mem _ hj)
    · simp only
      rw [hp.2.1]
      simp only [List.map_cons, List.nodup_cons] at h2
      exact h2.2
    · intro ch hch
      simp only at hch
      rcases List.mem_or_eq_of_mem_set hch with hm | hm
      · rw [hp.2.2.1] at hm
        exact h3 ch hm
      · subst hm; simp

theorem channelsReady_await (wp : WorkerPool) (job : TransactionJob) (ctxDone pick : Bool)
    (h : wp.ChannelsReady) : (wp.awaitResult job ctxDone pick).2.ChannelsReady := by
  unfold WorkerPool.awaitResult
  split
  · rename_i result rest hget
    split
    · exact h
    · obtain ⟨h1, h2, h3⟩ := h
      have hmem : (result :: rest) ∈ wp.chans := List.getElem?_mem hget
      have hrest : rest = [] := by
        have := h3 _ hmem
        simp only [List.length_cons] at this
        exact List.length_eq_zero.1 (by omega)
      refine ⟨?_, h2, ?_⟩
      · intro j hj
        simp only
        have hj1 := h1 j hj
        have hne : job.ResultChan ≠ j.ResultChan := by
          intro heq
          rw [heq] at hget
          rw [hget] at hj1
          simp at hj1
        rw [List.getElem?_set_ne hne]
        exact hj1
      · intro ch hch
        simp only at hch
        rcases List.mem_or_eq_of_mem_set hch with hm | hm
        · exact h3 ch hm
        · subst hm; subst hrest; simp
  · split <;> exact h

theorem channelsReady_runPool (steps : List PoolStep) :
    ∀ (wp : WorkerPool), wp.ChannelsReady → (runPool steps wp).ChannelsReady := by
  induction steps with
  | nil => intro wp h; exact h
  | cons step steps ih =>
    intro wp h
    apply ih
    cases step with
    | submit txn generatedID ctxDone pick =>
      exact channelsReady_submit wp txn generatedID ctxDone pick h
    | work now =>
      simp only [PoolStep.run]
      cases hw : wp.worker now with
      | none => exact h
      | some r => exact (worker_sends wp now h r hw).2
    | await job ctxDone pick =>
      exact channelsReady_await wp job ctxDone pick h

/-- C27: in every state the pool reaches from `NewWorkerPool` by submissions,
turns of workers and callers waiting for or giving up on their results, a
worker that takes a job finds the result channel of the job empty, so its
non-blocking send goes through and the `default` branch is not taken; no
result channel ever holds more than one result, and the result channel of
every queued job is empty. -/
theorem result_delivery_never_blocks (workers : Nat) (steps : List PoolStep) (now : Nat)
    (r : Bool × TransactionResult × WorkerPool)
    (hr : (runPool steps (NewWorkerPool workers)).worker now = some r) :
    r.1 = true ∧
    (∀ ch ∈ (runPool steps (NewWorkerPool workers)).chans, ch.length ≤ 1) ∧
    (∀ job ∈ (runPool steps (NewWorkerPool workers)).jobQueue,
      (runPool steps (NewWorkerPool workers)).chans[job.ResultChan]? = some []) := by
  have hinv := channelsReady_runPool steps (NewWorkerPool workers) (channelsReady_new workers)
  exact ⟨(worker_sends _ now hinv r hr).1, hinv.2.2, hinv.1⟩

theorem result_delivery_never_blocks_witness :
    WorkerPool.worker (runPool cancelledSubmission (NewWorkerPool 1)) 5 =
      some deliveredAfterCancel ∧
    deliveredAfterCancel.1 = true :=
  ⟨by decide,
   (result_delivery_never_blocks 1 cancelledSubmission 5 deliveredAfterCancel (by decide)).1⟩

/-- C26 fails: for a debit of 1500 from an account holding 1000 the orchestrator
returns `ErrInsufficientFunds`, while the worker of the pool reports the job as
a success, counts it as successful and counts no failure. -/
theorem worker_pool_does_not_run_the_orchestrator :
    (ApplyDebit 1 1500 thousandStore).1.2 = some .ErrInsufficientFunds ∧
    (WorkerPool.processTransaction (NewWorkerPool 1) overdrawJob 5).1 =
      { ID := "job_1", Success := true, Error := "", ProcessedAt := 5 } ∧
    (WorkerPool.processTransaction (NewWorkerPool 1) overdrawJob 5).2.stats.FailedTransactions
      = 0 ∧
    (WorkerPool.processTransaction (NewWorkerPool 1)
      overdrawJob 5).2.stats.SuccessfulTransactions = 1 := by
  decide

/-- C26 (amended): a worker of the `WorkerPool` does not call the orchestrator:
`processTransaction` only updates the statistics and reports `Success = true`
with an empty error for every job, leaving the failed counter as it was.  The
orchestrator operation for the kind of a job is applied by the workers of the
`Processor`: the store after a job is the store the operation leaves, the job
is counted in `processedOK` when the operation returns no error and in
`processedNG` otherwise, and a job of an unknown kind changes nothing in the
store and is counted in `processedNG`. -/
theorem worker_pool_simulates_processor_executes (wp : WorkerPool) (job : TransactionJob)
    (now : Nat) (p : Processor) (j : Job) (d : DB) :
    ((wp.processTransaction job now).1.Success = true ∧
      (wp.processTransaction job now).1.Error = "" ∧
      (wp.processTransaction job now).2.stats.FailedTransactions =
        wp.stats.FailedTransactions) ∧
    (j.Kind = "credit" →
      (p.processJob j d).2 = (ApplyCredit j.Credit.UserID j.Credit.Amount d).2 ∧
      ((ApplyCredit j.Credit.UserID j.Credit.Amount d).1.2 = none →
        (p.processJob j d).1 = { p with processedOK := wrap64 (p.processedOK + 1) }) ∧
      ((ApplyCredit j.Credit.UserID j.Credit.Amount d).1.2 ≠ none →
        (p.processJob j d).1 = { p with processedNG := wrap64 (p.processedNG + 1) })) ∧
    (j.Kind = "debit" →
      (p.processJob j d).2 = (ApplyDebit j.Debit.UserID j.Debit.Amount d).2 ∧
      ((ApplyDebit j.Debit.UserID j.Debit.Amount d).1.2 = none →
        (p.processJob j d).1 = { p with processedOK := wrap64 (p.processedOK + 1) }) ∧
      ((ApplyDebit j.Debit.UserID j.Debit.Amount d).1.2 ≠ none →
        (p.processJob j d).1 = { p with processedNG := wrap64 (p.processedNG + 1) })) ∧
    (j.Kind = "transfer" →
      (p.processJob j d).2 =
        (ApplyTransfer j.Transfer.FromID j.Transfer.ToID j.Transfer.Amount d).2 ∧
      ((ApplyTransfer j.Transfer.FromID j.Transfer.ToID j.Transfer.Amount d).1.2 = none →
        (p.processJob j d).1 = { p with processedOK := wrap64 (p.processedOK + 1) }) ∧
      ((ApplyTransfer j.Transfer.FromID j.Transfer.ToID j.Transfer.Amount d).1.2 ≠ none →
        (p.processJob j d).1 = { p with processedNG := wrap64 (p.processedNG + 1) })) ∧
    (j.Kind ≠ "credit" → j.Kind ≠ "debit" → j.Kind ≠ "transfer" →
      (p.processJob j d).2 = d ∧
      (p.processJob j d).1 = { p with processedNG := wrap64 (p.processedNG + 1) }) := by
  refine ⟨⟨rfl, rfl, rfl⟩, ?_, ?_, ?_, ?_⟩
  · intro hk
    unfold Processor.processJob
    simp only [hk, if_true]
    cases he : (ApplyCredit j.Credit.UserID j.Credit.Amount d).1.2 <;> simp
  · intro hk
    have h1 : ¬ j.Kind = "credit" := by rw [hk]; decide
    unfold Processor.processJob
    simp only [h1, hk, if_true, if_false]
    cases he : (ApplyDebit j.Debit.UserID j.Debit.Amount d).1.2 <;> simp
  · intro hk
    have h1 : ¬ j.Kind = "credit" := by rw [hk]; decide
    have h2 : ¬ j.Kind = "debit" := by rw [hk]; decide
    unfold Processor.processJob
    simp only [h1, h2, hk, if_true, if_false]
    cases he : (ApplyTransfer j.Transfer.FromID j.Transfer.ToID j.Transfer.Amount d).1.2 <;>
      simp
  · intro h1 h2 h3
    unfold Processor.processJob
    simp [h1, h2, h3]

theorem worker_pool_simulates_processor_executes_witness :
    (Processor.processJob {} { Kind := "debit", Debit := { UserID := 1, Amount := 1500 } }
      thousandStore).1 = { processedNG := 1 } ∧
    (Processor.processJob {} { Kind := "debit", Debit := { UserID := 1, Amount := 400 } }
      thousandStore).2.balanceOf 1 = 600 :=
  ⟨((worker_pool_simulates_processor_executes (NewWorkerPool 1) overdrawJob 5 {}
      { Kind := "debit", Debit := { UserID := 1, Amount := 1500 } } thousandStore).2.2.1 rfl
      ).2.2 (by decide),
   by decide⟩

/-! ## Theorems: the batch status -/

theorem collectResults_counts (results : List (Option BatchResult)) :
    ∀ (acc : Nat × Nat × Int),
      (collectResults results acc).1 = acc.1 + results.countP isBatchSuccess ∧
      (collectResults results acc).2.1 =
        acc.2.1 + results.countP (fun r => !isBatchSuccess r) := by
  induction results with
  | nil => intro acc; simp [collectResults]
  | cons r rest ih =>
    intro acc
    obtain ⟨s0, f0, t0⟩ := acc
    cases r with
    | none =>
      have hh : isBatchSuccess (none : Option BatchResult) = false := rfl
      have := ih (s0, f0 + 1, t0)
      simp only at this
      simp only [collectResults, List.countP_cons, hh, this.1, this.2, Bool.not_false,
        Bool.false_eq_true, if_false, if_true]
      constructor <;> omega
    | some b =>
      by_cases hb : b.Success = true
      · have hh : isBatchSuccess (some b) = true := hb
        have := ih (s0 + 1, f0, wrap64 (t0 + b.Transaction.AmountCents))
        simp only at this
        simp only [collectResults, hb, List.countP_cons, hh, this.1, this.2, Bool.not_true,
          Bool.false_eq_true, if_false, if_true]
        constructor <;> omega
      · have hb2 : b.Success = false := by simpa using hb
        have hh : isBatchSuccess (some b) = false := hb2
        have := ih (s0, f0 + 1, t0)
        simp only at this
        simp only [collectResults, hb2, List.countP_cons, hh, this.1, this.2, Bool.not_false,
          Bool.false_eq_true, if_false, if_true]
        constructor <;> omega

theorem collectErrors_count (errors : List (Option Err)) :
    ∀ (failedCount : Nat),
      collectErrors errors failedCount = failedCount + errors.countP (fun e => e.isSome) := by
  induction errors with
  | nil => intro f; simp [collectErrors]
  | cons e rest ih =>
    intro f
    cases e with
    | none => simp [collectErrors, ih]
    | some err => simp [collectErrors, ih]; omega

theorem failed_note_nonempty (failedCount : Nat) :
    toString failedCount ++ " transactions failed" ≠ "" := by
  intro h
  have h1 := congrArg String.length h
  rw [String.length_append] at h1
  have h2 : " transactions failed".length = 20 := by decide
  have h3 : "".length = 0 := by decide
  omega

theorem processBatchAsync_status (bp : BatchProcessor) (batch : BatchTransaction)
    (results : List (Option BatchResult)) (errors : List (Option Err)) (now : Nat) :
    (bp.processBatchAsync batch results errors now).1 =
      updateBatchStatus { batch with Status := BatchStatusProcessing }
        (batchSuccesses results) (batchFailures results errors) now := by
  unfold BatchProcessor.processBatchAsync batchSuccesses batchFailures
  have hc := collectResults_counts results (0, 0, 0)
  simp only [hc.1, hc.2, collectErrors_count, Nat.zero_add]

/-- C24: for a batch created without an error note whose jobs ended with `s`
successes and `f` failures, `s + f >= 1`, the final status is `failed` iff
`s = 0`; if `s > 0` and `f > 0` the status is `completed` and the error note is
not empty; if `f = 0` the status is `completed` and the error note is empty. -/
theorem batch_final_status (bp : BatchProcessor) (batch : BatchTransaction)
    (results : List (Option BatchResult)) (errors : List (Option Err)) (now : Nat)
    (hnote : batch.Error = "")
    (hsize : 1 ≤ batchSuccesses results + batchFailures results errors) :
    ((bp.processBatchAsync batch results errors now).1.Status = BatchStatusFailed ↔
      batchSuccesses results = 0) ∧
    (0 < batchSuccesses results → 0 < batchFailures results errors →
      (bp.processBatchAsync batch results errors now).1.Status = BatchStatusCompleted ∧
      (bp.processBatchAsync batch results errors now).1.Error ≠ "") ∧
    (batchFailures results errors = 0 →
      (bp.processBatchAsync batch results errors now).1.Status = BatchStatusCompleted ∧
      (bp.processBatchAsync batch results errors now).1.Error = "") := by
  rw [processBatchAsync_status]
  generalize batchSuccesses results = sc at *
  generalize batchFailures results errors = fc at *
  have hcf : BatchStatusCompleted ≠ BatchStatusFailed := by decide
  unfold updateBatchStatus
  have hfc : BatchStatusFailed ≠ BatchStatusCompleted := by decide
  by_cases hf : fc = 0
  · have hs : sc ≠ 0 := by omega
    have hs1 : 0 < sc := by omega
    simp [hf, hs, hs1, hnote, hcf]
  · have hf1 : 0 < fc := by omega
    by_cases hs : sc = 0
    · simp [hf, hs, hf1, hfc]
    · have hs1 : 0 < sc := by omega
      simp [hf, hs, hs1, hf1, hcf, failed_note_nonempty]

theorem batch_final_status_witness :
    (BatchProcessor.processBatchAsync { batchSize := 10 }
      { ID := "batch_1", Status := "pending", CreatedAt := 3 }
      [some { Success := true }, some { Success := false }] [some (.errorf "queue full")]
      9).1.Status = BatchStatusCompleted ∧
    (BatchProcessor.processBatchAsync { batchSize := 10 }
      { ID := "batch_1", Status := "pending", CreatedAt := 3 }
      [some { Success := true }, some { Success := false }] [some (.errorf "queue full")]
      9).1.Error ≠ "" :=
  (batch_final_status { batchSize := 10 }
      { ID := "batch_1", Status := "pending", CreatedAt := 3 }
      [some { Success := true }, some { Success := false }] [some (.errorf "queue full")] 9
      rfl (by decide)).2.1 (by decide) (by decide)

/-- A batch accepted by `ProcessBatch` starts `pending`, without an error note
and with its transactions, at least one and at most the batch size. -/
theorem processBatch_creates_pending (bp : BatchProcessor) (transactions : List Transaction)
    (generatedID : String) (now : Nat) (batch : BatchTransaction)
    (h : bp.ProcessBatch transactions generatedID now = .ok batch) :
    batch.Status = BatchStatusPending ∧ batch.Error = "" ∧
    batch.Transactions = transactions ∧ 1 ≤ transactions.length := by
  unfold BatchProcessor.ProcessBatch at h
  by_cases h0 : transactions.length = 0
  · simp [h0] at h
  · by_cases h1 : (transactions.length : Int) > bp.batchSize
    · simp [h0, h1] at h
    · simp only [h0, h1, if_false, Except.ok.injEq] at h
      subst h
      exact ⟨rfl, rfl, rfl, by omega⟩

end BankAPI
